import Mathlib

/-! modelCheckPlugins: a shallow embedding of the scene-checking commands.

The repository holds nine host plug-in commands.  Two of them walk the NURBS
curves of the scene directly (`checkCurveSamePosition`, `checkCurveSpans0Count`);
the other seven collect the meshes of the scene into a deque, cut the deque into
index ranges, run one worker task per range and merge the partial selection
lists in task order.

Host objects are modelled by the answers the host gives for them: a DAG path is
a number, a mesh or a curve is the record of the results of the host queries
the commands make on it, and a query that returns a non-success status is
`none`.  Double and float values that are finite are modelled by the rational
numbers they denote.
-/

namespace ModelCheck

/-! ## Host status and selection lists -/

/-- Host status code, restricted to the distinction the commands make. -/
inductive MStatus where
  | kSuccess
  | kFailure
  deriving DecidableEq, Repr

/-- DAG path of a scene object, modelled as an identifier. -/
abbrev MDagPath := Nat

/-- One entry of a selection list: an object and either the whole object
(`none`, the null component) or one face of it (`some faceId`). -/
structure SelItem where
  path : MDagPath
  component : Option Nat
  deriving DecidableEq, Repr

/-- Ordered selection list of the host. -/
abbrev MSelectionList := List SelItem

/-- `MSelectionList::add(dagPath, component)` with `mergeWithExisting = false`:
the entry is appended. -/
def MSelectionList.add (l : MSelectionList) (p : MDagPath) (c : Option Nat) : MSelectionList :=
  l ++ [SelItem.mk p c]

/-- `MSelectionList::hasItem(dagPath, MObject::kNullObj)`. -/
def MSelectionList.hasItem (l : MSelectionList) (p : MDagPath) : Bool :=
  decide (SelItem.mk p none ∈ l)

/-- One step of `MSelectionList::merge` under the default strategy
`kMergeNormal`: an entry that is not on the list yet is added at its end. -/
def MSelectionList.mergeItem (l : MSelectionList) (it : SelItem) : MSelectionList :=
  if it ∈ l then l else l ++ [it]

/-- `MSelectionList::merge(other)`: the entries of `other` are merged in order. -/
def MSelectionList.merge (l other : MSelectionList) : MSelectionList :=
  other.foldl MSelectionList.mergeItem l

/-! ## Single-precision arithmetic of the partition

A finite binary32 value is modelled by the rational it denotes.  Every
operation rounds its exact result to the nearest value with a 24-bit
significand, ties to even.  The exponent range is not modelled: the values the
commands compute are `0` or lie between `1` and `2^65`. -/

/-- Binary logarithm by repeated halving; `fuel` bounds the number of halvings. -/
def log2Fuel : Nat → Nat → Nat
  | 0, _ => 0
  | fuel + 1, n => if n < 2 then 0 else log2Fuel fuel (n / 2) + 1

/-- The position of the leading bit of `n`: `2^(natLog2 n) ≤ n < 2^(natLog2 n + 1)`
for positive `n`. -/
def natLog2 (n : Nat) : Nat := log2Fuel n n

/-- The exponent `e` with `2^e ≤ a / b < 2^(e+1)`, for positive `a` and `b`. -/
def floorLog2 (a b : Nat) : Int :=
  let d : Int := (natLog2 a : Int) - (natLog2 b : Int)
  if 0 ≤ d then
    (if b * 2 ^ d.toNat ≤ a then d else d - 1)
  else
    (if b ≤ a * 2 ^ (-d).toNat then d else d - 1)

/-- Nearest integer to `num / den`, ties to the even one. -/
def roundHalfEven (num den : Nat) : Nat :=
  let m := num / den
  let r := num % den
  if 2 * r < den then m
  else if den < 2 * r then m + 1
  else if m % 2 = 0 then m else m + 1

/-- Round the positive rational `a / b` to binary32. -/
def roundPosF32 (a b : Nat) : ℚ :=
  let s : Int := 23 - floorLog2 a b
  if 0 ≤ s then
    (roundHalfEven (a * 2 ^ s.toNat) b : ℚ) / (2 ^ s.toNat : ℚ)
  else
    (roundHalfEven a (b * 2 ^ (-s).toNat) : ℚ) * (2 ^ (-s).toNat : ℚ)

/-- Round a rational to binary32 (round to nearest, ties to even). -/
def roundF32 (q : ℚ) : ℚ :=
  if q = 0 then 0
  else if 0 < q then roundPosF32 q.num.toNat q.den
  else - roundPosF32 (-q).num.toNat q.den

/-- `static_cast<float>(n)` for an unsigned integer `n`. -/
def f32OfNat (n : Nat) : ℚ := roundF32 (n : ℚ)

/-- Float division. -/
def f32Div (x y : ℚ) : ℚ := roundF32 (x / y)

/-- Float multiplication. -/
def f32Mul (x y : ℚ) : ℚ := roundF32 (x * y)

/-- `static_cast<unsigned int>(x)` for a non-negative float below `2^32`:
the fractional part is discarded. -/
def f32ToUInt (x : ℚ) : Nat := (Int.floor x).toNat

/-! ## The partition of the mesh list (`searchMesh…`, identical in the seven
mesh commands) -/

/-- `std::thread::hardware_concurrency() * 10`, an `unsigned int` product. -/
def processor_count (hardware_concurrency : Nat) : Nat :=
  (hardware_concurrency * 10) % 2 ^ 32

/-- The task count `size`: `processor_count` when it is smaller than the number
of meshes, else the number of meshes cast to `unsigned int`. -/
def taskCount (hardware_concurrency n : Nat) : Nat :=
  if processor_count hardware_concurrency < n then processor_count hardware_concurrency
  else n % 2 ^ 32

/-- `threadData[i].start = static_cast<unsigned int>(meshLength_f / size_f * i)`. -/
def taskStart (n size i : Nat) : Nat :=
  f32ToUInt (f32Mul (f32Div (f32OfNat n) (f32OfNat size)) (f32OfNat i))

/-- `threadData[i].end = static_cast<unsigned int>(meshLength_f / size_f * (i + 1))`. -/
def taskEnd (n size i : Nat) : Nat :=
  f32ToUInt (f32Mul (f32Div (f32OfNat n) (f32OfNat size)) (f32OfNat ((i + 1) % 2 ^ 32)))

/-! ## The NURBS curve commands -/

/-- Why a run stops without a result: a host call returned a non-success status
(the command returns `kFailure`), or an array was read past its end (the
behaviour of the source is undefined there). -/
inductive Fault where
  | hostFailure
  | outOfBounds
  deriving DecidableEq, Repr

/-- `MFnNurbsCurve::Form`. -/
inductive Form where
  | kInvalid
  | kOpen
  | kClosed
  | kPeriodic
  | kLast
  deriving DecidableEq, Repr

/-- World-space position `(x, y, z)` of a control vertex. -/
abbrev Point := ℚ × ℚ × ℚ

/-- One node visited by `MItDag(kDepthFirst, kNurbsCurve)`, given by the
answers of the host for it. -/
structure CurveNode where
  /-- `dagIter.getPath(dagPath)`; `none` when the call fails. -/
  getPath : Option MDagPath
  /-- Status of `MFnDagNode dagNode(dagPath, &stat)`. -/
  dagNode : MStatus
  isIntermediateObject : Bool
  /-- `dagPath.hasFn(MFn::kNurbsCurve)`. -/
  hasFnNurbsCurve : Bool
  /-- `dagPath.hasFn(MFn::kTransform)`. -/
  hasFnTransform : Bool
  /-- Status of `MFnNurbsCurve fnCurve(dagPath, &stat)`. -/
  fnCurve : MStatus
  /-- `fnCurve.getCVs(cvPositions, MSpace::kWorld)`. -/
  getCVs : Option (List Point)
  /-- `fnCurve.form(&stat)`. -/
  form : Option Form
  /-- `fnCurve.numSpans(&stat)`. -/
  numSpans : Option Int
  deriving DecidableEq, Repr

/-- The two `continue` guards shared by the curve commands: the node is an
intermediate object, or it is not a NURBS curve shape. -/
def CurveNode.skipped (node : CurveNode) : Bool :=
  node.isIntermediateObject || (!node.hasFnNurbsCurve || node.hasFnTransform)

namespace checkCurveSamePosition

/-- `check_map.count(cvp)` / `check_map[cvp]` on the ordered map, kept as an
association list with one entry per key. -/
def mapFind : List (Point × MDagPath) → Point → Option MDagPath
  | [], _ => none
  | (k, v) :: m, cvp => if k = cvp then some v else mapFind m cvp

/-- The locals `check_map` and the member `_invalid` that the loops update. -/
structure ScanState where
  check_map : List (Point × MDagPath)
  invalid : MSelectionList
  deriving DecidableEq, Repr

/-- `if (!_invalid.hasItem(p)) _invalid.add(p)`. -/
def addIfAbsent (l : MSelectionList) (p : MDagPath) : MSelectionList :=
  if l.hasItem p then l else l.add p none

/-- Body of the CV loop for one position `cvp` of the curve `dagPath`. -/
def visitCV (dagPath : MDagPath) (st : ScanState) (cvp : Point) : ScanState :=
  match mapFind st.check_map cvp with
  | none => ScanState.mk ((cvp, dagPath) :: st.check_map) st.invalid
  | some first => ScanState.mk st.check_map (addIfAbsent (addIfAbsent st.invalid dagPath) first)

/-- The loop bound `numCVs`: the array length (an `unsigned int`), less 3 in
`unsigned int` arithmetic for a periodic curve. -/
def numCVs (length : Nat) (form : Form) : Nat :=
  if form = Form.kPeriodic then (length + 2 ^ 32 - 3) % 2 ^ 32 else length

/-- `for (i = …; i < numCVs; i++)` with `remaining = numCVs - i`; reading
`cvPositions[i]` past the end of the array is a fault. -/
def cvLoop (dagPath : MDagPath) (cvPositions : List Point) :
    Nat → Nat → ScanState → Except Fault ScanState
  | 0, _, st => Except.ok st
  | remaining + 1, i, st =>
    match cvPositions[i]? with
    | none => Except.error Fault.outOfBounds
    | some cvp => cvLoop dagPath cvPositions remaining (i + 1) (visitCV dagPath st cvp)

/-- Body of the DAG loop of `doIt` for one node. -/
def visitNode (st : ScanState) (node : CurveNode) : Except Fault ScanState :=
  match node.getPath with
  | none => Except.error Fault.hostFailure
  | some dagPath =>
    if node.dagNode ≠ MStatus.kSuccess then Except.error Fault.hostFailure
    else if node.isIntermediateObject then Except.ok st
    else if !node.hasFnNurbsCurve || node.hasFnTransform then Except.ok st
    else if node.fnCurve ≠ MStatus.kSuccess then Except.error Fault.hostFailure
    else
      match node.getCVs with
      | none => Except.error Fault.hostFailure
      | some cvPositions =>
        match node.form with
        | none => Except.error Fault.hostFailure
        | some form =>
          cvLoop dagPath cvPositions (numCVs cvPositions.length form) 0 st

/-- The DAG loop of `doIt`. -/
def dagLoop : ScanState → List CurveNode → Except Fault ScanState
  | st, [] => Except.ok st
  | st, node :: rest =>
    match visitNode st node with
    | Except.ok st' => dagLoop st' rest
    | Except.error e => Except.error e

/-- The member `_invalid` when the DAG loop of `doIt` has run to its end. -/
def doIt (scene : List CurveNode) : Except Fault MSelectionList :=
  match dagLoop (ScanState.mk [] []) scene with
  | Except.ok st => Except.ok st.invalid
  | Except.error e => Except.error e

/-- CV `i` of the `k`-th visited node is examined by the CV loop: the node is
not skipped, it is the curve `p`, `i` is below the loop bound and the CV lies
at `x`. -/
def ExaminedCV (scene : List CurveNode) (k i : Nat) (p : MDagPath) (x : Point) : Prop :=
  ∃ node cvs form, scene[k]? = some node ∧ node.skipped = false ∧ node.getPath = some p ∧
    node.getCVs = some cvs ∧ node.form = some form ∧
    i < numCVs cvs.length form ∧ cvs[i]? = some x

/-- No host call made for the node fails, and the CV loop stays inside the
array. -/
def NodeOk (node : CurveNode) : Prop :=
  node.getPath ≠ none ∧ node.dagNode = MStatus.kSuccess ∧
    (node.skipped = false →
      node.fnCurve = MStatus.kSuccess ∧
      ∃ cvs form, node.getCVs = some cvs ∧ node.form = some form ∧
        numCVs cvs.length form ≤ cvs.length)

end checkCurveSamePosition

namespace checkCurveSpans0Count

/-- Body of the DAG loop of `doIt` for one node. -/
def visitNode (invalid : MSelectionList) (node : CurveNode) : Except Fault MSelectionList :=
  match node.getPath with
  | none => Except.error Fault.hostFailure
  | some dagPath =>
    if node.dagNode ≠ MStatus.kSuccess then Except.error Fault.hostFailure
    else if node.isIntermediateObject then Except.ok invalid
    else if !node.hasFnNurbsCurve || node.hasFnTransform then Except.ok invalid
    else if node.fnCurve ≠ MStatus.kSuccess then Except.ok (invalid.add dagPath none)
    else
      match node.numSpans with
      | none => Except.error Fault.hostFailure
      | some numSpans =>
        if numSpans = 0 then Except.ok (invalid.add dagPath none) else Except.ok invalid

/-- The DAG loop of `doIt`. -/
def dagLoop : MSelectionList → List CurveNode → Except Fault MSelectionList
  | invalid, [] => Except.ok invalid
  | invalid, node :: rest =>
    match visitNode invalid node with
    | Except.ok invalid' => dagLoop invalid' rest
    | Except.error e => Except.error e

/-- The member `_invalid` when the DAG loop of `doIt` has run to its end. -/
def doIt (scene : List CurveNode) : Except Fault MSelectionList :=
  dagLoop [] scene

/-- Every host call made for the node succeeds, except possibly the creation of
the curve function set. -/
def NodeOk (node : CurveNode) : Prop :=
  node.getPath ≠ none ∧ node.dagNode = MStatus.kSuccess ∧
    (node.skipped = false → node.fnCurve = MStatus.kSuccess → node.numSpans ≠ none)

/-- The node is a non-intermediate curve shape with path `p` whose function set
cannot be attached or whose span count is 0. -/
def ZeroSpans (node : CurveNode) (p : MDagPath) : Prop :=
  node.skipped = false ∧ node.getPath = some p ∧
    (node.fnCurve ≠ MStatus.kSuccess ∨ node.numSpans = some 0)

end checkCurveSpans0Count

/-! ## The mesh commands: shared skeleton

Operations on iterators and on selection lists (`setIndex`, `currentItem`,
`add`, `hasItem`) are taken to succeed; every other host call whose status the
source checks can fail. -/

/-- What the host answers outside the scene: the hardware concurrency, the
status of the DAG iterator creation, of the thread pool initialisation and of
the `i`-th merge of a partial list. -/
structure Host where
  hardware_concurrency : Nat
  dagIter : MStatus
  poolInit : MStatus
  mergeStat : Nat → MStatus

/-- One node visited by `MItDag(kDepthFirst, kMesh)`; `geom` holds the answers
of the host to the queries of one command. -/
structure Mesh (G : Type) where
  /-- Status of `dagIter.getPath(dagPath)`. -/
  getPath : MStatus
  path : MDagPath
  /-- Status of `MFnDagNode dagNode(dagPath, &stat)`. -/
  dagNode : MStatus
  isIntermediateObject : Bool
  geom : G

/-- The loop of `getAllMesh`: the non-intermediate meshes in traversal order,
or `none` when a host call fails. -/
def getAllMeshLoop {G : Type} : List (Mesh G) → Option (List (Mesh G))
  | [] => some []
  | node :: rest =>
    if node.getPath ≠ MStatus.kSuccess then none
    else if node.dagNode ≠ MStatus.kSuccess then none
    else
      match getAllMeshLoop rest with
      | none => none
      | some meshes => if node.isIntermediateObject then some meshes else some (node :: meshes)

/-- `getAllMesh`. -/
def getAllMesh {G : Type} (host : Host) (scene : List (Mesh G)) : Option (List (Mesh G)) :=
  if host.dagIter ≠ MStatus.kSuccess then none else getAllMeshLoop scene

/-- What a worker task leaves in its task record. -/
structure TdResult where
  invalidList : MSelectionList
  stat : MStatus
  deriving DecidableEq, Repr

/-- Outcome of the loop body of a worker for one mesh: go on with the next mesh,
or return from the task. -/
inductive Step where
  | next (invalidList : MSelectionList)
  | ret (td : TdResult)

/-- The mesh loop of a worker task over the meshes of its range. -/
def tdLoop {G : Type} (visit : MSelectionList → Mesh G → Step) :
    MSelectionList → List (Mesh G) → TdResult
  | invalidList, [] => TdResult.mk invalidList MStatus.kSuccess
  | invalidList, mesh :: rest =>
    match visit invalidList mesh with
    | Step.next invalidList' => tdLoop visit invalidList' rest
    | Step.ret td => td

/-- The meshes with index in `[start, stop)`, which the worker loop
`for (i = td->start; i < td->end; ++i)` reads as `meshes[i]`.  An index at or
past the end of the deque is left out (the source would read past the deque). -/
def slice {α : Type} (meshes : List α) (start stop : Nat) : List α :=
  (meshes.drop start).take (stop - start)

/-- The merge loop that follows `executeAndJoin`: `i` is the task index, the
pair is `taskData->invalidList` and `taskData->stat`.  A failed merge leaves the
list as it was. -/
def mergeLoop (mergeStat : Nat → MStatus) :
    Nat → List TdResult → MSelectionList → MStatus → MSelectionList × MStatus
  | _, [], invalidList, stat => (invalidList, stat)
  | i, td :: rest, invalidList, _ =>
    if 0 < td.invalidList.length then
      (if mergeStat i ≠ MStatus.kSuccess then (invalidList, MStatus.kFailure)
       else if td.stat ≠ MStatus.kSuccess then (invalidList.merge td.invalidList, td.stat)
       else mergeLoop mergeStat (i + 1) rest (invalidList.merge td.invalidList) td.stat)
    else
      (if td.stat ≠ MStatus.kSuccess then (invalidList, td.stat)
       else mergeLoop mergeStat (i + 1) rest invalidList td.stat)

/-- The task records after `executeAndJoin`: task `i` has run the worker on the
range `[taskStart, taskEnd)`. -/
def runTasks {G : Type} (worker : List (Mesh G) → TdResult) (size : Nat)
    (meshes : List (Mesh G)) : List TdResult :=
  (List.range size).map fun i =>
    worker (slice meshes (taskStart meshes.length size i) (taskEnd meshes.length size i))

/-- The parallel region `searchMesh…`: `taskData->invalidList` and
`taskData->stat` when it returns. -/
def searchMesh {G : Type} (worker : List (Mesh G) → TdResult) (host : Host)
    (meshes : List (Mesh G)) : MSelectionList × MStatus :=
  mergeLoop host.mergeStat 0
    (runTasks worker (taskCount host.hardware_concurrency meshes.length) meshes)
    [] MStatus.kSuccess

/-- The part of `doIt` between flag parsing and `redoIt`: the status and the
member `_invalid`.  `checkSize` tells whether the command has the early exit
for an empty mesh list. -/
def meshDoIt {G : Type} (checkSize : Bool) (worker : List (Mesh G) → TdResult) (host : Host)
    (scene : List (Mesh G)) : MStatus × MSelectionList :=
  match getAllMesh host scene with
  | none => (MStatus.kFailure, [])
  | some meshes =>
    if checkSize && meshes.length = 0 then (MStatus.kSuccess, [])
    else if host.poolInit ≠ MStatus.kSuccess then (MStatus.kFailure, [])
    else
      match searchMesh worker host meshes with
      | (invalidList, MStatus.kSuccess) => (MStatus.kSuccess, invalidList)
      | (_, MStatus.kFailure) => (MStatus.kFailure, [])

/-! ## checkMeshFace0Count -/

namespace checkMeshFace0Count

/-- Host answers used by the worker. -/
structure Geom where
  /-- Status of `MFnMesh fnMesh(dagPath, &td->stat)`. -/
  fnMesh : MStatus
  /-- `fnMesh.numPolygons(&td->stat)`. -/
  numPolygons : Option Int

/-- Loop body of the worker. -/
def visitMesh (invalidList : MSelectionList) (mesh : Mesh Geom) : Step :=
  if mesh.geom.fnMesh ≠ MStatus.kSuccess then Step.ret (TdResult.mk invalidList MStatus.kFailure)
  else
    match mesh.geom.numPolygons with
    | none => Step.ret (TdResult.mk invalidList MStatus.kFailure)
    | some numPolygons =>
      if numPolygons = 0 then Step.next (invalidList.add mesh.path none)
      else Step.next invalidList

/-- The worker `searchMeshFace0Count(void* data)` on the meshes of its range. -/
def searchMeshFace0Count (meshes : List (Mesh Geom)) : TdResult :=
  tdLoop visitMesh [] meshes

/-- Status and `_invalid` of `doIt`. -/
def doIt (host : Host) (scene : List (Mesh Geom)) : MStatus × MSelectionList :=
  meshDoIt true searchMeshFace0Count host scene

end checkMeshFace0Count

/-! ## checkMeshNormalLock -/

namespace checkMeshNormalLock

/-- Host answers used by the worker. -/
structure Geom where
  /-- Status of `MFnMesh fnMesh(dagPath, &td->stat)`. -/
  fnMesh : MStatus
  /-- `fnMesh.numNormals(&td->stat)`. -/
  numNormals : Option Int
  /-- `fnMesh.isNormalLocked(n, &td->stat)`. -/
  isNormalLocked : Nat → Option Bool

/-- `for (n = …; n < numNormals; ++n)` with `remaining = numNormals - n`:
`some true` when a locked normal stops the loop, `none` when a query fails. -/
def normalLoop (g : Geom) : Nat → Nat → Option Bool
  | 0, _ => some false
  | remaining + 1, n =>
    match g.isNormalLocked n with
    | none => none
    | some true => some true
    | some false => normalLoop g remaining (n + 1)

/-- Loop body of the worker. -/
def visitMesh (invalidList : MSelectionList) (mesh : Mesh Geom) : Step :=
  if mesh.geom.fnMesh ≠ MStatus.kSuccess then Step.ret (TdResult.mk invalidList MStatus.kFailure)
  else
    match mesh.geom.numNormals with
    | none => Step.ret (TdResult.mk invalidList MStatus.kFailure)
    | some numNormals =>
      match normalLoop mesh.geom numNormals.toNat 0 with
      | none => Step.ret (TdResult.mk invalidList MStatus.kFailure)
      | some true => Step.next (invalidList.add mesh.path none)
      | some false => Step.next invalidList

/-- The worker `searchMeshNormalLockTd` on the meshes of its range. -/
def searchMeshNormalLockTd (meshes : List (Mesh Geom)) : TdResult :=
  tdLoop visitMesh [] meshes

/-- Status and `_invalid` of `doIt`. -/
def doIt (host : Host) (scene : List (Mesh Geom)) : MStatus × MSelectionList :=
  meshDoIt false searchMeshNormalLockTd host scene

end checkMeshNormalLock

/-! ## checkMeshFreeze -/

namespace checkMeshFreeze

/-- Host answers used by the worker, for the array plug `pnts` of the mesh. -/
structure Geom where
  /-- Status of `MFnDependencyNode fnDependencyNode(dagPath.node(), &td->stat)`. -/
  fnDependencyNode : MStatus
  /-- Status of `findPlug("pnts", false, &td->stat)`. -/
  findPlug : MStatus
  /-- `pntsPlug.numElements(&td->stat)`. -/
  numElements : Option Nat
  /-- Status of `pntsPlug.elementByPhysicalIndex(e, &td->stat)`. -/
  elementByPhysicalIndex : Nat → MStatus
  /-- `pntPlug.numChildren(&td->stat)` of element `e`. -/
  numChildren : Nat → Option Nat
  /-- Status of `pntPlug.child(c, &td->stat)` of element `e`. -/
  child : Nat → Nat → MStatus
  /-- `childPlug.asMDistance(&td->stat).asCentimeters()` of child `c` of element `e`. -/
  asMDistance : Nat → Nat → Option ℚ

/-- The loop over the children of element `e`: `some true` when a non-zero value
stops it, `none` when a host call fails. -/
def childLoop (g : Geom) (e : Nat) : Nat → Nat → Option Bool
  | 0, _ => some false
  | remaining + 1, c =>
    if g.child e c ≠ MStatus.kSuccess then none
    else
      match g.asMDistance e c with
      | none => none
      | some value => if value ≠ 0 then some true else childLoop g e remaining (c + 1)

/-- The loop over the elements of `pnts`: the final `hasNonFreeze`, or `none` when
a host call fails. -/
def elementLoop (g : Geom) : Nat → Nat → Option Bool
  | 0, _ => some false
  | remaining + 1, e =>
    if g.elementByPhysicalIndex e ≠ MStatus.kSuccess then none
    else
      match g.numChildren e with
      | none => none
      | some numChildren =>
        match childLoop g e numChildren 0 with
        | none => none
        | some true => some true
        | some false => elementLoop g remaining (e + 1)

/-- Loop body of the worker. -/
def visitMesh (invalidList : MSelectionList) (mesh : Mesh Geom) : Step :=
  if mesh.geom.fnDependencyNode ≠ MStatus.kSuccess then
    Step.ret (TdResult.mk invalidList MStatus.kFailure)
  else if mesh.geom.findPlug ≠ MStatus.kSuccess then
    Step.ret (TdResult.mk invalidList MStatus.kFailure)
  else
    match mesh.geom.numElements with
    | none => Step.ret (TdResult.mk invalidList MStatus.kFailure)
    | some numElm =>
      match elementLoop mesh.geom numElm 0 with
      | none => Step.ret (TdResult.mk invalidList MStatus.kFailure)
      | some true => Step.next (invalidList.add mesh.path none)
      | some false => Step.next invalidList

/-- The worker `searchMeshFreezeTd` on the meshes of its range. -/
def searchMeshFreezeTd (meshes : List (Mesh Geom)) : TdResult :=
  tdLoop visitMesh [] meshes

/-- Status and `_invalid` of `doIt`. -/
def doIt (host : Host) (scene : List (Mesh Geom)) : MStatus × MSelectionList :=
  meshDoIt true searchMeshFreezeTd host scene

end checkMeshFreeze

/-! ## checkMeshDoubleFace -/

namespace checkMeshDoubleFace

/-- Host answers used by the worker. -/
structure Geom where
  /-- Status of `MFnMesh fnMesh(dagPath, &td->stat)`. -/
  fnMesh : MStatus
  /-- `fnMesh.getPoints(pnts, MSpace::kObject)`: the position of every vertex id. -/
  getPoints : Option (List Point)
  /-- Status of `MItMeshPolygon itMeshPolygon(dagPath, MObject::kNullObj, &td->stat)`. -/
  itMeshPolygon : MStatus
  /-- `fnMesh.numPolygons(&td->stat)`. -/
  numPolygons : Option Int
  /-- `fnMesh.getPolygonVertices(faceId, vtxIds)`. -/
  getPolygonVertices : Nat → Option (List Nat)

/-- `check_map.count(pnt)` / `check_map[pnt]` on the hash map, kept as an
association list with one entry per key. -/
def mapFind : List (Point × Nat) → Point → Option Nat
  | [], _ => none
  | (k, v) :: m, pnt => if k = pnt then some v else mapFind m pnt

/-- The vertex loop from vertex id `vtxId` on; the state is `check_map` and
`invalidVtxIds` (a set, kept as a list). -/
def vertexLoop : List Point → Nat → List (Point × Nat) × List Nat → List (Point × Nat) × List Nat
  | [], _, st => st
  | pnt :: rest, vtxId, (check_map, invalidVtxIds) =>
    match mapFind check_map pnt with
    | none => vertexLoop rest (vtxId + 1) ((pnt, vtxId) :: check_map, invalidVtxIds)
    | some sameVtxId =>
      vertexLoop rest (vtxId + 1) (check_map, sameVtxId :: vtxId :: invalidVtxIds)

/-- `invalidVtxIds` after the vertex loop, from cleared containers. -/
def invalidVtxIds (pnts : List Point) : List Nat :=
  (vertexLoop pnts 0 ([], [])).2

/-- The inner loop over the vertices of a face: the final `isInvalidFace`. -/
def isInvalidFace (invalidVtxIds : List Nat) (vtxIds : List Nat) : Bool :=
  vtxIds.all fun vtxId => decide (vtxId ∈ invalidVtxIds)

/-- The face loop with `remaining = numPolygons - faceId`; a failed host call
ends it with a failure status. -/
def faceLoop (g : Geom) (dagPath : MDagPath) (invalidVtxIds : List Nat) :
    Nat → Nat → MSelectionList → TdResult
  | 0, _, invalidList => TdResult.mk invalidList MStatus.kSuccess
  | remaining + 1, faceId, invalidList =>
    match g.getPolygonVertices faceId with
    | none => TdResult.mk invalidList MStatus.kFailure
    | some vtxIds =>
      if isInvalidFace invalidVtxIds vtxIds then
        faceLoop g dagPath invalidVtxIds remaining (faceId + 1)
          (invalidList.add dagPath (some faceId))
      else faceLoop g dagPath invalidVtxIds remaining (faceId + 1) invalidList

/-- Loop body of the worker. -/
def visitMesh (invalidList : MSelectionList) (mesh : Mesh Geom) : Step :=
  if mesh.geom.fnMesh ≠ MStatus.kSuccess then Step.ret (TdResult.mk invalidList MStatus.kFailure)
  else
    match mesh.geom.getPoints with
    | none => Step.ret (TdResult.mk invalidList MStatus.kFailure)
    | some pnts =>
      if (invalidVtxIds pnts).length = 0 then Step.next invalidList
      else if mesh.geom.itMeshPolygon ≠ MStatus.kSuccess then
        Step.ret (TdResult.mk invalidList MStatus.kFailure)
      else
        match mesh.geom.numPolygons with
        | none => Step.ret (TdResult.mk invalidList MStatus.kFailure)
        | some numPolygons =>
          match faceLoop mesh.geom mesh.path (invalidVtxIds pnts) numPolygons.toNat 0
              invalidList with
          | TdResult.mk invalidList' MStatus.kSuccess => Step.next invalidList'
          | TdResult.mk invalidList' MStatus.kFailure =>
            Step.ret (TdResult.mk invalidList' MStatus.kFailure)

/-- The worker `searchDoubleFaceTd` on the meshes of its range. -/
def searchDoubleFaceTd (meshes : List (Mesh Geom)) : TdResult :=
  tdLoop visitMesh [] meshes

/-- Status and `_invalid` of `doIt`. -/
def doIt (host : Host) (scene : List (Mesh Geom)) : MStatus × MSelectionList :=
  meshDoIt true searchDoubleFaceTd host scene

end checkMeshDoubleFace

/-! ## The UV commands: flags -/

/-- The flags of a UV command as given on the command line. -/
structure UVFlags where
  select : Bool
  /-- The argument of `-uvSet`, when the flag is given. -/
  uvSet : Option String
  /-- Whether `-allUVSet` is given. -/
  allUVSet : Bool

/-- The flag fields of `TaskData`. -/
structure TaskData where
  uvSet : String
  allUVSet : Bool
  deriving DecidableEq, Repr

/-- Flag parsing in `doIt` of the three UV commands.  `TaskData taskData;` leaves
the `bool` member `allUVSet` without an initial value and only the branch for a
given `-allUVSet` assigns it; `indeterminate` is what the member holds
otherwise. -/
def parseFlags (flags : UVFlags) (indeterminate : Bool) : TaskData :=
  TaskData.mk
    (match flags.uvSet with
     | some name => name
     | none => "map1")
    (if flags.allUVSet then true else indeterminate)

/-! ## checkMeshUVFlip -/

namespace checkMeshUVFlip

/-- Host answers used by the worker. -/
structure Geom where
  /-- Status of `MFnMesh fnMesh(dagPath, &td->stat)`. -/
  fnMesh : MStatus
  /-- `fnMesh.numPolygons(&numPolygonsStat)`. -/
  numPolygons : Option Int
  /-- `fnMesh.getUVSetNames(uvSetNames)`. -/
  getUVSetNames : Option (List String)
  /-- Status of `MItMeshPolygon itMeshPolygon(dagPath, MObject::kNullObj, &td->stat)`. -/
  itMeshPolygon : MStatus
  /-- Number of faces the polygon iterator walks. -/
  polygonCount : Nat
  /-- `itMeshPolygon.isUVReversed(&uvSetName, &isUVReversedStat)` at face `f`: the
  returned value and the status. -/
  isUVReversed : Nat → String → Bool × MStatus

/-- The test `isFlip || isUVReversedStat != MStatus::kSuccess`. -/
def flipped (g : Geom) (f : Nat) (uvSetName : String) : Bool :=
  (g.isUVReversed f uvSetName).1 || decide ((g.isUVReversed f uvSetName).2 ≠ MStatus.kSuccess)

/-- The loop over `uvSetNames` for face `f` (the `-allUVSet` branch). -/
def setLoop (g : Geom) (dagPath : MDagPath) (f : Nat) :
    List String → MSelectionList → MSelectionList
  | [], invalidList => invalidList
  | uvSetName :: rest, invalidList =>
    if flipped g f uvSetName then setLoop g dagPath f rest (invalidList.add dagPath (some f))
    else setLoop g dagPath f rest invalidList

/-- The polygon iterator loop, `remaining` faces left from face `f` on. -/
def faceLoop (taskData : TaskData) (g : Geom) (dagPath : MDagPath) (uvSetNames : List String) :
    Nat → Nat → MSelectionList → MSelectionList
  | 0, _, invalidList => invalidList
  | remaining + 1, f, invalidList =>
    if taskData.allUVSet then
      faceLoop taskData g dagPath uvSetNames remaining (f + 1)
        (setLoop g dagPath f uvSetNames invalidList)
    else if flipped g f taskData.uvSet then
      faceLoop taskData g dagPath uvSetNames remaining (f + 1)
        (invalidList.add dagPath (some f))
    else faceLoop taskData g dagPath uvSetNames remaining (f + 1) invalidList

/-- Loop body of the worker.  A failed polygon-count query returns through
`numPolygonsStat` and leaves `td->stat` as it is. -/
def visitMesh (taskData : TaskData) (invalidList : MSelectionList) (mesh : Mesh Geom) : Step :=
  if mesh.geom.fnMesh ≠ MStatus.kSuccess then Step.ret (TdResult.mk invalidList MStatus.kFailure)
  else
    match mesh.geom.numPolygons with
    | none => Step.ret (TdResult.mk invalidList MStatus.kSuccess)
    | some numPolygons =>
      if numPolygons = 0 then Step.next invalidList
      else
        match mesh.geom.getUVSetNames with
        | none => Step.ret (TdResult.mk invalidList MStatus.kFailure)
        | some uvSetNames =>
          if decide (taskData.uvSet ∉ uvSetNames) && !taskData.allUVSet then
            Step.next invalidList
          else if mesh.geom.itMeshPolygon ≠ MStatus.kSuccess then
            Step.ret (TdResult.mk invalidList MStatus.kFailure)
          else
            Step.next
              (faceLoop taskData mesh.geom mesh.path uvSetNames mesh.geom.polygonCount 0
                invalidList)

/-- The worker `searchMeshUVFlipTd` on the meshes of its range. -/
def searchMeshUVFlipTd (taskData : TaskData) (meshes : List (Mesh Geom)) : TdResult :=
  tdLoop (visitMesh taskData) [] meshes

/-- Status and `_invalid` of `doIt`. -/
def doIt (host : Host) (flags : UVFlags) (indeterminate : Bool) (scene : List (Mesh Geom)) :
    MStatus × MSelectionList :=
  meshDoIt true (searchMeshUVFlipTd (parseFlags flags indeterminate)) host scene

end checkMeshUVFlip

/-! ## checkMeshUVNegative -/

namespace checkMeshUVNegative

/-- Host answers used by the worker. -/
structure Geom where
  /-- Status of `MFnMesh fnMesh(dagPath, &td->stat)`. -/
  fnMesh : MStatus
  /-- `fnMesh.numPolygons(&numPolygonsStat)`. -/
  numPolygons : Option Int
  /-- `fnMesh.getUVSetNames(uvSetNames)`. -/
  getUVSetNames : Option (List String)
  /-- Status of `MItMeshPolygon itMeshPolygon(dagPath, MObject::kNullObj, &td->stat)`. -/
  itMeshPolygon : MStatus
  /-- Number of faces the polygon iterator walks. -/
  polygonCount : Nat
  /-- `itMeshPolygon.getUVs(uArray, vArray, &uvSetName)` at face `f`: the pairs
  `(uArray[uv], vArray[uv])`. -/
  getUVs : Nat → String → Option (List (ℚ × ℚ))

/-- The loop that computes `hasNegative`. -/
def hasNegative (uvs : List (ℚ × ℚ)) : Bool :=
  uvs.any fun uv => decide (uv.1 < 0) || decide (uv.2 < 0)

/-- The loop over `uvSetNames` for face `f` (the `-allUVSet` branch); a failed
`getUVs` ends it with a failure status. -/
def setLoop (g : Geom) (dagPath : MDagPath) (f : Nat) :
    List String → MSelectionList → TdResult
  | [], invalidList => TdResult.mk invalidList MStatus.kSuccess
  | uvSetName :: rest, invalidList =>
    match g.getUVs f uvSetName with
    | none => TdResult.mk invalidList MStatus.kFailure
    | some uvs =>
      if hasNegative uvs then setLoop g dagPath f rest (invalidList.add dagPath (some f))
      else setLoop g dagPath f rest invalidList

/-- The polygon iterator loop, `remaining` faces left from face `f` on. -/
def faceLoop (taskData : TaskData) (g : Geom) (dagPath : MDagPath) (uvSetNames : List String) :
    Nat → Nat → MSelectionList → TdResult
  | 0, _, invalidList => TdResult.mk invalidList MStatus.kSuccess
  | remaining + 1, f, invalidList =>
    if taskData.allUVSet then
      match setLoop g dagPath f uvSetNames invalidList with
      | TdResult.mk invalidList' MStatus.kSuccess =>
        faceLoop taskData g dagPath uvSetNames remaining (f + 1) invalidList'
      | TdResult.mk invalidList' MStatus.kFailure => TdResult.mk invalidList' MStatus.kFailure
    else
      match g.getUVs f taskData.uvSet with
      | none => TdResult.mk invalidList MStatus.kFailure
      | some uvs =>
        if hasNegative uvs then
          faceLoop taskData g dagPath uvSetNames remaining (f + 1)
            (invalidList.add dagPath (some f))
        else faceLoop taskData g dagPath uvSetNames remaining (f + 1) invalidList

/-- Loop body of the worker.  A failed polygon-count query returns through
`numPolygonsStat` and leaves `td->stat` as it is. -/
def visitMesh (taskData : TaskData) (invalidList : MSelectionList) (mesh : Mesh Geom) : Step :=
  if mesh.geom.fnMesh ≠ MStatus.kSuccess then Step.ret (TdResult.mk invalidList MStatus.kFailure)
  else
    match mesh.geom.numPolygons with
    | none => Step.ret (TdResult.mk invalidList MStatus.kSuccess)
    | some numPolygons =>
      if numPolygons = 0 then Step.next invalidList
      else
        match mesh.geom.getUVSetNames with
        | none => Step.ret (TdResult.mk invalidList MStatus.kFailure)
        | some uvSetNames =>
          if decide (taskData.uvSet ∉ uvSetNames) && !taskData.allUVSet then
            Step.next invalidList
          else if mesh.geom.itMeshPolygon ≠ MStatus.kSuccess then
            Step.ret (TdResult.mk invalidList MStatus.kFailure)
          else
            match faceLoop taskData mesh.geom mesh.path uvSetNames mesh.geom.polygonCount 0
                invalidList with
            | TdResult.mk invalidList' MStatus.kSuccess => Step.next invalidList'
            | TdResult.mk invalidList' MStatus.kFailure =>
              Step.ret (TdResult.mk invalidList' MStatus.kFailure)

/-- The worker `searchMeshUVNegativeTd` on the meshes of its range. -/
def searchMeshUVNegativeTd (taskData : TaskData) (meshes : List (Mesh Geom)) : TdResult :=
  tdLoop (visitMesh taskData) [] meshes

/-- Status and `_invalid` of `doIt`. -/
def doIt (host : Host) (flags : UVFlags) (indeterminate : Bool) (scene : List (Mesh Geom)) :
    MStatus × MSelectionList :=
  meshDoIt false (searchMeshUVNegativeTd (parseFlags flags indeterminate)) host scene

end checkMeshUVNegative

/-! ## checkMeshUVTilingOver -/

namespace checkMeshUVTilingOver

/-- Host answers used by the worker. -/
structure Geom where
  /-- Status of `MFnMesh fnMesh(dagPath, &td->stat)`. -/
  fnMesh : MStatus
  /-- `fnMesh.numPolygons(&numPolygonsStat)`. -/
  numPolygons : Option Int
  /-- `fnMesh.getUVSetNames(uvSetNames)`. -/
  getUVSetNames : Option (List String)
  /-- `fnMesh.getUvShellsIds(uvShellIds, nbUvShells, &uvSetName)`: the shell id of
  every UV id. -/
  getUvShellsIds : String → Option (List Int)
  /-- `fnMesh.numUVs(uvSetName, &td->stat)`. -/
  numUVs : String → Option Int
  /-- `fnMesh.getUV(uvId, u, v, &uvSetName)`. -/
  getUV : String → Nat → Option (ℚ × ℚ)

/-- The cast `(int)u`: the fractional part is discarded. -/
def toInt (u : ℚ) : Int :=
  if 0 ≤ u then Int.floor u else Int.ceil u

/-- `UVTile`, with `operator==` and `operator!=` the comparison of both fields. -/
structure UVTile where
  u : Int
  v : Int
  deriving DecidableEq, Repr

/-- `tileMap.count(uvShellId)` / `tileMap[uvShellId]` on the hash map, kept as an
association list with one entry per key. -/
def mapFind : List (Int × UVTile) → Int → Option UVTile
  | [], _ => none
  | (k, t) :: m, uvShellId => if k = uvShellId then some t else mapFind m uvShellId

/-- How the loop over the UV ids of one UV set ends. -/
inductive UVLoopEnd where
  /-- Every UV id was visited. -/
  | done
  /-- A tile differed from the tile kept for its shell: the mesh is added and
  the loop left. -/
  | tilingOver
  /-- A host call failed. -/
  | failed
  deriving DecidableEq, Repr

/-- The loop over the UV ids of a UV set, `remaining = numUV - uvId`.  A UV id
past the end of `uvShellIds` is read as shell `0`. -/
def uvLoop (g : Geom) (uvSetName : String) (uvShellIds : List Int) :
    Nat → Nat → List (Int × UVTile) → UVLoopEnd
  | 0, _, _ => UVLoopEnd.done
  | remaining + 1, uvId, tileMap =>
    match g.getUV uvSetName uvId with
    | none => UVLoopEnd.failed
    | some (u, v) =>
      match mapFind tileMap (uvShellIds.getD uvId 0) with
      | none =>
        uvLoop g uvSetName uvShellIds remaining (uvId + 1)
          ((uvShellIds.getD uvId 0, UVTile.mk (toInt u) (toInt v)) :: tileMap)
      | some other =>
        if UVTile.mk (toInt u) (toInt v) ≠ other then UVLoopEnd.tilingOver
        else uvLoop g uvSetName uvShellIds remaining (uvId + 1) tileMap

/-- The check of one UV set, from `getUvShellsIds` to the end of the UV loop,
with a cleared `tileMap`. -/
def checkSet (g : Geom) (uvSetName : String) : UVLoopEnd :=
  match g.getUvShellsIds uvSetName with
  | none => UVLoopEnd.failed
  | some uvShellIds =>
    match g.numUVs uvSetName with
    | none => UVLoopEnd.failed
    | some numUV => uvLoop g uvSetName uvShellIds numUV.toNat 0 []

/-- The loop over `uvSetNames` (the `-allUVSet` branch); it is left as soon as
the mesh is on the task's invalid list. -/
def setLoop (g : Geom) (dagPath : MDagPath) : List String → MSelectionList → TdResult
  | [], invalidList => TdResult.mk invalidList MStatus.kSuccess
  | uvSetName :: rest, invalidList =>
    match checkSet g uvSetName with
    | UVLoopEnd.failed => TdResult.mk invalidList MStatus.kFailure
    | UVLoopEnd.tilingOver =>
      if (invalidList.add dagPath none).hasItem dagPath then
        TdResult.mk (invalidList.add dagPath none) MStatus.kSuccess
      else setLoop g dagPath rest (invalidList.add dagPath none)
    | UVLoopEnd.done =>
      if invalidList.hasItem dagPath then TdResult.mk invalidList MStatus.kSuccess
      else setLoop g dagPath rest invalidList

/-- Loop body of the worker.  A failed polygon-count query returns through
`numPolygonsStat` and leaves `td->stat` as it is. -/
def visitMesh (taskData : TaskData) (invalidList : MSelectionList) (mesh : Mesh Geom) : Step :=
  if mesh.geom.fnMesh ≠ MStatus.kSuccess then Step.ret (TdResult.mk invalidList MStatus.kFailure)
  else
    match mesh.geom.numPolygons with
    | none => Step.ret (TdResult.mk invalidList MStatus.kSuccess)
    | some numPolygons =>
      if numPolygons = 0 then Step.next invalidList
      else
        match mesh.geom.getUVSetNames with
        | none => Step.ret (TdResult.mk invalidList MStatus.kFailure)
        | some uvSetNames =>
          if decide (taskData.uvSet ∉ uvSetNames) && !taskData.allUVSet then
            Step.next invalidList
          else if taskData.allUVSet then
            match setLoop mesh.geom mesh.path uvSetNames invalidList with
            | TdResult.mk invalidList' MStatus.kSuccess => Step.next invalidList'
            | TdResult.mk invalidList' MStatus.kFailure =>
              Step.ret (TdResult.mk invalidList' MStatus.kFailure)
          else
            match checkSet mesh.geom taskData.uvSet with
            | UVLoopEnd.failed => Step.ret (TdResult.mk invalidList MStatus.kFailure)
            | UVLoopEnd.tilingOver => Step.next (invalidList.add mesh.path none)
            | UVLoopEnd.done => Step.next invalidList

/-- The worker `searchMeshUVTilingOverTd` on the meshes of its range. -/
def searchMeshUVTilingOverTd (taskData : TaskData) (meshes : List (Mesh Geom)) : TdResult :=
  tdLoop (visitMesh taskData) [] meshes

/-- Status and `_invalid` of `doIt`. -/
def doIt (host : Host) (flags : UVFlags) (indeterminate : Bool) (scene : List (Mesh Geom)) :
    MStatus × MSelectionList :=
  meshDoIt false (searchMeshUVTilingOverTd (parseFlags flags indeterminate)) host scene

end checkMeshUVTilingOver

/-! ## The command object: syntax, `doIt`, `redoIt`, `undoIt`

A successful `setActiveSelectionList` makes the given list the active
selection, a failed one leaves the selection as it was; `setResult` stores the
command result. -/

/-- `MSyntax::MArgType`, restricted to the two kinds the commands use. -/
inductive MArgType where
  | kNoArg
  | kString
  deriving DecidableEq, Repr

/-- One `syntax.addFlag(shortName, longName, argType)`. -/
structure Flag where
  shortName : String
  longName : String
  argType : MArgType
  deriving DecidableEq, Repr

/-- `checkCurveSamePosition::createSyntax`. -/
def checkCurveSamePosition.createSyntax : List Flag :=
  [Flag.mk "-s" "-select" MArgType.kNoArg]

/-- `checkCurveSpans0Count::createSyntax`. -/
def checkCurveSpans0Count.createSyntax : List Flag :=
  [Flag.mk "-s" "-select" MArgType.kNoArg]

/-- `checkMeshDoubleFace::createSyntax`. -/
def checkMeshDoubleFace.createSyntax : List Flag :=
  [Flag.mk "-s" "-select" MArgType.kNoArg]

/-- `checkMeshFace0Count::createSyntax`. -/
def checkMeshFace0Count.createSyntax : List Flag :=
  [Flag.mk "-s" "-select" MArgType.kNoArg]

/-- `checkMeshFreeze::createSyntax`. -/
def checkMeshFreeze.createSyntax : List Flag :=
  [Flag.mk "-s" "-select" MArgType.kNoArg]

/-- `checkMeshNormalLock::createSyntax`. -/
def checkMeshNormalLock.createSyntax : List Flag :=
  [Flag.mk "-s" "-select" MArgType.kNoArg]

/-- `checkMeshUVFlip::createSyntax`. -/
def checkMeshUVFlip.createSyntax : List Flag :=
  [Flag.mk "-s" "-select" MArgType.kNoArg, Flag.mk "-uvs" "-uvSet" MArgType.kString,
   Flag.mk "-all" "-allUVSet" MArgType.kNoArg]

/-- `checkMeshUVNegative::createSyntax`. -/
def checkMeshUVNegative.createSyntax : List Flag :=
  [Flag.mk "-s" "-select" MArgType.kNoArg, Flag.mk "-uvs" "-uvSet" MArgType.kString,
   Flag.mk "-all" "-allUVSet" MArgType.kNoArg]

/-- `checkMeshUVTilingOver::createSyntax`. -/
def checkMeshUVTilingOver.createSyntax : List Flag :=
  [Flag.mk "-s" "-select" MArgType.kNoArg, Flag.mk "-uvs" "-uvSet" MArgType.kString,
   Flag.mk "-all" "-allUVSet" MArgType.kNoArg]

/-- What the host answers to the calls a command makes around its scan: the
status of the `MArgParser` construction, of `getFlagArgument` for `-uvSet`, of
`MGlobal::setActiveSelectionList`, and the strings (or the failure) of
`getSelectionStrings`. -/
structure Shell where
  argParser : MStatus
  getFlagArgument : MStatus
  setActiveSelectionList : MStatus
  getSelectionStrings : MSelectionList → Option (List String)

/-- The data members of a command object. -/
structure Command where
  _beforeSelection : MSelectionList
  _invalid : MSelectionList
  _isSelect : Bool
  deriving DecidableEq, Repr

/-- The host state a command can change: the active selection, the command
result (`none` while `setResult` has not been called), and the numbers of
`MThreadPool::init` and `MThreadPool::release` calls made so far. -/
structure Session where
  activeSelection : MSelectionList
  result : Option (List String)
  initCalls : Nat
  releaseCalls : Nat
  deriving DecidableEq, Repr

/-- `redoIt`, the same in the nine commands. -/
def redoIt (sh : Shell) (cmd : Command) (s : Session) : MStatus × Session :=
  if cmd._isSelect then
    (if sh.setActiveSelectionList = MStatus.kSuccess then
      (MStatus.kSuccess, Session.mk cmd._invalid s.result s.initCalls s.releaseCalls)
     else (MStatus.kFailure, s))
  else
    match sh.getSelectionStrings cmd._invalid with
    | none => (MStatus.kFailure, s)
    | some results =>
      (MStatus.kSuccess, Session.mk s.activeSelection (some results) s.initCalls s.releaseCalls)

/-- `undoIt`, the same in the nine commands. -/
def undoIt (sh : Shell) (cmd : Command) (s : Session) : MStatus × Session :=
  if cmd._isSelect then
    (if sh.setActiveSelectionList = MStatus.kSuccess then
      (MStatus.kSuccess, Session.mk cmd._beforeSelection s.result s.initCalls s.releaseCalls)
     else (MStatus.kFailure, s))
  else (MStatus.kSuccess, s)

/-- `isUndoable`. -/
def isUndoable : Bool := true

/-- What `doIt` leaves: its status, the members of the command object and the
host state. -/
structure RunResult where
  stat : MStatus
  cmd : Command
  session : Session
  deriving DecidableEq, Repr

/-- The tail `stat = redoIt(); return stat;` of `doIt`. -/
def finish (sh : Shell) (cmd : Command) (s : Session) : RunResult :=
  RunResult.mk (redoIt sh cmd s).1 cmd (redoIt sh cmd s).2

/-- The members after the `-select` test of `doIt`. -/
def selectFlag (select : Bool) (s : Session) : Command :=
  if select then Command.mk s.activeSelection [] true else Command.mk [] [] false

/-- `doIt` of a curve command as a whole, from the outcome `scan` of its DAG loop.
When the loop stops on a failed host call `doIt` returns `kFailure` at once; the
members it leaves then are not modelled. -/
def curveRun (scan : Except Fault MSelectionList) (sh : Shell) (select : Bool) (s : Session) :
    Except Fault RunResult :=
  match scan with
  | Except.error e => Except.error e
  | Except.ok invalid =>
    Except.ok (finish sh (Command.mk (selectFlag select s)._beforeSelection invalid select) s)

/-- `doIt` of a mesh command as a whole.  The switches name the places where the
seven sources differ: `checksArgs` when the status of the argument parser is
checked, `checkSize` when an empty mesh list returns through `redoIt` before the
thread pool is touched, `releaseOnInitFailure` when a failed `MThreadPool::init`
is followed by `MThreadPool::release`; `flagsOk` is false when reading a flag
argument fails. -/
def meshRun {G : Type} (checksArgs checkSize releaseOnInitFailure : Bool)
    (worker : List (Mesh G) → TdResult) (sh : Shell) (host : Host) (select flagsOk : Bool)
    (scene : List (Mesh G)) (s : Session) : RunResult :=
  if checksArgs && decide (sh.argParser ≠ MStatus.kSuccess) then
    RunResult.mk MStatus.kFailure (Command.mk [] [] false) s
  else if !flagsOk then RunResult.mk MStatus.kFailure (selectFlag select s) s
  else
    match getAllMesh host scene with
    | none => RunResult.mk MStatus.kFailure (selectFlag select s) s
    | some meshes =>
      if checkSize && meshes.length = 0 then finish sh (selectFlag select s) s
      else if host.poolInit ≠ MStatus.kSuccess then
        RunResult.mk MStatus.kFailure (selectFlag select s)
          (Session.mk s.activeSelection s.result (s.initCalls + 1)
            (if releaseOnInitFailure then s.releaseCalls + 1 else s.releaseCalls))
      else
        match searchMesh worker host meshes with
        | (invalidList, MStatus.kSuccess) =>
          finish sh
            (Command.mk (selectFlag select s)._beforeSelection invalidList
              (selectFlag select s)._isSelect)
            (Session.mk s.activeSelection s.result (s.initCalls + 1) s.releaseCalls)
        | (_, MStatus.kFailure) =>
          RunResult.mk MStatus.kFailure (selectFlag select s)
            (Session.mk s.activeSelection s.result (s.initCalls + 1) (s.releaseCalls + 1))

/-- Whether the flag part of `doIt` of a UV command gets through: reading the
argument of a given `-uvSet` must succeed. -/
def uvFlagsOk (sh : Shell) (flags : UVFlags) : Bool :=
  match flags.uvSet with
  | none => true
  | some _ => decide (sh.getFlagArgument = MStatus.kSuccess)

/-- `checkCurveSamePosition::doIt` as a whole. -/
def checkCurveSamePosition.run (sh : Shell) (select : Bool) (scene : List CurveNode)
    (s : Session) : Except Fault RunResult :=
  curveRun (checkCurveSamePosition.doIt scene) sh select s

/-- `checkCurveSpans0Count::doIt` as a whole. -/
def checkCurveSpans0Count.run (sh : Shell) (select : Bool) (scene : List CurveNode)
    (s : Session) : Except Fault RunResult :=
  curveRun (checkCurveSpans0Count.doIt scene) sh select s

/-- `checkMeshDoubleFace::doIt` as a whole. -/
def checkMeshDoubleFace.run (sh : Shell) (host : Host) (select : Bool)
    (scene : List (Mesh checkMeshDoubleFace.Geom)) (s : Session) : RunResult :=
  meshRun false true false checkMeshDoubleFace.searchDoubleFaceTd sh host select true scene s

/-- `checkMeshFace0Count::doIt` as a whole. -/
def checkMeshFace0Count.run (sh : Shell) (host : Host) (select : Bool)
    (scene : List (Mesh checkMeshFace0Count.Geom)) (s : Session) : RunResult :=
  meshRun true true false checkMeshFace0Count.searchMeshFace0Count sh host select true scene s

/-- `checkMeshFreeze::doIt` as a whole (the member it tests for the empty list is
read as `meshes`). -/
def checkMeshFreeze.run (sh : Shell) (host : Host) (select : Bool)
    (scene : List (Mesh checkMeshFreeze.Geom)) (s : Session) : RunResult :=
  meshRun false true true checkMeshFreeze.searchMeshFreezeTd sh host select true scene s

/-- `checkMeshNormalLock::doIt` as a whole. -/
def checkMeshNormalLock.run (sh : Shell) (host : Host) (select : Bool)
    (scene : List (Mesh checkMeshNormalLock.Geom)) (s : Session) : RunResult :=
  meshRun true false false checkMeshNormalLock.searchMeshNormalLockTd sh host select true scene s

/-- `checkMeshUVFlip::doIt` as a whole. -/
def checkMeshUVFlip.run (sh : Shell) (host : Host) (flags : UVFlags) (indeterminate : Bool)
    (scene : List (Mesh checkMeshUVFlip.Geom)) (s : Session) : RunResult :=
  meshRun true true false (checkMeshUVFlip.searchMeshUVFlipTd (parseFlags flags indeterminate))
    sh host flags.select (uvFlagsOk sh flags) scene s

/-- `checkMeshUVNegative::doIt` as a whole. -/
def checkMeshUVNegative.run (sh : Shell) (host : Host) (flags : UVFlags) (indeterminate : Bool)
    (scene : List (Mesh checkMeshUVNegative.Geom)) (s : Session) : RunResult :=
  meshRun true false false
    (checkMeshUVNegative.searchMeshUVNegativeTd (parseFlags flags indeterminate))
    sh host flags.select (uvFlagsOk sh flags) scene s

/-- `checkMeshUVTilingOver::doIt` as a whole. -/
def checkMeshUVTilingOver.run (sh : Shell) (host : Host) (flags : UVFlags)
    (indeterminate : Bool) (scene : List (Mesh checkMeshUVTilingOver.Geom)) (s : Session) :
    RunResult :=
  meshRun true false false
    (checkMeshUVTilingOver.searchMeshUVTilingOverTd (parseFlags flags indeterminate))
    sh host flags.select (uvFlagsOk sh flags) scene s

/-- One invocation of one of the nine commands: its flags, the machine and the
scene it finds. -/
inductive Invocation where
  | curveSamePosition (select : Bool) (scene : List CurveNode)
  | curveSpans0Count (select : Bool) (scene : List CurveNode)
  | meshDoubleFace (select : Bool) (host : Host) (scene : List (Mesh checkMeshDoubleFace.Geom))
  | meshFace0Count (select : Bool) (host : Host) (scene : List (Mesh checkMeshFace0Count.Geom))
  | meshFreeze (select : Bool) (host : Host) (scene : List (Mesh checkMeshFreeze.Geom))
  | meshNormalLock (select : Bool) (host : Host) (scene : List (Mesh checkMeshNormalLock.Geom))
  | meshUVFlip (flags : UVFlags) (indeterminate : Bool) (host : Host)
      (scene : List (Mesh checkMeshUVFlip.Geom))
  | meshUVNegative (flags : UVFlags) (indeterminate : Bool) (host : Host)
      (scene : List (Mesh checkMeshUVNegative.Geom))
  | meshUVTilingOver (flags : UVFlags) (indeterminate : Bool) (host : Host)
      (scene : List (Mesh checkMeshUVTilingOver.Geom))

/-- Whether the invocation gives `-select`. -/
def Invocation.select : Invocation → Bool
  | Invocation.curveSamePosition select _ => select
  | Invocation.curveSpans0Count select _ => select
  | Invocation.meshDoubleFace select _ _ => select
  | Invocation.meshFace0Count select _ _ => select
  | Invocation.meshFreeze select _ _ => select
  | Invocation.meshNormalLock select _ _ => select
  | Invocation.meshUVFlip flags _ _ _ => flags.select
  | Invocation.meshUVNegative flags _ _ _ => flags.select
  | Invocation.meshUVTilingOver flags _ _ _ => flags.select

/-- The syntax of the invoked command. -/
def Invocation.createSyntax : Invocation → List Flag
  | Invocation.curveSamePosition _ _ => checkCurveSamePosition.createSyntax
  | Invocation.curveSpans0Count _ _ => checkCurveSpans0Count.createSyntax
  | Invocation.meshDoubleFace _ _ _ => checkMeshDoubleFace.createSyntax
  | Invocation.meshFace0Count _ _ _ => checkMeshFace0Count.createSyntax
  | Invocation.meshFreeze _ _ _ => checkMeshFreeze.createSyntax
  | Invocation.meshNormalLock _ _ _ => checkMeshNormalLock.createSyntax
  | Invocation.meshUVFlip _ _ _ _ => checkMeshUVFlip.createSyntax
  | Invocation.meshUVNegative _ _ _ _ => checkMeshUVNegative.createSyntax
  | Invocation.meshUVTilingOver _ _ _ _ => checkMeshUVTilingOver.createSyntax

/-- `doIt` of the invoked command. -/
def Invocation.run (sh : Shell) (s : Session) : Invocation → Except Fault RunResult
  | Invocation.curveSamePosition select scene => checkCurveSamePosition.run sh select scene s
  | Invocation.curveSpans0Count select scene => checkCurveSpans0Count.run sh select scene s
  | Invocation.meshDoubleFace select host scene =>
    Except.ok (checkMeshDoubleFace.run sh host select scene s)
  | Invocation.meshFace0Count select host scene =>
    Except.ok (checkMeshFace0Count.run sh host select scene s)
  | Invocation.meshFreeze select host scene =>
    Except.ok (checkMeshFreeze.run sh host select scene s)
  | Invocation.meshNormalLock select host scene =>
    Except.ok (checkMeshNormalLock.run sh host select scene s)
  | Invocation.meshUVFlip flags indeterminate host scene =>
    Except.ok (checkMeshUVFlip.run sh host flags indeterminate scene s)
  | Invocation.meshUVNegative flags indeterminate host scene =>
    Except.ok (checkMeshUVNegative.run sh host flags indeterminate scene s)
  | Invocation.meshUVTilingOver flags indeterminate host scene =>
    Except.ok (checkMeshUVTilingOver.run sh host flags indeterminate scene s)

/-! ## Auxiliary definitions for the proofs -/

namespace checkCurveSamePosition

/-- An examined control vertex: CV `i` of the `k`-th visited node, with the
curve it belongs to and its position. -/
structure CVRef where
  k : Nat
  i : Nat
  path : MDagPath
  pos : Point
  deriving DecidableEq, Repr

/-- The positions `xs` as CVs `i, i+1, …` of the `k`-th node. -/
def tagFrom (k : Nat) (p : MDagPath) : Nat → List Point → List CVRef
  | _, [] => []
  | i, x :: xs => CVRef.mk k i p x :: tagFrom k p (i + 1) xs

/-- The CVs the CV loop examines in the `k`-th node. -/
def nodeCVs (k : Nat) (node : CurveNode) : List CVRef :=
  if node.skipped then []
  else
    match node.getPath, node.getCVs, node.form with
    | some p, some cvs, some form => tagFrom k p 0 (cvs.take (numCVs cvs.length form))
    | _, _, _ => []

/-- The examined CVs of the nodes of `scene`, numbered from `k`, in the order in
which the loops visit them. -/
def sceneCVs : Nat → List CurveNode → List CVRef
  | _, [] => []
  | k, node :: rest => nodeCVs k node ++ sceneCVs (k + 1) rest

/-- The CV loop body on a tagged CV. -/
def visitRef (st : ScanState) (a : CVRef) : ScanState := visitCV a.path st a.pos

/-- What the state of the scan records about the CVs `L` visited so far. -/
def ScanInv (L : List CVRef) (st : ScanState) : Prop :=
  (∀ x, mapFind st.check_map x = none ↔ ∀ a ∈ L, a.pos ≠ x) ∧
  (∀ x q, mapFind st.check_map x = some q →
    ∃ a0 ∈ L, a0.pos = x ∧ a0.path = q ∧
      ∀ b ∈ L, b.pos = x → b ≠ a0 →
        SelItem.mk b.path none ∈ st.invalid ∧ SelItem.mk q none ∈ st.invalid) ∧
  (∀ it ∈ st.invalid, ∃ a ∈ L, ∃ b ∈ L, a ≠ b ∧ a.pos = b.pos ∧ it = SelItem.mk a.path none)

end checkCurveSamePosition

/-- The meshes `getAllMesh` collects: the non-intermediate ones, in traversal
order. -/
def collected {G : Type} (scene : List (Mesh G)) : List (Mesh G) :=
  scene.filter fun node => !node.isIntermediateObject

/-- The mesh `m` lies in the index range of one of the tasks that `searchMesh…`
creates for the mesh list `meshes`. -/
def InSomeRange {G : Type} (host : Host) (meshes : List (Mesh G)) (m : Mesh G) : Prop :=
  ∃ i, i < taskCount host.hardware_concurrency meshes.length ∧
    m ∈ slice meshes (taskStart meshes.length (taskCount host.hardware_concurrency meshes.length) i)
      (taskEnd meshes.length (taskCount host.hardware_concurrency meshes.length) i)

/-- No host call outside the workers fails: the DAG iterator, the walk over
the nodes, the thread pool and the merges. -/
def Host.Ok {G : Type} (host : Host) (scene : List (Mesh G)) : Prop :=
  host.dagIter = MStatus.kSuccess ∧ host.poolInit = MStatus.kSuccess ∧
    (∀ i, host.mergeStat i = MStatus.kSuccess) ∧
    ∀ node ∈ scene, node.getPath = MStatus.kSuccess ∧ node.dagNode = MStatus.kSuccess

namespace checkMeshDoubleFace

/-- What the containers of the vertex loop record when the vertex ids below `n`
have been visited. -/
def VertexInv (pnts : List Point) (n : Nat) (st : List (Point × Nat) × List Nat) : Prop :=
  (∀ x, mapFind st.1 x = none ↔ ∀ i, i < n → pnts[i]? ≠ some x) ∧
  (∀ x w, mapFind st.1 x = some w →
    w < n ∧ pnts[w]? = some x ∧
      ∀ i, i < n → pnts[i]? = some x → i ≠ w → i ∈ st.2 ∧ w ∈ st.2) ∧
  (∀ v ∈ st.2, ∃ w, w ≠ v ∧ v < n ∧ w < n ∧ ∃ x, pnts[v]? = some x ∧ pnts[w]? = some x)

/-- Vertex id `v` has the position of another vertex id of the mesh. -/
def Coincident (pnts : List Point) (v : Nat) : Prop :=
  ∃ w, w ≠ v ∧ ∃ x, pnts[v]? = some x ∧ pnts[w]? = some x

/-- No host call of the worker fails for the mesh. -/
def MeshOk (m : Mesh Geom) : Prop :=
  m.geom.fnMesh = MStatus.kSuccess ∧ m.geom.getPoints ≠ none ∧
    m.geom.itMeshPolygon = MStatus.kSuccess ∧
    ∃ n, m.geom.numPolygons = some n ∧ ∀ f, f < n.toNat → m.geom.getPolygonVertices f ≠ none

/-- The worker adds the entry `it` for the mesh `m`: `it` is a face of `m` all
of whose vertices are coincident, in a mesh that has coincident vertices. -/
def Reported (m : Mesh Geom) (it : SelItem) : Prop :=
  ∃ pnts n f vtxIds, m.geom.getPoints = some pnts ∧ invalidVtxIds pnts ≠ [] ∧
    m.geom.numPolygons = some n ∧ f < n.toNat ∧ m.geom.getPolygonVertices f = some vtxIds ∧
    (∀ v ∈ vtxIds, v ∈ invalidVtxIds pnts) ∧ it = SelItem.mk m.path (some f)

end checkMeshDoubleFace

namespace checkMeshNormalLock

/-- No host call of the worker fails for the mesh. -/
def MeshOk (m : Mesh Geom) : Prop :=
  m.geom.fnMesh = MStatus.kSuccess ∧
    ∃ n, m.geom.numNormals = some n ∧ ∀ k, k < n.toNat → m.geom.isNormalLocked k ≠ none

/-- The host reports a normal index below `numNormals` as locked. -/
def HasLockedNormal (m : Mesh Geom) : Prop :=
  ∃ n, m.geom.numNormals = some n ∧ ∃ k, k < n.toNat ∧ m.geom.isNormalLocked k = some true

/-- The worker adds the entry `it` for the mesh `m`. -/
def Reported (m : Mesh Geom) (it : SelItem) : Prop :=
  HasLockedNormal m ∧ it = SelItem.mk m.path none

end checkMeshNormalLock

namespace checkMeshFreeze

/-- No host call of the worker fails for the mesh. -/
def MeshOk (m : Mesh Geom) : Prop :=
  m.geom.fnDependencyNode = MStatus.kSuccess ∧ m.geom.findPlug = MStatus.kSuccess ∧
    ∃ numElm, m.geom.numElements = some numElm ∧
      ∀ e, e < numElm → m.geom.elementByPhysicalIndex e = MStatus.kSuccess ∧
        ∃ numChildren, m.geom.numChildren e = some numChildren ∧
          ∀ c, c < numChildren →
            m.geom.child e c = MStatus.kSuccess ∧ m.geom.asMDistance e c ≠ none

/-- Element `e` of `pnts` has a child whose value is not `0`. -/
def ElementNonZero (g : Geom) (e : Nat) : Prop :=
  ∃ numChildren, g.numChildren e = some numChildren ∧
    ∃ c, c < numChildren ∧ ∃ value, g.asMDistance e c = some value ∧ value ≠ 0

/-- Some existing element of `pnts` has a child whose value is not `0`. -/
def NonFrozen (m : Mesh Geom) : Prop :=
  ∃ numElm, m.geom.numElements = some numElm ∧ ∃ e, e < numElm ∧ ElementNonZero m.geom e

/-- The worker adds the entry `it` for the mesh `m`. -/
def Reported (m : Mesh Geom) (it : SelItem) : Prop :=
  NonFrozen m ∧ it = SelItem.mk m.path none

end checkMeshFreeze

/-- The UV set `name` of a mesh with the UV sets `uvSetNames` is checked: with
`allUVSet` every UV set of the mesh, otherwise the one named `uvSet` when the
mesh has it. -/
def CheckedSet (taskData : TaskData) (uvSetNames : List String) (name : String) : Prop :=
  (taskData.allUVSet = true ∧ name ∈ uvSetNames) ∨
  (taskData.allUVSet = false ∧ name = taskData.uvSet ∧ name ∈ uvSetNames)

namespace checkMeshUVFlip

/-- No host call of the worker whose status is checked fails for the mesh. -/
def MeshOk (m : Mesh Geom) : Prop :=
  m.geom.fnMesh = MStatus.kSuccess ∧ m.geom.numPolygons ≠ none ∧
    m.geom.getUVSetNames ≠ none ∧ m.geom.itMeshPolygon = MStatus.kSuccess

/-- The worker adds the entry `it` for the mesh `m`: `it` is a face of `m`, a
mesh with polygons, for which the reversed query returns true or fails in a
checked UV set. -/
def Reported (taskData : TaskData) (m : Mesh Geom) (it : SelItem) : Prop :=
  ∃ n uvSetNames, m.geom.numPolygons = some n ∧ n ≠ 0 ∧ m.geom.getUVSetNames = some uvSetNames ∧
    ∃ f, f < m.geom.polygonCount ∧ ∃ name, CheckedSet taskData uvSetNames name ∧
      flipped m.geom f name = true ∧ it = SelItem.mk m.path (some f)

end checkMeshUVFlip

namespace checkMeshUVNegative

/-- No host call of the worker fails for the mesh. -/
def MeshOk (m : Mesh Geom) : Prop :=
  m.geom.fnMesh = MStatus.kSuccess ∧ m.geom.numPolygons ≠ none ∧
    m.geom.itMeshPolygon = MStatus.kSuccess ∧
    ∃ uvSetNames, m.geom.getUVSetNames = some uvSetNames ∧
      ∀ f, f < m.geom.polygonCount → ∀ name ∈ uvSetNames, m.geom.getUVs f name ≠ none

/-- Face `f` has, in the UV set `name`, a UV with `u < 0` or `v < 0`. -/
def NegativeIn (g : Geom) (f : Nat) (name : String) : Prop :=
  ∃ uvs, g.getUVs f name = some uvs ∧ ∃ uv ∈ uvs, uv.1 < 0 ∨ uv.2 < 0

/-- The worker adds the entry `it` for the mesh `m`: `it` is a face of `m`, a
mesh with polygons, that has a negative UV in a checked UV set. -/
def Reported (taskData : TaskData) (m : Mesh Geom) (it : SelItem) : Prop :=
  ∃ n uvSetNames, m.geom.numPolygons = some n ∧ n ≠ 0 ∧ m.geom.getUVSetNames = some uvSetNames ∧
    ∃ f, f < m.geom.polygonCount ∧ ∃ name, CheckedSet taskData uvSetNames name ∧
      NegativeIn m.geom f name ∧ it = SelItem.mk m.path (some f)

end checkMeshUVNegative

namespace checkMeshUVTilingOver

/-- The tile `((int)u, (int)v)` of UV id `uvId` in the UV set `name`. -/
def tileOf (g : Geom) (name : String) (uvId : Nat) : Option UVTile :=
  match g.getUV name uvId with
  | none => none
  | some (u, v) => some (UVTile.mk (toInt u) (toInt v))

/-- Among the UV ids below `n`, two that the loop reads as the same shell have
different tiles. -/
def Conflict (g : Geom) (name : String) (uvShellIds : List Int) (n : Nat) : Prop :=
  ∃ i j, i < n ∧ j < n ∧ uvShellIds.getD i 0 = uvShellIds.getD j 0 ∧
    ∃ ti tj, tileOf g name i = some ti ∧ tileOf g name j = some tj ∧ ti ≠ tj

/-- What `tileMap` records when the UV ids below `k` have been visited without
leaving the loop. -/
def TileInv (g : Geom) (name : String) (uvShellIds : List Int) (k : Nat)
    (tileMap : List (Int × UVTile)) : Prop :=
  (∀ s, mapFind tileMap s = none ↔ ∀ i, i < k → uvShellIds.getD i 0 ≠ s) ∧
  (∀ s t, mapFind tileMap s = some t →
    ∀ i, i < k → uvShellIds.getD i 0 = s → tileOf g name i = some t)

/-- In the UV set `name`, some UV shell contains two UV ids whose tiles differ. -/
def SetOver (g : Geom) (name : String) : Prop :=
  ∃ uvShellIds numUV, g.getUvShellsIds name = some uvShellIds ∧ g.numUVs name = some numUV ∧
    ∃ i j s, i < numUV.toNat ∧ j < numUV.toNat ∧ uvShellIds[i]? = some s ∧ uvShellIds[j]? = some s ∧
      ∃ ti tj, tileOf g name i = some ti ∧ tileOf g name j = some tj ∧ ti ≠ tj

/-- The host calls for the UV set `name` succeed and the host gives one shell id
per UV id. -/
def SetOk (g : Geom) (name : String) : Prop :=
  ∃ uvShellIds numUV, g.getUvShellsIds name = some uvShellIds ∧ g.numUVs name = some numUV ∧
    uvShellIds.length = numUV.toNat ∧ ∀ i, i < numUV.toNat → g.getUV name i ≠ none

/-- No host call of the worker fails for the mesh. -/
def MeshOk (m : Mesh Geom) : Prop :=
  m.geom.fnMesh = MStatus.kSuccess ∧ m.geom.numPolygons ≠ none ∧
    ∃ uvSetNames, m.geom.getUVSetNames = some uvSetNames ∧
      ∀ name ∈ uvSetNames, SetOk m.geom name

/-- The worker adds the entry `it` for the mesh `m`: `it` is the mesh `m`, a mesh
with polygons that has, in a checked UV set, a shell over more than one tile. -/
def Reported (taskData : TaskData) (m : Mesh Geom) (it : SelItem) : Prop :=
  (∃ n uvSetNames, m.geom.numPolygons = some n ∧ n ≠ 0 ∧
    m.geom.getUVSetNames = some uvSetNames ∧
    ∃ name, CheckedSet taskData uvSetNames name ∧ SetOver m.geom name) ∧
  it = SelItem.mk m.path none

end checkMeshUVTilingOver

namespace checkMeshFace0Count

/-- No host call of the worker fails for the mesh. -/
def MeshOk (m : Mesh Geom) : Prop :=
  m.geom.fnMesh = MStatus.kSuccess ∧ m.geom.numPolygons ≠ none

/-- The worker adds the entry `it` for the mesh `m`: the polygon count is 0. -/
def Reported (m : Mesh Geom) (it : SelItem) : Prop :=
  m.geom.numPolygons = some 0 ∧ it = SelItem.mk m.path none

end checkMeshFace0Count

/-- Task `i` makes the merge loop end with a failure: its worker left a status
other than success, or its list is not empty and merging it fails. -/
def TaskFails {G : Type} (worker : List (Mesh G) → TdResult) (host : Host)
    (meshes : List (Mesh G)) (i : Nat) : Prop :=
  (worker (slice meshes
      (taskStart meshes.length (taskCount host.hardware_concurrency meshes.length) i)
      (taskEnd meshes.length (taskCount host.hardware_concurrency meshes.length) i))).stat
    ≠ MStatus.kSuccess ∨
  (0 < (worker (slice meshes
      (taskStart meshes.length (taskCount host.hardware_concurrency meshes.length) i)
      (taskEnd meshes.length (taskCount host.hardware_concurrency meshes.length) i))).invalidList.length
    ∧ host.mergeStat i ≠ MStatus.kSuccess)

/-- Some task of the parallel region fails in its worker or in its merge. -/
def SearchFails {G : Type} (worker : List (Mesh G) → TdResult) (host : Host)
    (meshes : List (Mesh G)) : Prop :=
  ∃ i, i < taskCount host.hardware_concurrency meshes.length ∧ TaskFails worker host meshes i

/-- For a UV command `doIt`, on every scene without failing host call and
without two meshes of one path: the run with `-uvSet S` (and no `-allUVSet`) and
the run with `-allUVSet` both succeed; for every mesh of the scene whose only UV
set is `S` the two invalid lists have the same entries with the path of that
mesh; and for every mesh each entry of the first list with its path is on the
second list.  `ind` and `ind'` are what the unset member `allUVSet` holds. -/
def UVSetRefinesAll {G : Type}
    (doIt : Host → UVFlags → Bool → List (Mesh G) → MStatus × MSelectionList)
    (getUVSetNames : G → Option (List String)) (MeshOk : Mesh G → Prop) : Prop :=
  ∀ (host : Host) (scene : List (Mesh G)) (S : String) (sel sel' : Bool) (u : Option String)
    (ind ind' : Bool),
    host.Ok scene → (∀ m ∈ scene, MeshOk m) → (scene.map fun m => m.path).Nodup →
    (doIt host (UVFlags.mk sel (some S) false) ind scene).1 = MStatus.kSuccess ∧
    (doIt host (UVFlags.mk sel' u true) ind' scene).1 = MStatus.kSuccess ∧
    ∀ m ∈ scene, ∀ it : SelItem, it.path = m.path →
      (getUVSetNames m.geom = some [S] →
        (it ∈ (doIt host (UVFlags.mk sel (some S) false) ind scene).2 ↔
          it ∈ (doIt host (UVFlags.mk sel' u true) ind' scene).2)) ∧
      (it ∈ (doIt host (UVFlags.mk sel (some S) false) ind scene).2 →
        it ∈ (doIt host (UVFlags.mk sel' u true) ind' scene).2)

/-- The list has no entry twice and all its entries are whole objects. -/
def OnePerObject (l : MSelectionList) : Prop :=
  l.Nodup ∧ ∀ it ∈ l, it.component = none

/-- All entries of the list are whole objects. -/
def WholeObjects (l : MSelectionList) : Prop :=
  ∀ it ∈ l, it.component = none

/-- The property `P` holds of the list a loop body hands on or returns. -/
def Step.Holds (P : MSelectionList → Prop) : Step → Prop
  | Step.next invalidList => P invalidList
  | Step.ret td => P td.invalidList

/-- The number of entries of the list for the object `p`. -/
def entryCount (l : MSelectionList) (p : MDagPath) : Nat :=
  l.countP fun it => decide (it.path = p)

/-- The curve nodes of the scene that are not intermediate objects. -/
def curvesCollected (scene : List CurveNode) : List CurveNode :=
  scene.filter fun node => !node.isIntermediateObject

/-- The invocation on the scene from which the intermediate objects are taken
out. -/
def Invocation.withoutIntermediate : Invocation → Invocation
  | Invocation.curveSamePosition select scene =>
    Invocation.curveSamePosition select (curvesCollected scene)
  | Invocation.curveSpans0Count select scene =>
    Invocation.curveSpans0Count select (curvesCollected scene)
  | Invocation.meshDoubleFace select host scene =>
    Invocation.meshDoubleFace select host (collected scene)
  | Invocation.meshFace0Count select host scene =>
    Invocation.meshFace0Count select host (collected scene)
  | Invocation.meshFreeze select host scene => Invocation.meshFreeze select host (collected scene)
  | Invocation.meshNormalLock select host scene =>
    Invocation.meshNormalLock select host (collected scene)
  | Invocation.meshUVFlip flags indeterminate host scene =>
    Invocation.meshUVFlip flags indeterminate host (collected scene)
  | Invocation.meshUVNegative flags indeterminate host scene =>
    Invocation.meshUVNegative flags indeterminate host (collected scene)
  | Invocation.meshUVTilingOver flags indeterminate host scene =>
    Invocation.meshUVTilingOver flags indeterminate host (collected scene)

/-- The two host calls the DAG loop makes before it asks whether the node is an
intermediate object succeed for every intermediate curve node. -/
def CurveWalkOk (scene : List CurveNode) : Prop :=
  ∀ node ∈ scene, node.isIntermediateObject = true →
    node.getPath ≠ none ∧ node.dagNode = MStatus.kSuccess

/-- The two host calls `getAllMesh` makes before it asks whether the node is an
intermediate object succeed for every intermediate mesh node. -/
def MeshWalkOk {G : Type} (scene : List (Mesh G)) : Prop :=
  ∀ node ∈ scene, node.isIntermediateObject = true →
    node.getPath = MStatus.kSuccess ∧ node.dagNode = MStatus.kSuccess

/-- The host marks the intermediate objects of the scene: the calls made for
them before the intermediate test succeed. -/
def Invocation.IntermediateWalkOk : Invocation → Prop
  | Invocation.curveSamePosition _ scene => CurveWalkOk scene
  | Invocation.curveSpans0Count _ scene => CurveWalkOk scene
  | Invocation.meshDoubleFace _ _ scene => MeshWalkOk scene
  | Invocation.meshFace0Count _ _ scene => MeshWalkOk scene
  | Invocation.meshFreeze _ _ scene => MeshWalkOk scene
  | Invocation.meshNormalLock _ _ scene => MeshWalkOk scene
  | Invocation.meshUVFlip _ _ _ scene => MeshWalkOk scene
  | Invocation.meshUVNegative _ _ _ scene => MeshWalkOk scene
  | Invocation.meshUVTilingOver _ _ _ scene => MeshWalkOk scene

/-- The paths of the objects of the scene that are not intermediate objects. -/
def Invocation.objectPaths : Invocation → List MDagPath
  | Invocation.curveSamePosition _ scene => (curvesCollected scene).filterMap fun n => n.getPath
  | Invocation.curveSpans0Count _ scene => (curvesCollected scene).filterMap fun n => n.getPath
  | Invocation.meshDoubleFace _ _ scene => (collected scene).map fun m => m.path
  | Invocation.meshFace0Count _ _ scene => (collected scene).map fun m => m.path
  | Invocation.meshFreeze _ _ scene => (collected scene).map fun m => m.path
  | Invocation.meshNormalLock _ _ scene => (collected scene).map fun m => m.path
  | Invocation.meshUVFlip _ _ _ scene => (collected scene).map fun m => m.path
  | Invocation.meshUVNegative _ _ _ scene => (collected scene).map fun m => m.path
  | Invocation.meshUVTilingOver _ _ _ scene => (collected scene).map fun m => m.path

/-- Every entry of the list is an entry for one of the paths `S`. -/
def PathsIn (S : List MDagPath) (l : MSelectionList) : Prop :=
  ∀ it ∈ l, it.path ∈ S

/-- Every entry of the invalid list and every curve kept in `check_map` has one
of the paths `S`. -/
def ScanPathsIn (S : List MDagPath) (st : checkCurveSamePosition.ScanState) : Prop :=
  PathsIn S st.invalid ∧
  ∀ x q, checkCurveSamePosition.mapFind st.check_map x = some q → q ∈ S

/-- The paths `S` include the path of every node of the scene that is not an
intermediate object. -/
def CoversCurves (S : List MDagPath) (scene : List CurveNode) : Prop :=
  ∀ node ∈ scene, node.isIntermediateObject = false → ∀ p, node.getPath = some p → p ∈ S

/-- The number of worker tasks the parallel region creates for the mesh list
that `getAllMesh` collects (none when `getAllMesh` fails). -/
def tasksFor {G : Type} (host : Host) (scene : List (Mesh G)) : Nat :=
  match getAllMesh host scene with
  | none => 0
  | some meshes => taskCount host.hardware_concurrency meshes.length

/-- The number of worker tasks of the invocation; the curve commands have none. -/
def Invocation.tasks : Invocation → Nat
  | Invocation.curveSamePosition _ _ => 0
  | Invocation.curveSpans0Count _ _ => 0
  | Invocation.meshDoubleFace _ host scene => tasksFor host scene
  | Invocation.meshFace0Count _ host scene => tasksFor host scene
  | Invocation.meshFreeze _ host scene => tasksFor host scene
  | Invocation.meshNormalLock _ host scene => tasksFor host scene
  | Invocation.meshUVFlip _ _ host scene => tasksFor host scene
  | Invocation.meshUVNegative _ _ host scene => tasksFor host scene
  | Invocation.meshUVTilingOver _ _ host scene => tasksFor host scene

/-- Every curve node the iterator visits is skipped: it is an intermediate
object or not a curve shape. -/
def NoCurve (scene : List CurveNode) : Prop :=
  ∀ node ∈ scene, node.skipped = true

/-- Every mesh node the iterator visits is an intermediate object. -/
def NoMesh {G : Type} (scene : List (Mesh G)) : Prop :=
  ∀ node ∈ scene, node.isIntermediateObject = true

/-- The scene has no non-intermediate object of the type the command scans. -/
def Invocation.NoObject : Invocation → Prop
  | Invocation.curveSamePosition _ scene => NoCurve scene
  | Invocation.curveSpans0Count _ scene => NoCurve scene
  | Invocation.meshDoubleFace _ _ scene => NoMesh scene
  | Invocation.meshFace0Count _ _ scene => NoMesh scene
  | Invocation.meshFreeze _ _ scene => NoMesh scene
  | Invocation.meshNormalLock _ _ scene => NoMesh scene
  | Invocation.meshUVFlip _ _ _ scene => NoMesh scene
  | Invocation.meshUVNegative _ _ _ scene => NoMesh scene
  | Invocation.meshUVTilingOver _ _ _ scene => NoMesh scene

/-- The host calls of the DAG walk succeed for every curve node. -/
def CurveSceneOk (scene : List CurveNode) : Prop :=
  ∀ node ∈ scene, node.getPath ≠ none ∧ node.dagNode = MStatus.kSuccess

/-- The DAG iterator and the thread pool can be created and the host calls of
the DAG walk succeed for every mesh node. -/
def MeshSceneOk {G : Type} (host : Host) (scene : List (Mesh G)) : Prop :=
  host.dagIter = MStatus.kSuccess ∧ host.poolInit = MStatus.kSuccess ∧
    ∀ node ∈ scene, node.getPath = MStatus.kSuccess ∧ node.dagNode = MStatus.kSuccess

/-- No host call of the walk over the scene fails. -/
def Invocation.SceneOk : Invocation → Prop
  | Invocation.curveSamePosition _ scene => CurveSceneOk scene
  | Invocation.curveSpans0Count _ scene => CurveSceneOk scene
  | Invocation.meshDoubleFace _ host scene => MeshSceneOk host scene
  | Invocation.meshFace0Count _ host scene => MeshSceneOk host scene
  | Invocation.meshFreeze _ host scene => MeshSceneOk host scene
  | Invocation.meshNormalLock _ host scene => MeshSceneOk host scene
  | Invocation.meshUVFlip _ _ host scene => MeshSceneOk host scene
  | Invocation.meshUVNegative _ _ host scene => MeshSceneOk host scene
  | Invocation.meshUVTilingOver _ _ host scene => MeshSceneOk host scene

/-- What a run on a scene without objects leaves: success, an empty `_invalid`,
with `-select` an empty active selection and the command result of before,
without it the selection strings of the empty list as command result and the
active selection of before. -/
def EmptyOutcome (select : Bool) (strings : List String) (s : Session) (r : RunResult) : Prop :=
  r.stat = MStatus.kSuccess ∧ r.cmd._invalid = [] ∧
  (select = true → r.session.activeSelection = [] ∧ r.session.result = s.result) ∧
  (select = false →
    r.session.result = some strings ∧ r.session.activeSelection = s.activeSelection)

/-! ## Concrete scenes used to instantiate the theorems -/

/-- A curve shape node for which every host call succeeds. -/
def curveNode (p : MDagPath) (cvs : List Point) (form : Form) (numSpans : Int) : CurveNode :=
  CurveNode.mk (some p) MStatus.kSuccess false true false MStatus.kSuccess (some cvs) (some form)
    (some numSpans)

/-- Two open curves that share the position `(1, 0, 0)` and a periodic curve
whose last three CVs repeat its first three. -/
def sharedCVScene : List CurveNode :=
  [curveNode 1 [(0, 0, 0), (1, 0, 0)] Form.kOpen 1,
   curveNode 2 [(1, 0, 0), (2, 0, 0)] Form.kOpen 1,
   curveNode 3 [(5, 0, 0), (6, 0, 0), (7, 0, 0), (5, 0, 0), (6, 0, 0), (7, 0, 0)] Form.kPeriodic 3]

/-- A curve with no span, a curve whose function set cannot be attached, a
curve with two spans and an intermediate curve with no span. -/
def spansScene : List CurveNode :=
  [curveNode 1 [(0, 0, 0)] Form.kOpen 0,
   CurveNode.mk (some 2) MStatus.kSuccess false true false MStatus.kFailure none none none,
   curveNode 3 [(0, 0, 0), (1, 0, 0), (2, 0, 0)] Form.kOpen 2,
   CurveNode.mk (some 4) MStatus.kSuccess true true false MStatus.kSuccess (some []) (some Form.kOpen)
     (some 0)]

/-- A machine with hardware concurrency `hc` on which the DAG iterator, the
thread pool and every merge succeed. -/
def hostOf (hc : Nat) : Host :=
  Host.mk hc MStatus.kSuccess MStatus.kSuccess (fun _ => MStatus.kSuccess)

/-- A non-intermediate mesh with path `p` for which the DAG walk succeeds. -/
def meshNode {G : Type} (p : MDagPath) (g : G) : Mesh G :=
  Mesh.mk MStatus.kSuccess p MStatus.kSuccess false g

/-- `n` meshes with the paths `0 … n-1`, all with the host answers `g`. -/
def meshesOf {G : Type} (n : Nat) (g : G) : List (Mesh G) :=
  (List.range n).map fun p => meshNode p g

/-- 63 meshes without polygons. -/
def emptyMeshes63 : List (Mesh checkMeshFace0Count.Geom) :=
  meshesOf 63 (checkMeshFace0Count.Geom.mk MStatus.kSuccess (some 0))

/-- A mesh whose `pnts` has one element with three children, all `0`. -/
def frozenGeom : checkMeshFreeze.Geom :=
  checkMeshFreeze.Geom.mk MStatus.kSuccess MStatus.kSuccess (some 1) (fun _ => MStatus.kSuccess)
    (fun _ => some 3) (fun _ _ => MStatus.kSuccess) (fun _ _ => some 0)

/-- A mesh whose `pnts` has one element with the children `0, 1/2, 0`. -/
def unfrozenGeom : checkMeshFreeze.Geom :=
  checkMeshFreeze.Geom.mk MStatus.kSuccess MStatus.kSuccess (some 1) (fun _ => MStatus.kSuccess)
    (fun _ => some 3) (fun _ _ => MStatus.kSuccess) (fun _ c => some (if c = 1 then 1 / 2 else 0))

/-- 62 frozen meshes followed by the unfrozen mesh 62. -/
def freezeScene63 : List (Mesh checkMeshFreeze.Geom) :=
  meshesOf 62 frozenGeom ++ [meshNode 62 unfrozenGeom]

/-- A mesh with four normals, none locked. -/
def unlockedGeom : checkMeshNormalLock.Geom :=
  checkMeshNormalLock.Geom.mk MStatus.kSuccess (some 4) (fun _ => some false)

/-- A mesh with four normals of which normal 2 is locked. -/
def lockedGeom : checkMeshNormalLock.Geom :=
  checkMeshNormalLock.Geom.mk MStatus.kSuccess (some 4) (fun n => some (decide (n = 2)))

/-- 62 meshes without locked normal followed by mesh 62 with a locked normal. -/
def normalLockScene63 : List (Mesh checkMeshNormalLock.Geom) :=
  meshesOf 62 unlockedGeom ++ [meshNode 62 lockedGeom]

/-- The flags `-uvSet map1`, without `-select` and without `-allUVSet`. -/
def flagsMap1 : UVFlags := UVFlags.mk false (some "map1") false

/-- A mesh with one face and the UV sets `map1` and `map2`; the face is reversed
in the UV sets listed in `reversedIn`. -/
def flipGeom (reversedIn : List String) : checkMeshUVFlip.Geom :=
  checkMeshUVFlip.Geom.mk MStatus.kSuccess (some 1) (some ["map1", "map2"]) MStatus.kSuccess 1
    (fun _ uvSetName => (decide (uvSetName ∈ reversedIn), MStatus.kSuccess))

/-- 62 meshes without reversed face followed by mesh 62, reversed in `map1`. -/
def flipScene63 : List (Mesh checkMeshUVFlip.Geom) :=
  meshesOf 62 (flipGeom []) ++ [meshNode 62 (flipGeom ["map1"])]

/-- A mesh with one face and the UV sets `map1` and `map2`; the face has the UVs
`(1/4, 1/4), (3/4, 1/4), (1/2, 3/4)`, the first of them moved to `(-1/4, 1/4)`
in the UV sets listed in `negativeIn`. -/
def negativeGeom (negativeIn : List String) : checkMeshUVNegative.Geom :=
  checkMeshUVNegative.Geom.mk MStatus.kSuccess (some 1) (some ["map1", "map2"]) MStatus.kSuccess 1
    (fun _ uvSetName =>
      some [(if uvSetName ∈ negativeIn then -1 / 4 else 1 / 4, 1 / 4), (3 / 4, 1 / 4),
        (1 / 2, 3 / 4)])

/-- 62 meshes without negative UV followed by mesh 62, negative in `map1`. -/
def negativeScene63 : List (Mesh checkMeshUVNegative.Geom) :=
  meshesOf 62 (negativeGeom []) ++ [meshNode 62 (negativeGeom ["map1"])]

/-- A mesh with one face and the UV sets `map1` and `map2`, each with the single
shell `0` and the UVs `(1/4, 1/4), (3/4, 1/4), (1/2, 3/4)`; in the UV sets listed
in `overIn` the second UV is moved to `(7/4, 1/4)`, in the next tile. -/
def tilingGeom (overIn : List String) : checkMeshUVTilingOver.Geom :=
  checkMeshUVTilingOver.Geom.mk MStatus.kSuccess (some 1) (some ["map1", "map2"])
    (fun _ => some [0, 0, 0]) (fun _ => some 3)
    (fun uvSetName uvId =>
      if uvId = 0 then some (1 / 4, 1 / 4)
      else if uvId = 1 then some (if uvSetName ∈ overIn then 7 / 4 else 3 / 4, 1 / 4)
      else some (1 / 2, 3 / 4))

/-- 62 meshes inside one tile followed by mesh 62, over two tiles in `map1`. -/
def tilingScene63 : List (Mesh checkMeshUVTilingOver.Geom) :=
  meshesOf 62 (tilingGeom []) ++ [meshNode 62 (tilingGeom ["map1"])]

/-- A quad with the vertex ids `0 1 2 3` at four different positions and a second
face on the same four vertex ids, wound the other way. -/
def laminaGeom : checkMeshDoubleFace.Geom :=
  checkMeshDoubleFace.Geom.mk MStatus.kSuccess
    (some [(0, 0, 0), (1, 0, 0), (1, 1, 0), (0, 1, 0)]) MStatus.kSuccess (some 2)
    (fun faceId => if faceId = 0 then some [0, 1, 2, 3] else some [3, 2, 1, 0])

/-- A quad with the vertex ids `0 1 2 3` and a second quad with the vertex ids
`4 5 6 7` at the same four positions. -/
def doubledGeom : checkMeshDoubleFace.Geom :=
  checkMeshDoubleFace.Geom.mk MStatus.kSuccess
    (some [(0, 0, 0), (1, 0, 0), (1, 1, 0), (0, 1, 0), (0, 0, 0), (1, 0, 0), (1, 1, 0), (0, 1, 0)])
    MStatus.kSuccess (some 2)
    (fun faceId => if faceId = 0 then some [0, 1, 2, 3] else some [7, 6, 5, 4])

/-- A host whose calls around the scan all succeed; the selection string of an
entry is its path number, followed by the face number for a face. -/
def shellOk : Shell :=
  Shell.mk MStatus.kSuccess MStatus.kSuccess MStatus.kSuccess
    (fun l => some (l.map fun it =>
      match it.component with
      | none => toString it.path
      | some f => toString it.path ++ ".f[" ++ toString f ++ "]"))

/-- A session in which object 9 is selected, no result is set and the thread pool
has not been used. -/
def session9 : Session := Session.mk [SelItem.mk 9 none] none 0 0

/-- A mesh without polygons. -/
def noPolygonGeom : checkMeshFace0Count.Geom :=
  checkMeshFace0Count.Geom.mk MStatus.kSuccess (some 0)

/-- A mesh with twelve polygons. -/
def cubeGeom : checkMeshFace0Count.Geom :=
  checkMeshFace0Count.Geom.mk MStatus.kSuccess (some 12)

/-- 62 meshes with twelve polygons followed by mesh 62, without polygons. -/
def face0Scene63 : List (Mesh checkMeshFace0Count.Geom) :=
  meshesOf 62 cubeGeom ++ [meshNode 62 noPolygonGeom]

/-- A mesh whose polygon-count query fails. -/
def brokenCountGeom : checkMeshFace0Count.Geom :=
  checkMeshFace0Count.Geom.mk MStatus.kSuccess none

/-- The flag `-s / -select`. -/
def selectSyntaxFlag : Flag := Flag.mk "-s" "-select" MArgType.kNoArg

/-- The three UV commands. -/
def Invocation.isUVCommand : Invocation → Bool
  | Invocation.meshUVFlip _ _ _ _ => true
  | Invocation.meshUVNegative _ _ _ _ => true
  | Invocation.meshUVTilingOver _ _ _ _ => true
  | _ => false

/-- 62 meshes with two faces on four vertices at four positions, followed by
mesh 62, whose two faces lie on eight vertices at four positions. -/
def doubleFaceScene63 : List (Mesh checkMeshDoubleFace.Geom) :=
  meshesOf 62 laminaGeom ++ [meshNode 62 doubledGeom]

/-- A mesh with one face and the UV set `map1`, whose single shell `0` has the
two UVs `(-1/2, 1/4)` and `(1/2, 1/4)`. -/
def straddleGeom : checkMeshUVTilingOver.Geom :=
  checkMeshUVTilingOver.Geom.mk MStatus.kSuccess (some 1) (some ["map1"])
    (fun _ => some [0, 0]) (fun _ => some 2)
    (fun _ uvId => if uvId = 0 then some (-1 / 2, 1 / 4) else some (1 / 2, 1 / 4))

/-- A host on which `getSelectionStrings` fails; its other calls around the scan
succeed. -/
def shellNoStrings : Shell :=
  Shell.mk MStatus.kSuccess MStatus.kSuccess MStatus.kSuccess (fun _ => none)

/-- A host on which the construction of the argument parser fails (an unknown
flag is given, say); its other calls around the scan succeed. -/
def shellBadArgs : Shell :=
  Shell.mk MStatus.kFailure MStatus.kSuccess MStatus.kSuccess shellOk.getSelectionStrings

/-- A mesh for `checkMeshUVFlip` whose polygon-count query fails. -/
def flipNoCountGeom : checkMeshUVFlip.Geom :=
  checkMeshUVFlip.Geom.mk MStatus.kSuccess none (some ["map1", "map2"]) MStatus.kSuccess 1
    (fun _ _ => (false, MStatus.kSuccess))

/-- Nine meshes without reversed face, mesh 9 whose polygon-count query fails,
and mesh 10, reversed in `map1`. -/
def flipScene11 : List (Mesh checkMeshUVFlip.Geom) :=
  meshesOf 9 (flipGeom []) ++ [meshNode 9 flipNoCountGeom, meshNode 10 (flipGeom ["map1"])]

/-- A mesh for `checkMeshUVNegative` whose polygon-count query fails. -/
def negativeNoCountGeom : checkMeshUVNegative.Geom :=
  checkMeshUVNegative.Geom.mk MStatus.kSuccess none (some ["map1", "map2"]) MStatus.kSuccess 1
    (fun _ _ => some [(1 / 4, 1 / 4), (3 / 4, 1 / 4), (1 / 2, 3 / 4)])

/-- Nine meshes without negative UV, mesh 9 whose polygon-count query fails, and
mesh 10, negative in `map1`. -/
def negativeScene11 : List (Mesh checkMeshUVNegative.Geom) :=
  meshesOf 9 (negativeGeom []) ++
    [meshNode 9 negativeNoCountGeom, meshNode 10 (negativeGeom ["map1"])]

/-- A mesh for `checkMeshUVTilingOver` whose polygon-count query fails. -/
def tilingNoCountGeom : checkMeshUVTilingOver.Geom :=
  checkMeshUVTilingOver.Geom.mk MStatus.kSuccess none (some ["map1", "map2"])
    (fun _ => some [0, 0, 0]) (fun _ => some 3) (fun _ _ => some (1 / 4, 1 / 4))

/-- Nine meshes inside one tile, mesh 9 whose polygon-count query fails, and mesh
10, over two tiles in `map1`. -/
def tilingScene11 : List (Mesh checkMeshUVTilingOver.Geom) :=
  meshesOf 9 (tilingGeom []) ++ [meshNode 9 tilingNoCountGeom, meshNode 10 (tilingGeom ["map1"])]

/-- A periodic curve with the two CVs `(0, 0, 0)` and `(1, 0, 0)`. -/
def shortPeriodicScene : List CurveNode :=
  [curveNode 0 [(0, 0, 0), (1, 0, 0)] Form.kPeriodic 1]

/-- No flag is given. -/
def flagsNone : UVFlags := UVFlags.mk false none false

/-- A mesh with one face and the single UV set `map2`, in which the face is
reversed. -/
def flipMap2Geom : checkMeshUVFlip.Geom :=
  checkMeshUVFlip.Geom.mk MStatus.kSuccess (some 1) (some ["map2"]) MStatus.kSuccess 1
    (fun _ _ => (true, MStatus.kSuccess))

/-- A mesh with one face and the single UV set `map2`, in which the face has the
UV `(-1/4, 1/4)`. -/
def negativeMap2Geom : checkMeshUVNegative.Geom :=
  checkMeshUVNegative.Geom.mk MStatus.kSuccess (some 1) (some ["map2"]) MStatus.kSuccess 1
    (fun _ _ => some [(-1 / 4, 1 / 4), (3 / 4, 1 / 4), (1 / 2, 3 / 4)])

/-- A mesh with one face and the single UV set `map2`, whose shell `0` has UVs in
the tiles `(0, 0)` and `(1, 0)`. -/
def tilingMap2Geom : checkMeshUVTilingOver.Geom :=
  checkMeshUVTilingOver.Geom.mk MStatus.kSuccess (some 1) (some ["map2"])
    (fun _ => some [0, 0, 0]) (fun _ => some 3)
    (fun _ uvId => if uvId = 1 then some (7 / 4, 1 / 4) else some (1 / 4, 1 / 4))

/-- An open curve `1` whose two CVs lie on CVs of the curves `2` and `3`, and on
a second CV of curve `2`. -/
def twiceSharedScene : List CurveNode :=
  [curveNode 1 [(0, 0, 0), (1, 0, 0)] Form.kOpen 1,
   curveNode 2 [(0, 0, 0), (1, 0, 0)] Form.kOpen 1,
   curveNode 3 [(1, 0, 0), (0, 0, 0)] Form.kOpen 1]

/-- An open curve `1` and an intermediate curve `7` with the same two CV
positions. -/
def intermediateScene : List CurveNode :=
  [curveNode 1 [(0, 0, 0), (1, 0, 0)] Form.kOpen 1,
   CurveNode.mk (some 7) MStatus.kSuccess true true false MStatus.kSuccess
     (some [(0, 0, 0), (1, 0, 0)]) (some Form.kOpen) (some 0)]

/-- The scene of `intermediateScene` without its non-intermediate curve, and
with a transform node. -/
def noCurveScene : List CurveNode :=
  [CurveNode.mk (some 7) MStatus.kSuccess true true false MStatus.kSuccess
     (some [(0, 0, 0), (1, 0, 0)]) (some Form.kOpen) (some 0),
   CurveNode.mk (some 8) MStatus.kSuccess false true true MStatus.kSuccess
     (some [(0, 0, 0), (1, 0, 0)]) (some Form.kOpen) (some 0)]

/-- One intermediate mesh with a locked normal. -/
def noMeshScene : List (Mesh checkMeshNormalLock.Geom) :=
  [Mesh.mk MStatus.kSuccess 5 MStatus.kSuccess true lockedGeom]

/-! ## Theorems -/

/-- C2: the index ranges do not always partition the mesh list.  With 63 meshes
and a hardware concurrency of 6 there are 60 tasks; in single precision
`63 / 60` is `8808038 / 2^23`, its product with `60` rounds to
`16515071 / 2^18 < 63`, the last range ends at 62 instead of 63, and mesh index
62 lies in no range. -/
theorem taskEnd_last_misses_mesh :
    taskCount 6 63 = 60 ∧
    f32Div (f32OfNat 63) (f32OfNat 60) = 8808038 / 2 ^ 23 ∧
    f32Mul (f32Div (f32OfNat 63) (f32OfNat 60)) (f32OfNat 60) = 16515071 / 2 ^ 18 ∧
    taskEnd 63 60 59 = 62 ∧
    ∀ i, i < 60 → ¬ (taskStart 63 60 i ≤ 62 ∧ 62 < taskEnd 63 60 i) := by
  decide!

/-- The first range starts at index 0. -/
theorem taskStart_zero (n size : Nat) : taskStart n size 0 = 0 := by
  simp [taskStart, f32Mul, f32OfNat, roundF32, f32ToUInt]

/-- Each range ends where the next one starts: both bounds come from the same
expression. -/
theorem taskEnd_eq_taskStart_succ (n size i : Nat) (hi : i + 1 < 2 ^ 32) :
    taskEnd n size i = taskStart n size (i + 1) := by
  unfold taskEnd taskStart
  rw [Nat.mod_eq_of_lt hi]

/-! ### checkCurveSamePosition -/

namespace checkCurveSamePosition

theorem mem_addIfAbsent (l : MSelectionList) (p : MDagPath) (it : SelItem) :
    it ∈ addIfAbsent l p ↔ it ∈ l ∨ it = SelItem.mk p none := by
  unfold addIfAbsent MSelectionList.hasItem MSelectionList.add
  by_cases h : SelItem.mk p none ∈ l
  · simp only [h, decide_True, if_true]
    constructor
    · intro h1; exact Or.inl h1
    · rintro (h1 | h1)
      · exact h1
      · rw [h1]; exact h
  · simp [h]

theorem cvLoop_eq_foldl (dagPath : MDagPath) (cvs : List Point) :
    ∀ (r i : Nat) (st : ScanState), i + r ≤ cvs.length →
      cvLoop dagPath cvs r i st = Except.ok (((cvs.drop i).take r).foldl (visitCV dagPath) st) := by
  intro r
  induction r with
  | zero => intro i st _; simp [cvLoop]
  | succ r ih =>
    intro i st h
    have hi : i < cvs.length := by omega
    rw [cvLoop, List.getElem?_eq_getElem hi]
    simp only
    rw [ih (i + 1) _ (by omega)]
    have hd : cvs.drop i = cvs[i] :: cvs.drop (i + 1) := List.drop_eq_getElem_cons hi
    rw [hd, List.take_succ_cons, List.foldl_cons]

theorem foldl_tagFrom (k : Nat) (p : MDagPath) (xs : List Point) :
    ∀ (i : Nat) (st : ScanState),
      (tagFrom k p i xs).foldl visitRef st = xs.foldl (visitCV p) st := by
  induction xs with
  | nil => intro i st; rfl
  | cons x xs ih => intro i st; simp [tagFrom, visitRef, ih]

theorem mem_tagFrom (k : Nat) (p : MDagPath) (xs : List Point) :
    ∀ (i : Nat) (a : CVRef),
      a ∈ tagFrom k p i xs ↔ a.k = k ∧ a.path = p ∧ i ≤ a.i ∧ xs[a.i - i]? = some a.pos := by
  induction xs with
  | nil => intro i a; simp [tagFrom]
  | cons x xs ih =>
    intro i a
    simp only [tagFrom, List.mem_cons, ih]
    constructor
    · rintro (h | ⟨h1, h2, h3, h4⟩)
      · subst h; simp
      · refine ⟨h1, h2, by omega, ?_⟩
        have : a.i - i = (a.i - (i + 1)) + 1 := by omega
        rw [this]; simpa using h4
    · rintro ⟨h1, h2, h3, h4⟩
      by_cases hi : a.i = i
      · left
        rw [hi] at h4
        simp at h4
        cases a; simp_all
      · right
        refine ⟨h1, h2, by omega, ?_⟩
        have : a.i - i = (a.i - (i + 1)) + 1 := by omega
        rw [this] at h4; simpa using h4

theorem nodup_tagFrom (k : Nat) (p : MDagPath) (xs : List Point) :
    ∀ (i : Nat), (tagFrom k p i xs).Nodup := by
  induction xs with
  | nil => intro i; simp [tagFrom]
  | cons x xs ih =>
    intro i
    simp only [tagFrom, List.nodup_cons]
    refine ⟨?_, ih (i + 1)⟩
    rw [mem_tagFrom]
    simp

theorem mem_nodeCVs (k : Nat) (node : CurveNode) (a : CVRef) :
    a ∈ nodeCVs k node ↔
      a.k = k ∧ node.skipped = false ∧ node.getPath = some a.path ∧
        ∃ cvs form, node.getCVs = some cvs ∧ node.form = some form ∧
          a.i < numCVs cvs.length form ∧ cvs[a.i]? = some a.pos := by
  unfold nodeCVs
  cases hs : node.skipped with
  | true => simp
  | false =>
    cases hp : node.getPath with
    | none => simp
    | some p =>
      cases hc : node.getCVs with
      | none => simp
      | some cvs =>
        cases hf : node.form with
        | none => simp
        | some form =>
          simp only [Bool.false_eq_true, if_false, mem_tagFrom, Nat.zero_le, Nat.sub_zero,
            true_and, Option.some.injEq, List.getElem?_take]
          have key : (if a.i < numCVs cvs.length form then cvs[a.i]? else none) = some a.pos ↔
              a.i < numCVs cvs.length form ∧ cvs[a.i]? = some a.pos := by
            by_cases hlt : a.i < numCVs cvs.length form <;> simp [hlt]
          constructor
          · rintro ⟨h1, h2, h3⟩
            exact ⟨h1, h2.symm, cvs, form, rfl, rfl, key.1 h3⟩
          · rintro ⟨h1, h2, cvs', form', h3, h4, h5⟩
            subst h3 h4
            exact ⟨h1, h2.symm, key.2 h5⟩

theorem nodup_nodeCVs (k : Nat) (node : CurveNode) : (nodeCVs k node).Nodup := by
  unfold nodeCVs
  split
  · exact List.nodup_nil
  · split
    · exact nodup_tagFrom _ _ _ _
    · exact List.nodup_nil

theorem mem_sceneCVs (scene : List CurveNode) :
    ∀ (k : Nat) (a : CVRef),
      a ∈ sceneCVs k scene ↔ k ≤ a.k ∧ ∃ node, scene[a.k - k]? = some node ∧ a ∈ nodeCVs a.k node := by
  induction scene with
  | nil => intro k a; simp [sceneCVs]
  | cons node rest ih =>
    intro k a
    simp only [sceneCVs, List.mem_append, ih]
    constructor
    · rintro (h | ⟨h1, node', h2, h3⟩)
      · have hk : a.k = k := ((mem_nodeCVs k node a).1 h).1
        refine ⟨by omega, node, ?_, ?_⟩
        · simp [hk]
        · rw [hk]; exact h
      · refine ⟨by omega, node', ?_, h3⟩
        have : a.k - k = (a.k - (k + 1)) + 1 := by omega
        rw [this]; simpa using h2
    · rintro ⟨h1, node', h2, h3⟩
      by_cases hk : a.k = k
      · left
        rw [hk] at h2 h3
        simp at h2
        rw [h2]; exact h3
      · right
        refine ⟨by omega, node', ?_, h3⟩
        have : a.k - k = (a.k - (k + 1)) + 1 := by omega
        rw [this] at h2; simpa using h2

theorem nodup_sceneCVs (scene : List CurveNode) : ∀ (k : Nat), (sceneCVs k scene).Nodup := by
  induction scene with
  | nil => intro k; simp [sceneCVs]
  | cons node rest ih =>
    intro k
    simp only [sceneCVs]
    rw [List.nodup_append]
    refine ⟨nodup_nodeCVs k node, ih (k + 1), ?_⟩
    intro a h1 h2
    have hk : a.k = k := ((mem_nodeCVs k node a).1 h1).1
    have hk2 : k + 1 ≤ a.k := ((mem_sceneCVs rest (k + 1) a).1 h2).1
    omega

theorem examinedCV_iff_mem (scene : List CurveNode) (k i : Nat) (p : MDagPath) (x : Point) :
    ExaminedCV scene k i p x ↔ CVRef.mk k i p x ∈ sceneCVs 0 scene := by
  rw [mem_sceneCVs]
  simp only [Nat.zero_le, Nat.sub_zero, true_and, mem_nodeCVs]
  unfold ExaminedCV
  constructor
  · rintro ⟨node, cvs, form, h1, h2, h3, h4, h5, h6, h7⟩
    exact ⟨node, h1, h2, h3, cvs, form, h4, h5, h6, h7⟩
  · rintro ⟨node, h1, h2, h3, cvs, form, h4, h5, h6, h7⟩
    exact ⟨node, cvs, form, h1, h2, h3, h4, h5, h6, h7⟩

theorem visitNode_eq_foldl (k : Nat) (st : ScanState) (node : CurveNode) (hok : NodeOk node) :
    visitNode st node = Except.ok ((nodeCVs k node).foldl visitRef st) := by
  obtain ⟨h1, h2, h3⟩ := hok
  unfold visitNode nodeCVs
  cases hp : node.getPath with
  | none => exact absurd hp h1
  | some p =>
    simp only [h2, ne_eq, not_true_eq_false, if_false]
    cases hs : node.skipped with
    | true =>
      unfold CurveNode.skipped at hs
      cases hi : node.isIntermediateObject with
      | true => simp
      | false =>
        rw [hi] at hs
        simp only [Bool.false_or] at hs
        simp [hs]
    | false =>
      obtain ⟨h4, cvs, form, h5, h6, h7⟩ := h3 hs
      unfold CurveNode.skipped at hs
      simp only [Bool.or_eq_false_iff] at hs
      obtain ⟨hs1, hs2⟩ := hs
      simp only [hs1, Bool.false_eq_true, if_false, hs2, h4, ne_eq, not_true_eq_false, h5, h6]
      rw [cvLoop_eq_foldl _ _ _ _ _ (by omega), foldl_tagFrom]
      simp

theorem dagLoop_eq_foldl (scene : List CurveNode) (hok : ∀ node ∈ scene, NodeOk node) :
    ∀ (k : Nat) (st : ScanState),
      dagLoop st scene = Except.ok ((sceneCVs k scene).foldl visitRef st) := by
  induction scene with
  | nil => intro k st; rfl
  | cons node rest ih =>
    intro k st
    rw [dagLoop, visitNode_eq_foldl k st node (hok node (List.mem_cons_self _ _))]
    simp only [sceneCVs, List.foldl_append]
    exact ih (fun n hn => hok n (List.mem_cons_of_mem _ hn)) (k + 1) _

theorem scanInv_nil : ScanInv [] (ScanState.mk [] []) := by
  refine ⟨?_, ?_, ?_⟩
  · intro x; simp [mapFind]
  · intro x q h; simp [mapFind] at h
  · intro it h; simp at h

theorem scanInv_step (L : List CVRef) (st : ScanState) (c : CVRef) (h : ScanInv L st)
    (hc : c ∉ L) : ScanInv (L ++ [c]) (visitRef st c) := by
  obtain ⟨h1, h2, h3⟩ := h
  unfold visitRef visitCV
  cases hm : mapFind st.check_map c.pos with
  | none =>
    have hfresh : ∀ a ∈ L, a.pos ≠ c.pos := (h1 c.pos).1 hm
    refine ⟨?_, ?_, ?_⟩
    · intro x
      simp only [mapFind]
      by_cases hx : c.pos = x
      · simp only [hx, if_true]
        constructor
        · intro h; cases h
        · intro h; exact absurd hx (h c (by simp))
      · simp only [hx, if_false, h1 x, List.mem_append, List.mem_singleton]
        constructor
        · rintro h a (ha | ha)
          · exact h a ha
          · rw [ha]; exact hx
        · intro h a ha; exact h a (Or.inl ha)
    · intro x q hq
      simp only [mapFind] at hq
      by_cases hx : c.pos = x
      · simp only [hx, if_true, Option.some.injEq] at hq
        refine ⟨c, by simp, hx, hq, ?_⟩
        intro b hb hbx hbc
        simp only [List.mem_append, List.mem_singleton] at hb
        rcases hb with hb | hb
        · exact absurd (hbx.trans hx.symm) (hfresh b hb)
        · exact absurd hb hbc
      · simp only [hx, if_false] at hq
        obtain ⟨a0, ha0, hpos, hpath, hrest⟩ := h2 x q hq
        refine ⟨a0, by simp [ha0], hpos, hpath, ?_⟩
        intro b hb hbx hba
        simp only [List.mem_append, List.mem_singleton] at hb
        rcases hb with hb | hb
        · exact hrest b hb hbx hba
        · rw [hb] at hbx; exact absurd hbx hx
    · intro it hit
      obtain ⟨a, ha, b, hb, hab, hpos, hit'⟩ := h3 it hit
      exact ⟨a, by simp [ha], b, by simp [hb], hab, hpos, hit'⟩
  | some q =>
    obtain ⟨a0, ha0, hpos0, hpath0, hrest0⟩ := h2 c.pos q hm
    have hca0 : c ≠ a0 := fun e => hc (e ▸ ha0)
    refine ⟨?_, ?_, ?_⟩
    · intro x
      simp only [h1 x, List.mem_append, List.mem_singleton]
      constructor
      · rintro h a (ha | ha)
        · exact h a ha
        · intro hx
          rw [ha] at hx
          exact h a0 ha0 (hpos0.trans hx)
      · intro h a ha; exact h a (Or.inl ha)
    · intro x q' hq'
      obtain ⟨a1, ha1, hpos1, hpath1, hrest1⟩ := h2 x q' hq'
      refine ⟨a1, by simp [ha1], hpos1, hpath1, ?_⟩
      intro b hb hbx hba
      simp only [List.mem_append, List.mem_singleton] at hb
      simp only [mem_addIfAbsent]
      rcases hb with hb | hb
      · obtain ⟨r1, r2⟩ := hrest1 b hb hbx hba
        exact ⟨Or.inl (Or.inl r1), Or.inl (Or.inl r2)⟩
      · rw [hb] at hbx
        rw [← hbx, hm] at hq'
        simp only [Option.some.injEq] at hq'
        rw [hb, ← hq']
        exact ⟨Or.inl (Or.inr rfl), Or.inr rfl⟩
    · intro it hit
      simp only [mem_addIfAbsent] at hit
      rcases hit with (hit | hit) | hit
      · obtain ⟨a, ha, b, hb, hab, hpos, hit'⟩ := h3 it hit
        exact ⟨a, by simp [ha], b, by simp [hb], hab, hpos, hit'⟩
      · exact ⟨c, by simp, a0, by simp [ha0], hca0, hpos0.symm, hit⟩
      · exact ⟨a0, by simp [ha0], c, by simp, fun e => hca0 e.symm, hpos0, by rw [hit, hpath0]⟩

theorem scanInv_foldl (R : List CVRef) :
    ∀ (L : List CVRef) (st : ScanState), ScanInv L st → (L ++ R).Nodup →
      ScanInv (L ++ R) (R.foldl visitRef st) := by
  induction R with
  | nil => intro L st h _; simpa using h
  | cons c R ih =>
    intro L st h hnd
    have hc : c ∉ L := by
      intro hcL
      rw [List.nodup_append] at hnd
      exact hnd.2.2 hcL (List.mem_cons_self _ _)
    have e : L ++ c :: R = (L ++ [c]) ++ R := by simp
    rw [e] at hnd ⊢
    exact ih (L ++ [c]) (visitRef st c) (scanInv_step L st c h hc) hnd

theorem scanInv_reported (L : List CVRef) (st : ScanState) (h : ScanInv L st) (p : MDagPath) :
    SelItem.mk p none ∈ st.invalid ↔
      ∃ a ∈ L, ∃ b ∈ L, a ≠ b ∧ a.pos = b.pos ∧ a.path = p := by
  obtain ⟨h1, h2, h3⟩ := h
  constructor
  · intro hp
    obtain ⟨a, ha, b, hb, hab, hpos, hit⟩ := h3 _ hp
    simp only [SelItem.mk.injEq, and_true] at hit
    exact ⟨a, ha, b, hb, hab, hpos, hit.symm⟩
  · rintro ⟨a, ha, b, hb, hab, hpos, hpath⟩
    cases hm : mapFind st.check_map a.pos with
    | none => exact absurd rfl ((h1 a.pos).1 hm a ha)
    | some q =>
      obtain ⟨a0, ha0, hpos0, hpath0, hrest0⟩ := h2 a.pos q hm
      by_cases e : a = a0
      · have hb0 : b ≠ a0 := fun e' => hab (e.trans e'.symm)
        have := (hrest0 b hb hpos.symm hb0).2
        rw [← hpath0, ← e, hpath] at this
        exact this
      · have := (hrest0 a ha rfl e).1
        rw [hpath] at this
        exact this

/-- C1: when no host call fails (and the CV loop stays inside the CV array),
`doIt` completes and a curve `p` is on the invalid list if and only if one of
its examined CVs has exactly the position of another examined CV, that is of a
CV with a different index in the same node or of a CV of another visited
node. -/
theorem doIt_reports_iff_shared_position (scene : List CurveNode)
    (hok : ∀ node ∈ scene, NodeOk node) :
    ∃ invalid, doIt scene = Except.ok invalid ∧
      ∀ p : MDagPath, SelItem.mk p none ∈ invalid ↔
        ∃ k i x k' j p', ExaminedCV scene k i p x ∧ ExaminedCV scene k' j p' x ∧
          (k ≠ k' ∨ i ≠ j) := by
  have hrun := dagLoop_eq_foldl scene hok 0 (ScanState.mk [] [])
  have hinv := scanInv_foldl (sceneCVs 0 scene) [] (ScanState.mk [] []) scanInv_nil
    (by simpa using nodup_sceneCVs scene 0)
  simp only [List.nil_append] at hinv
  refine ⟨((sceneCVs 0 scene).foldl visitRef (ScanState.mk [] [])).invalid, ?_, ?_⟩
  · unfold doIt; rw [hrun]
  · intro p
    rw [scanInv_reported _ _ hinv p]
    constructor
    · rintro ⟨a, ha, b, hb, hab, hpos, hpath⟩
      refine ⟨a.k, a.i, a.pos, b.k, b.i, b.path, ?_, ?_, ?_⟩
      · rw [examinedCV_iff_mem, ← hpath]; exact ha
      · rw [examinedCV_iff_mem, hpos]; exact hb
      · by_contra hne
        simp only [not_or, not_not] at hne
        have hak := (mem_sceneCVs scene 0 a).1 ha
        have hbk := (mem_sceneCVs scene 0 b).1 hb
        obtain ⟨-, na, hna, hma⟩ := hak
        obtain ⟨-, nb, hnb, hmb⟩ := hbk
        rw [← hne.1] at hnb hmb
        simp only [Nat.sub_zero] at hna hnb
        rw [hna] at hnb
        simp only [Option.some.injEq] at hnb
        subst hnb
        have h1 := ((mem_nodeCVs _ _ _).1 hma).2.2.1
        have h2 := ((mem_nodeCVs _ _ _).1 hmb).2.2.1
        rw [h1] at h2
        simp only [Option.some.injEq] at h2
        apply hab
        cases a; cases b
        simp_all
    · rintro ⟨k, i, x, k', j, p', h1, h2, hne⟩
      rw [examinedCV_iff_mem] at h1 h2
      refine ⟨_, h1, _, h2, ?_, rfl, rfl⟩
      intro e
      simp only [CVRef.mk.injEq] at e
      rcases hne with hne | hne
      · exact hne e.1
      · exact hne e.2.1

theorem doIt_reports_iff_shared_position_witness :
    (∀ node ∈ sharedCVScene, NodeOk node) ∧
    ∃ invalid, doIt sharedCVScene = Except.ok invalid ∧
      ∀ p : MDagPath, SelItem.mk p none ∈ invalid ↔
        ∃ k i x k' j p', ExaminedCV sharedCVScene k i p x ∧ ExaminedCV sharedCVScene k' j p' x ∧
          (k ≠ k' ∨ i ≠ j) :=
  have h : ∀ node ∈ sharedCVScene, NodeOk node := by
    intro node hn
    simp only [sharedCVScene, List.mem_cons, List.mem_singleton, List.not_mem_nil, or_false] at hn
    rcases hn with rfl | rfl | rfl <;>
      exact ⟨by simp [curveNode], rfl, fun _ => ⟨rfl, _, _, rfl, rfl, by decide⟩⟩
  ⟨h, doIt_reports_iff_shared_position sharedCVScene h⟩

end checkCurveSamePosition

/-! ### checkCurveSpans0Count -/

namespace checkCurveSpans0Count

theorem spans0_visitNode_spec (invalid : MSelectionList) (node : CurveNode) (hok : NodeOk node) :
    ∃ invalid', visitNode invalid node = Except.ok invalid' ∧
      ∀ it, it ∈ invalid' ↔ it ∈ invalid ∨ ∃ p, ZeroSpans node p ∧ it = SelItem.mk p none := by
  obtain ⟨h1, h2, h3⟩ := hok
  unfold visitNode ZeroSpans
  cases hp : node.getPath with
  | none => exact absurd hp h1
  | some p =>
    simp only [h2, ne_eq, not_true_eq_false, if_false, Option.some.injEq]
    cases hs : node.skipped with
    | true =>
      unfold CurveNode.skipped at hs
      cases hi : node.isIntermediateObject with
      | true => simp
      | false =>
        rw [hi] at hs
        simp only [Bool.false_or] at hs
        simp [hs]
    | false =>
      have h3' := h3 hs
      unfold CurveNode.skipped at hs
      simp only [Bool.or_eq_false_iff] at hs
      obtain ⟨hs1, hs2⟩ := hs
      simp only [hs1, Bool.false_eq_true, if_false, hs2, true_and]
      cases hf : node.fnCurve with
      | kFailure =>
        refine ⟨_, rfl, ?_⟩
        intro it
        simp only [MSelectionList.add, List.mem_append, List.mem_singleton]
        constructor
        · rintro (h | h)
          · exact Or.inl h
          · exact Or.inr ⟨p, ⟨rfl, Or.inl (by simp)⟩, h⟩
        · rintro (h | ⟨q, ⟨hq, -⟩, h⟩)
          · exact Or.inl h
          · rw [← hq] at h; exact Or.inr h
      | kSuccess =>
        cases hn : node.numSpans with
        | none => exact absurd hn (h3' hf)
        | some n =>
          simp only [not_true_eq_false, if_false, Option.some.injEq, false_or]
          by_cases hz : n = 0
          · simp only [hz, if_true]
            refine ⟨_, rfl, ?_⟩
            intro it
            simp only [MSelectionList.add, List.mem_append, List.mem_singleton]
            constructor
            · rintro (h | h)
              · exact Or.inl h
              · exact Or.inr ⟨p, ⟨rfl, trivial⟩, h⟩
            · rintro (h | ⟨q, ⟨hq, -⟩, h⟩)
              · exact Or.inl h
              · rw [← hq] at h; exact Or.inr h
          · simp only [hz, if_false]
            refine ⟨_, rfl, ?_⟩
            intro it
            constructor
            · intro h; exact Or.inl h
            · rintro (h | ⟨q, ⟨-, hq⟩, -⟩)
              · exact h
              · exact absurd hq (by simp)

theorem spans0_dagLoop_spec (scene : List CurveNode) (hok : ∀ node ∈ scene, NodeOk node) :
    ∀ invalid : MSelectionList, ∃ invalid', dagLoop invalid scene = Except.ok invalid' ∧
      ∀ it, it ∈ invalid' ↔
        it ∈ invalid ∨ ∃ node ∈ scene, ∃ p, ZeroSpans node p ∧ it = SelItem.mk p none := by
  induction scene with
  | nil => intro invalid; exact ⟨invalid, rfl, by simp⟩
  | cons node rest ih =>
    intro invalid
    obtain ⟨inv1, e1, m1⟩ := spans0_visitNode_spec invalid node (hok node (List.mem_cons_self _ _))
    obtain ⟨inv2, e2, m2⟩ := ih (fun n hn => hok n (List.mem_cons_of_mem _ hn)) inv1
    refine ⟨inv2, ?_, ?_⟩
    · rw [dagLoop, e1]; exact e2
    · intro it
      rw [m2, m1]
      constructor
      · rintro ((h | ⟨q, hz, hq⟩) | ⟨n, hn, q, hz, hq⟩)
        · exact Or.inl h
        · exact Or.inr ⟨node, List.mem_cons_self _ _, q, hz, hq⟩
        · exact Or.inr ⟨n, List.mem_cons_of_mem _ hn, q, hz, hq⟩
      · rintro (h | ⟨n, hn, q, hz, hq⟩)
        · exact Or.inl (Or.inl h)
        · rcases List.mem_cons.1 hn with hn | hn
          · subst hn; exact Or.inl (Or.inr ⟨q, hz, hq⟩)
          · exact Or.inr ⟨n, hn, q, hz, hq⟩

/-- C10: when the DAG walk meets no failing host call other than the creation of
the curve function set, `doIt` completes and a curve `p` is reported if and only
if it is a non-intermediate curve shape whose function set cannot be attached or
whose span count is 0; a curve whose function set attaches and whose span count
is at least 1 is not reported. -/
theorem doIt_reports_iff_zero_spans (scene : List CurveNode)
    (hok : ∀ node ∈ scene, NodeOk node) :
    ∃ invalid, doIt scene = Except.ok invalid ∧
      (∀ p : MDagPath, SelItem.mk p none ∈ invalid ↔ ∃ node ∈ scene, ZeroSpans node p) ∧
      (∀ p : MDagPath,
        (∀ node ∈ scene, node.getPath = some p →
          node.fnCurve = MStatus.kSuccess ∧ ∃ n : Int, node.numSpans = some n ∧ 1 ≤ n) →
        SelItem.mk p none ∉ invalid) := by
  obtain ⟨invalid, e, m⟩ := spans0_dagLoop_spec scene hok []
  have hiff : ∀ p : MDagPath, SelItem.mk p none ∈ invalid ↔ ∃ node ∈ scene, ZeroSpans node p := by
    intro p
    rw [m]
    simp only [List.not_mem_nil, false_or, SelItem.mk.injEq, and_true]
    constructor
    · rintro ⟨node, hn, q, hz, hq⟩
      exact ⟨node, hn, hq ▸ hz⟩
    · rintro ⟨node, hn, hz⟩
      exact ⟨node, hn, p, hz, rfl⟩
  refine ⟨invalid, e, hiff, ?_⟩
  intro p hall hmem
  obtain ⟨node, hn, -, hp, hz⟩ := (hiff p).1 hmem
  obtain ⟨hf, n, hnum, hge⟩ := hall node hn hp
  rcases hz with hz | hz
  · exact hz hf
  · rw [hnum] at hz
    simp only [Option.some.injEq] at hz
    omega

theorem doIt_reports_iff_zero_spans_witness :
    (∀ node ∈ spansScene, NodeOk node) ∧
    ∃ invalid, doIt spansScene = Except.ok invalid ∧
      (∀ p : MDagPath, SelItem.mk p none ∈ invalid ↔ ∃ node ∈ spansScene, ZeroSpans node p) ∧
      (∀ p : MDagPath,
        (∀ node ∈ spansScene, node.getPath = some p →
          node.fnCurve = MStatus.kSuccess ∧ ∃ n : Int, node.numSpans = some n ∧ 1 ≤ n) →
        SelItem.mk p none ∉ invalid) :=
  have h : ∀ node ∈ spansScene, NodeOk node := by
    intro node hn
    simp only [spansScene, List.mem_cons, List.mem_singleton, List.not_mem_nil, or_false] at hn
    rcases hn with rfl | rfl | rfl | rfl <;>
      exact ⟨by simp [curveNode], rfl, by simp [curveNode]⟩
  ⟨h, doIt_reports_iff_zero_spans spansScene h⟩

end checkCurveSpans0Count

/-! ### The shared skeleton of the mesh commands -/

theorem mem_merge (other : MSelectionList) :
    ∀ (l : MSelectionList) (it : SelItem), it ∈ l.merge other ↔ it ∈ l ∨ it ∈ other := by
  induction other with
  | nil => intro l it; simp [MSelectionList.merge]
  | cons x rest ih =>
    intro l it
    have e : l.merge (x :: rest) = (MSelectionList.mergeItem l x).merge rest := rfl
    rw [e, ih]
    unfold MSelectionList.mergeItem
    by_cases hx : x ∈ l
    · simp only [hx, if_true, List.mem_cons]
      constructor
      · rintro (h | h)
        · exact Or.inl h
        · exact Or.inr (Or.inr h)
      · rintro (h | h | h)
        · exact Or.inl h
        · exact Or.inl (h ▸ hx)
        · exact Or.inr h
    · simp only [hx, if_false, List.mem_append, List.mem_singleton, List.mem_cons]
      tauto

theorem tdLoop_mem {G : Type} (visit : MSelectionList → Mesh G → Step)
    (R : Mesh G → SelItem → Prop) (meshes : List (Mesh G))
    (hvisit : ∀ m ∈ meshes, ∀ inv, ∃ inv', visit inv m = Step.next inv' ∧
      ∀ it, it ∈ inv' ↔ it ∈ inv ∨ R m it) :
    ∀ inv : MSelectionList, (tdLoop visit inv meshes).stat = MStatus.kSuccess ∧
      ∀ it, it ∈ (tdLoop visit inv meshes).invalidList ↔ it ∈ inv ∨ ∃ m ∈ meshes, R m it := by
  induction meshes with
  | nil => intro inv; simp [tdLoop]
  | cons m rest ih =>
    intro inv
    obtain ⟨inv', e, hm⟩ := hvisit m (List.mem_cons_self _ _) inv
    have ih' := ih (fun m' hm' => hvisit m' (List.mem_cons_of_mem _ hm')) inv'
    simp only [tdLoop, e]
    refine ⟨ih'.1, ?_⟩
    intro it
    rw [ih'.2, hm]
    constructor
    · rintro ((h | h) | ⟨m', hm', h⟩)
      · exact Or.inl h
      · exact Or.inr ⟨m, List.mem_cons_self _ _, h⟩
      · exact Or.inr ⟨m', List.mem_cons_of_mem _ hm', h⟩
    · rintro (h | ⟨m', hm', h⟩)
      · exact Or.inl (Or.inl h)
      · rcases List.mem_cons.1 hm' with hm' | hm'
        · subst hm'; exact Or.inl (Or.inr h)
        · exact Or.inr ⟨m', hm', h⟩

theorem mergeLoop_mem (mergeStat : Nat → MStatus) (hmerge : ∀ i, mergeStat i = MStatus.kSuccess)
    (tds : List TdResult) (htds : ∀ td ∈ tds, td.stat = MStatus.kSuccess) :
    ∀ (i : Nat) (inv : MSelectionList),
      (mergeLoop mergeStat i tds inv MStatus.kSuccess).2 = MStatus.kSuccess ∧
      ∀ it, it ∈ (mergeLoop mergeStat i tds inv MStatus.kSuccess).1 ↔
        it ∈ inv ∨ ∃ td ∈ tds, it ∈ td.invalidList := by
  induction tds with
  | nil => intro i inv; simp [mergeLoop]
  | cons td rest ih =>
    intro i inv
    have hs : td.stat = MStatus.kSuccess := htds td (List.mem_cons_self _ _)
    have ih' := ih (fun t ht => htds t (List.mem_cons_of_mem _ ht))
    simp only [mergeLoop, hmerge, hs, ne_eq, not_true_eq_false, if_false]
    by_cases hl : 0 < td.invalidList.length
    · simp only [hl, if_true]
      refine ⟨(ih' (i + 1) _).1, ?_⟩
      intro it
      rw [(ih' (i + 1) _).2, mem_merge]
      simp only [List.mem_cons, exists_eq_or_imp]
      tauto
    · simp only [hl, if_false]
      refine ⟨(ih' (i + 1) _).1, ?_⟩
      intro it
      rw [(ih' (i + 1) _).2]
      have hnil : td.invalidList = [] := by
        cases h : td.invalidList with
        | nil => rfl
        | cons a b => rw [h] at hl; simp at hl
      simp only [List.mem_cons, exists_eq_or_imp, hnil, List.not_mem_nil, false_or]

theorem getAllMeshLoop_ok {G : Type} (scene : List (Mesh G))
    (h : ∀ node ∈ scene, node.getPath = MStatus.kSuccess ∧ node.dagNode = MStatus.kSuccess) :
    getAllMeshLoop scene = some (collected scene) := by
  induction scene with
  | nil => rfl
  | cons node rest ih =>
    have h1 := h node (List.mem_cons_self _ _)
    have ih' := ih (fun n hn => h n (List.mem_cons_of_mem _ hn))
    simp only [getAllMeshLoop, h1.1, h1.2, ne_eq, not_true_eq_false, if_false, ih']
    unfold collected
    cases hi : node.isIntermediateObject <;> simp [List.filter_cons, hi]

theorem mem_collected {G : Type} (scene : List (Mesh G)) (m : Mesh G) :
    m ∈ collected scene ↔ m ∈ scene ∧ m.isIntermediateObject = false := by
  unfold collected
  simp [List.mem_filter]

theorem mem_of_mem_slice {α : Type} (meshes : List α) (start stop : Nat) (m : α)
    (h : m ∈ slice meshes start stop) : m ∈ meshes :=
  List.mem_of_mem_drop (List.mem_of_mem_take h)

/-- When no host call fails, a mesh command succeeds and an entry is on its
invalid list if and only if the worker produces it for a collected mesh that
lies in the index range of some task. -/
theorem meshDoIt_mem {G : Type} (checkSize : Bool) (visit : MSelectionList → Mesh G → Step)
    (R : Mesh G → SelItem → Prop) (host : Host) (scene : List (Mesh G))
    (hhost : host.Ok scene)
    (hvisit : ∀ m ∈ collected scene, ∀ inv, ∃ inv', visit inv m = Step.next inv' ∧
      ∀ it, it ∈ inv' ↔ it ∈ inv ∨ R m it) :
    ∃ invalid, meshDoIt checkSize (tdLoop visit []) host scene = (MStatus.kSuccess, invalid) ∧
      ∀ it, it ∈ invalid ↔ ∃ m, InSomeRange host (collected scene) m ∧ R m it := by
  obtain ⟨h1, h2, h3, h4⟩ := hhost
  have hworker : ∀ start stop,
      (tdLoop visit [] (slice (collected scene) start stop)).stat = MStatus.kSuccess ∧
      ∀ it, it ∈ (tdLoop visit [] (slice (collected scene) start stop)).invalidList ↔
        ∃ m ∈ slice (collected scene) start stop, R m it := by
    intro start stop
    have := tdLoop_mem visit R (slice (collected scene) start stop)
      (fun m hm => hvisit m (mem_of_mem_slice _ _ _ _ hm)) []
    simpa using this
  have hsearch := mergeLoop_mem host.mergeStat h3
    (runTasks (tdLoop visit []) (taskCount host.hardware_concurrency (collected scene).length)
      (collected scene))
    (by
      intro td htd
      simp only [runTasks, List.mem_map, List.mem_range] at htd
      obtain ⟨i, -, rfl⟩ := htd
      exact (hworker _ _).1) 0 []
  have hmem : ∀ it, it ∈ (searchMesh (tdLoop visit []) host (collected scene)).1 ↔
      ∃ m, InSomeRange host (collected scene) m ∧ R m it := by
    intro it
    unfold searchMesh
    rw [hsearch.2]
    simp only [List.not_mem_nil, false_or, runTasks, List.mem_map, List.mem_range,
      exists_exists_and_eq_and]
    unfold InSomeRange
    constructor
    · rintro ⟨i, hi, hit⟩
      obtain ⟨m, hm, hr⟩ := ((hworker _ _).2 it).1 hit
      exact ⟨m, ⟨i, hi, hm⟩, hr⟩
    · rintro ⟨m, ⟨i, hi, hm⟩, hr⟩
      exact ⟨i, hi, ((hworker _ _).2 it).2 ⟨m, hm, hr⟩⟩
  have hstat : (searchMesh (tdLoop visit []) host (collected scene)).2 = MStatus.kSuccess :=
    hsearch.1
  unfold meshDoIt getAllMesh
  simp only [h1, ne_eq, not_true_eq_false, if_false, getAllMeshLoop_ok scene h4, h2]
  by_cases hsz : (checkSize && decide ((collected scene).length = 0)) = true
  · simp only [hsz, if_true]
    refine ⟨[], rfl, ?_⟩
    intro it
    simp only [Bool.and_eq_true, decide_eq_true_eq] at hsz
    have hnil : collected scene = [] := List.length_eq_zero.1 hsz.2
    simp only [List.not_mem_nil, false_iff]
    rintro ⟨m, ⟨i, hi, hm⟩, -⟩
    rw [hnil] at hi
    simp [taskCount] at hi
  · simp only [hsz, Bool.false_eq_true, if_false]
    cases hres : searchMesh (tdLoop visit []) host (collected scene) with
    | mk inv stat =>
      rw [hres] at hstat hmem
      simp only at hstat hmem
      subst hstat
      exact ⟨inv, rfl, hmem⟩

/-! ### checkMeshDoubleFace -/

namespace checkMeshDoubleFace

theorem vertexInv_step (pnts : List Point) (n : Nat) (map : List (Point × Nat)) (ivs : List Nat)
    (x : Point) (hx : pnts[n]? = some x) (h : VertexInv pnts n (map, ivs)) :
    VertexInv pnts (n + 1)
      (match mapFind map x with
       | none => ((x, n) :: map, ivs)
       | some sameVtxId => (map, sameVtxId :: n :: ivs)) := by
  obtain ⟨h1, h2, h3⟩ := h
  simp only at h1 h2 h3
  cases hm : mapFind map x with
  | none =>
    have hfresh : ∀ i, i < n → pnts[i]? ≠ some x := (h1 x).1 hm
    refine ⟨?_, ?_, ?_⟩
    · intro y
      simp only [mapFind]
      by_cases hy : x = y
      · subst hy
        simp only [if_true]
        constructor
        · intro h; cases h
        · intro h; exact absurd hx (h n (Nat.lt_succ_self n))
      · simp only [hy, if_false, h1 y]
        constructor
        · intro h i hi
          rcases Nat.lt_succ_iff_lt_or_eq.1 hi with hi | hi
          · exact h i hi
          · rw [hi, hx]; simpa using hy
        · intro h i hi; exact h i (Nat.lt_succ_of_lt hi)
    · intro y w hq
      simp only [mapFind] at hq
      by_cases hy : x = y
      · subst hy
        simp only [if_true, Option.some.injEq] at hq
        subst hq
        refine ⟨Nat.lt_succ_self n, hx, ?_⟩
        intro i hi hix hin
        have : i < n := by omega
        exact absurd hix (hfresh i this)
      · simp only [hy, if_false] at hq
        obtain ⟨hw, hwx, hrest⟩ := h2 y w hq
        refine ⟨Nat.lt_succ_of_lt hw, hwx, ?_⟩
        intro i hi hiy hiw
        rcases Nat.lt_succ_iff_lt_or_eq.1 hi with hi | hi
        · exact hrest i hi hiy hiw
        · rw [hi, hx] at hiy
          simp only [Option.some.injEq] at hiy
          exact absurd hiy hy
    · intro v hv
      obtain ⟨w, hwv, hvn, hwn, y, hvy, hwy⟩ := h3 v hv
      exact ⟨w, hwv, Nat.lt_succ_of_lt hvn, Nat.lt_succ_of_lt hwn, y, hvy, hwy⟩
  | some w0 =>
    obtain ⟨hw0, hw0x, hrest0⟩ := h2 x w0 hm
    refine ⟨?_, ?_, ?_⟩
    · intro y
      simp only [h1 y]
      constructor
      · intro h i hi
        rcases Nat.lt_succ_iff_lt_or_eq.1 hi with hi | hi
        · exact h i hi
        · intro hiy
          rw [hi, hx] at hiy
          simp only [Option.some.injEq] at hiy
          subst hiy
          exact h w0 hw0 hw0x
      · intro h i hi; exact h i (Nat.lt_succ_of_lt hi)
    · intro y w hq
      obtain ⟨hw, hwy, hrest⟩ := h2 y w hq
      refine ⟨Nat.lt_succ_of_lt hw, hwy, ?_⟩
      intro i hi hiy hiw
      simp only [List.mem_cons]
      rcases Nat.lt_succ_iff_lt_or_eq.1 hi with hi | hi
      · obtain ⟨r1, r2⟩ := hrest i hi hiy hiw
        exact ⟨Or.inr (Or.inr r1), Or.inr (Or.inr r2)⟩
      · rw [hi, hx] at hiy
        simp only [Option.some.injEq] at hiy
        subst hiy
        rw [hm] at hq
        simp only [Option.some.injEq] at hq
        subst hq
        exact ⟨Or.inr (Or.inl hi), Or.inl rfl⟩
    · intro v hv
      simp only [List.mem_cons] at hv
      rcases hv with hv | hv | hv
      · subst hv
        exact ⟨n, by omega, Nat.lt_succ_of_lt hw0, Nat.lt_succ_self n, x, hw0x, hx⟩
      · subst hv
        exact ⟨w0, by omega, Nat.lt_succ_self v, Nat.lt_succ_of_lt hw0, x, hx, hw0x⟩
      · obtain ⟨w, hwv, hvn, hwn, y, hvy, hwy⟩ := h3 v hv
        exact ⟨w, hwv, Nat.lt_succ_of_lt hvn, Nat.lt_succ_of_lt hwn, y, hvy, hwy⟩

theorem vertexInv_loop (pnts : List Point) (rest : List Point) :
    ∀ (n : Nat) (st : List (Point × Nat) × List Nat), pnts.drop n = rest → n ≤ pnts.length →
      VertexInv pnts n st → VertexInv pnts pnts.length (vertexLoop rest n st) := by
  induction rest with
  | nil =>
    intro n st hd hn h
    have : pnts.length ≤ n := List.drop_eq_nil_iff.1 hd
    have e : n = pnts.length := by omega
    rw [vertexLoop]
    exact e ▸ h
  | cons x rest ih =>
    intro n st hd _ h
    have hn : n < pnts.length := by
      by_contra hcon
      have : pnts.drop n = [] := List.drop_eq_nil_iff.2 (by omega)
      rw [this] at hd
      cases hd
    have hd' := List.drop_eq_getElem_cons hn
    rw [hd] at hd'
    simp only [List.cons.injEq] at hd'
    obtain ⟨hx, hrest⟩ := hd'
    have hxn : pnts[n]? = some x := by rw [List.getElem?_eq_getElem hn, hx]
    obtain ⟨map, ivs⟩ := st
    have hstep := vertexInv_step pnts n map ivs x hxn h
    rw [vertexLoop]
    cases hm : mapFind map x with
    | none =>
      rw [hm] at hstep
      exact ih (n + 1) _ hrest.symm hn hstep
    | some w0 =>
      rw [hm] at hstep
      exact ih (n + 1) _ hrest.symm hn hstep

theorem mem_invalidVtxIds (pnts : List Point) (v : Nat) :
    v ∈ invalidVtxIds pnts ↔ Coincident pnts v := by
  have h0 : VertexInv pnts 0 ([], []) := by
    refine ⟨?_, ?_, ?_⟩
    · intro x; simp [mapFind]
    · intro x w h; simp [mapFind] at h
    · intro v hv; simp at hv
  obtain ⟨h1, h2, h3⟩ := vertexInv_loop pnts pnts 0 ([], []) rfl (Nat.zero_le _) h0
  unfold invalidVtxIds Coincident
  constructor
  · intro hv
    obtain ⟨w, hwv, -, -, x, hvx, hwx⟩ := h3 v hv
    exact ⟨w, hwv, x, hvx, hwx⟩
  · rintro ⟨w, hwv, x, hvx, hwx⟩
    have hvl : v < pnts.length := (List.getElem?_eq_some_iff.1 hvx).1
    have hwl : w < pnts.length := (List.getElem?_eq_some_iff.1 hwx).1
    cases hm : mapFind (vertexLoop pnts 0 ([], [])).1 x with
    | none => exact absurd hvx ((h1 x).1 hm v hvl)
    | some w0 =>
      obtain ⟨-, -, hrest⟩ := h2 x w0 hm
      by_cases e : v = w0
      · have hw0 : w ≠ w0 := fun e' => hwv (e'.trans e.symm)
        exact e ▸ (hrest w hwl hwx hw0).2
      · exact (hrest v hvl hvx e).1

theorem doubleFace_faceLoop_spec (g : Geom) (dagPath : MDagPath) (ivs : List Nat) :
    ∀ (r f : Nat) (inv : MSelectionList),
      (∀ f', f ≤ f' → f' < f + r → g.getPolygonVertices f' ≠ none) →
      (faceLoop g dagPath ivs r f inv).stat = MStatus.kSuccess ∧
      ∀ it, it ∈ (faceLoop g dagPath ivs r f inv).invalidList ↔
        it ∈ inv ∨ ∃ f' vtxIds, f ≤ f' ∧ f' < f + r ∧ g.getPolygonVertices f' = some vtxIds ∧
          (∀ v ∈ vtxIds, v ∈ ivs) ∧ it = SelItem.mk dagPath (some f') := by
  intro r
  induction r with
  | zero =>
    intro f inv _
    refine ⟨rfl, ?_⟩
    intro it
    simp only [faceLoop, Nat.add_zero]
    constructor
    · intro h; exact Or.inl h
    · rintro (h | ⟨f', vs, h1, h2, -⟩)
      · exact h
      · omega
  | succ r ih =>
    intro f inv hok
    cases hv : g.getPolygonVertices f with
    | none => exact absurd hv (hok f (Nat.le_refl f) (by omega))
    | some vs =>
      have hok' : ∀ f', f + 1 ≤ f' → f' < f + 1 + r → g.getPolygonVertices f' ≠ none :=
        fun f' h1 h2 => hok f' (by omega) (by omega)
      have hface : isInvalidFace ivs vs = true ↔ ∀ v ∈ vs, v ∈ ivs := by
        simp [isInvalidFace, List.all_eq_true]
      simp only [faceLoop, hv]
      by_cases hinv : isInvalidFace ivs vs = true
      · simp only [hinv, if_true]
        obtain ⟨e1, e2⟩ := ih (f + 1) (inv.add dagPath (some f)) hok'
        refine ⟨e1, ?_⟩
        intro it
        rw [e2]
        simp only [MSelectionList.add, List.mem_append, List.mem_singleton]
        constructor
        · rintro ((h | h) | ⟨f', vs', h1, h2, h3, h4, h5⟩)
          · exact Or.inl h
          · exact Or.inr ⟨f, vs, Nat.le_refl f, by omega, hv, hface.1 hinv, h⟩
          · exact Or.inr ⟨f', vs', by omega, by omega, h3, h4, h5⟩
        · rintro (h | ⟨f', vs', h1, h2, h3, h4, h5⟩)
          · exact Or.inl (Or.inl h)
          · by_cases e : f' = f
            · subst e; exact Or.inl (Or.inr h5)
            · exact Or.inr ⟨f', vs', by omega, by omega, h3, h4, h5⟩
      · simp only [hinv, Bool.false_eq_true, if_false]
        obtain ⟨e1, e2⟩ := ih (f + 1) inv hok'
        refine ⟨e1, ?_⟩
        intro it
        rw [e2]
        constructor
        · rintro (h | ⟨f', vs', h1, h2, h3, h4, h5⟩)
          · exact Or.inl h
          · exact Or.inr ⟨f', vs', by omega, by omega, h3, h4, h5⟩
        · rintro (h | ⟨f', vs', h1, h2, h3, h4, h5⟩)
          · exact Or.inl h
          · by_cases e : f' = f
            · subst e
              rw [hv] at h3
              simp only [Option.some.injEq] at h3
              subst h3
              exact absurd (hface.2 h4) hinv
            · exact Or.inr ⟨f', vs', by omega, by omega, h3, h4, h5⟩

theorem doubleFace_visitMesh_spec (m : Mesh Geom) (hok : MeshOk m) (inv : MSelectionList) :
    ∃ inv', visitMesh inv m = Step.next inv' ∧ ∀ it, it ∈ inv' ↔ it ∈ inv ∨ Reported m it := by
  obtain ⟨h1, h2, h3, n, h4, h5⟩ := hok
  cases hp : m.geom.getPoints with
  | none => exact absurd hp h2
  | some pnts =>
    unfold visitMesh Reported
    simp only [h1, ne_eq, not_true_eq_false, if_false, hp, h3, h4, Option.some.injEq]
    by_cases hlen : (invalidVtxIds pnts).length = 0
    · simp only [hlen, if_true]
      refine ⟨inv, rfl, ?_⟩
      intro it
      constructor
      · intro h; exact Or.inl h
      · rintro (h | ⟨pnts', n', f, vs, e1, e2, -⟩)
        · exact h
        · subst e1; exact absurd (List.length_eq_zero.1 hlen) e2
    · simp only [hlen, if_false]
      obtain ⟨e1, e2⟩ := doubleFace_faceLoop_spec m.geom m.path (invalidVtxIds pnts) n.toNat 0 inv
        (fun f' _ hf => h5 f' (by omega))
      cases hres : faceLoop m.geom m.path (invalidVtxIds pnts) n.toNat 0 inv with
      | mk inv' stat =>
        rw [hres] at e1 e2
        simp only at e1 e2
        subst e1
        refine ⟨inv', rfl, ?_⟩
        intro it
        rw [e2]
        have hne : invalidVtxIds pnts ≠ [] := fun e => hlen (by rw [e]; rfl)
        constructor
        · rintro (h | ⟨f, vs, -, hf, hv, hall, hit⟩)
          · exact Or.inl h
          · exact Or.inr ⟨pnts, n, f, vs, rfl, hne, rfl, by omega, hv, hall, hit⟩
        · rintro (h | ⟨pnts', n', f, vs, e1, -, e3, hf, hv, hall, hit⟩)
          · exact Or.inl h
          · subst e1 e3
            exact Or.inr ⟨f, vs, Nat.zero_le f, by omega, hv, hall, hit⟩

/-- When no host call fails, `checkMeshDoubleFace` succeeds and an entry is on
its invalid list if and only if it is a face, all of whose vertices are
coincident with other vertex ids, of a collected mesh that lies in the index
range of some task. -/
theorem doubleFace_doIt_mem (host : Host) (scene : List (Mesh Geom)) (hhost : host.Ok scene)
    (hok : ∀ m ∈ scene, MeshOk m) :
    ∃ invalid, doIt host scene = (MStatus.kSuccess, invalid) ∧
      ∀ it, it ∈ invalid ↔ ∃ m, InSomeRange host (collected scene) m ∧ Reported m it :=
  meshDoIt_mem true visitMesh Reported host scene hhost
    (fun m hm inv => doubleFace_visitMesh_spec m (hok m ((mem_collected scene m).1 hm).1) inv)

/-- C4, as stated, fails: a mesh with two faces on the same four vertex ids (the
same set of positions) and no two vertex ids at one position is examined, the
command succeeds, and neither face is reported. -/
theorem doubled_face_on_shared_vertices_not_reported :
    laminaGeom.getPolygonVertices 0 = some [0, 1, 2, 3] ∧
    laminaGeom.getPolygonVertices 1 = some [3, 2, 1, 0] ∧
    invalidVtxIds [(0, 0, 0), (1, 0, 0), (1, 1, 0), (0, 1, 0)] = [] ∧
    doIt (hostOf 1) [meshNode 0 laminaGeom] = (MStatus.kSuccess, []) := by
  decide!

/-- C4, amended: when no host call fails, for every collected mesh that lies in
the index range of a task, two faces `f` and `g` that have no vertex id in
common (`f` with at least one vertex) and whose vertices occupy the same set of
object-space positions are both on the invalid list. -/
theorem doubled_faces_reported (host : Host) (scene : List (Mesh Geom)) (hhost : host.Ok scene)
    (hok : ∀ m ∈ scene, MeshOk m) (m : Mesh Geom) (hm : InSomeRange host (collected scene) m)
    (pnts : List Point) (n : Int) (f g : Nat) (vf vg : List Nat)
    (hp : m.geom.getPoints = some pnts) (hn : m.geom.numPolygons = some n)
    (hf : f < n.toNat) (hg : g < n.toNat)
    (hvf : m.geom.getPolygonVertices f = some vf) (hvg : m.geom.getPolygonVertices g = some vg)
    (hne : vf ≠ []) (hdisj : ∀ v ∈ vf, v ∉ vg)
    (hfg : ∀ v ∈ vf, ∃ w ∈ vg, ∃ x, pnts[v]? = some x ∧ pnts[w]? = some x)
    (hgf : ∀ w ∈ vg, ∃ v ∈ vf, ∃ x, pnts[w]? = some x ∧ pnts[v]? = some x) :
    ∃ invalid, doIt host scene = (MStatus.kSuccess, invalid) ∧
      SelItem.mk m.path (some f) ∈ invalid ∧ SelItem.mk m.path (some g) ∈ invalid := by
  obtain ⟨invalid, e, hmem⟩ := doubleFace_doIt_mem host scene hhost hok
  have hcf : ∀ v ∈ vf, v ∈ invalidVtxIds pnts := by
    intro v hv
    obtain ⟨w, hw, x, hvx, hwx⟩ := hfg v hv
    exact (mem_invalidVtxIds pnts v).2 ⟨w, fun e => hdisj v hv (e ▸ hw), x, hvx, hwx⟩
  have hcg : ∀ w ∈ vg, w ∈ invalidVtxIds pnts := by
    intro w hw
    obtain ⟨v, hv, x, hwx, hvx⟩ := hgf w hw
    exact (mem_invalidVtxIds pnts w).2 ⟨v, fun e => hdisj v hv (e ▸ hw), x, hwx, hvx⟩
  have hnonempty : invalidVtxIds pnts ≠ [] := by
    cases vf with
    | nil => exact absurd rfl hne
    | cons v rest =>
      intro e
      have := hcf v (List.mem_cons_self _ _)
      rw [e] at this
      cases this
  refine ⟨invalid, e, ?_, ?_⟩
  · exact (hmem _).2 ⟨m, hm, pnts, n, f, vf, hp, hnonempty, hn, hf, hvf, hcf, rfl⟩
  · exact (hmem _).2 ⟨m, hm, pnts, n, g, vg, hp, hnonempty, hn, hg, hvg, hcg, rfl⟩

theorem doubled_faces_reported_witness :
    ∃ invalid, doIt (hostOf 1) [meshNode 7 doubledGeom] = (MStatus.kSuccess, invalid) ∧
      SelItem.mk 7 (some 0) ∈ invalid ∧ SelItem.mk 7 (some 1) ∈ invalid :=
  doubled_faces_reported (hostOf 1) [meshNode 7 doubledGeom]
    ⟨rfl, rfl, fun _ => rfl, by simp [meshNode]⟩
    (by
      intro m hm
      simp only [List.mem_singleton] at hm
      subst hm
      exact ⟨rfl, by simp [meshNode, doubledGeom], rfl, 2, rfl,
        fun f _ => by simp only [meshNode, doubledGeom]; split <;> simp⟩)
    (meshNode 7 doubledGeom)
    ⟨0, by decide!, by
      have e1 : taskCount (hostOf 1).hardware_concurrency
          (collected [meshNode 7 doubledGeom]).length = 1 := by decide!
      have e2 : (collected [meshNode 7 doubledGeom]).length = 1 := by decide!
      rw [e1, e2]
      have e3 : taskStart 1 1 0 = 0 := by decide!
      have e4 : taskEnd 1 1 0 = 1 := by decide!
      rw [e3, e4]
      simp [slice, collected, meshNode]⟩
    [(0, 0, 0), (1, 0, 0), (1, 1, 0), (0, 1, 0), (0, 0, 0), (1, 0, 0), (1, 1, 0), (0, 1, 0)]
    2 0 1 [0, 1, 2, 3] [7, 6, 5, 4] rfl rfl (by decide) (by decide) rfl rfl (by decide)
    (by decide) (by decide!) (by decide!)

end checkMeshDoubleFace

/-! ### checkMeshFace0Count -/

namespace checkMeshFace0Count

theorem face0_visitMesh_spec (m : Mesh Geom) (hok : MeshOk m) (inv : MSelectionList) :
    ∃ inv', visitMesh inv m = Step.next inv' ∧ ∀ it, it ∈ inv' ↔ it ∈ inv ∨ Reported m it := by
  obtain ⟨h1, h2⟩ := hok
  cases hn : m.geom.numPolygons with
  | none => exact absurd hn h2
  | some n =>
    unfold visitMesh Reported
    simp only [h1, ne_eq, not_true_eq_false, if_false, hn, Option.some.injEq]
    by_cases hz : n = 0
    · simp only [hz, if_true, true_and, MSelectionList.add]
      exact ⟨_, rfl, fun it => by simp⟩
    · simp only [hz, if_false, false_and, or_false]
      exact ⟨_, rfl, fun it => Iff.rfl⟩

/-- When no host call fails, `checkMeshFace0Count` succeeds and a mesh is on its
invalid list if and only if it is a collected mesh without polygons that lies
in the index range of some task. -/
theorem face0_doIt_mem (host : Host) (scene : List (Mesh Geom)) (hhost : host.Ok scene)
    (hok : ∀ m ∈ scene, MeshOk m) :
    ∃ invalid, doIt host scene = (MStatus.kSuccess, invalid) ∧
      ∀ it, it ∈ invalid ↔ ∃ m, InSomeRange host (collected scene) m ∧ Reported m it :=
  meshDoIt_mem true visitMesh Reported host scene hhost
    (fun m hm inv => face0_visitMesh_spec m (hok m ((mem_collected scene m).1 hm).1) inv)

end checkMeshFace0Count

/-! ### checkMeshNormalLock -/

namespace checkMeshNormalLock

theorem normalLoop_spec (g : Geom) :
    ∀ (r n : Nat), (∀ k, n ≤ k → k < n + r → g.isNormalLocked k ≠ none) →
      ∃ b, normalLoop g r n = some b ∧
        (b = true ↔ ∃ k, n ≤ k ∧ k < n + r ∧ g.isNormalLocked k = some true) := by
  intro r
  induction r with
  | zero =>
    intro n _
    refine ⟨false, rfl, ?_⟩
    simp only [Bool.false_eq_true, false_iff, not_exists]
    intro k hk
    omega
  | succ r ih =>
    intro n hok
    cases hl : g.isNormalLocked n with
    | none => exact absurd hl (hok n (Nat.le_refl n) (by omega))
    | some b0 =>
      cases b0 with
      | true =>
        refine ⟨true, by simp [normalLoop, hl], ?_⟩
        simp only [true_iff]
        exact ⟨n, Nat.le_refl n, by omega, hl⟩
      | false =>
        obtain ⟨b, e, hb⟩ := ih (n + 1) (fun k h1 h2 => hok k (by omega) (by omega))
        refine ⟨b, by simp [normalLoop, hl, e], ?_⟩
        rw [hb]
        constructor
        · rintro ⟨k, h1, h2, h3⟩
          exact ⟨k, by omega, by omega, h3⟩
        · rintro ⟨k, h1, h2, h3⟩
          by_cases e' : k = n
          · subst e'; rw [hl] at h3; cases h3
          · exact ⟨k, by omega, by omega, h3⟩

theorem normalLock_visitMesh_spec (m : Mesh Geom) (hok : MeshOk m) (inv : MSelectionList) :
    ∃ inv', visitMesh inv m = Step.next inv' ∧ ∀ it, it ∈ inv' ↔ it ∈ inv ∨ Reported m it := by
  obtain ⟨h1, n, h2, h3⟩ := hok
  obtain ⟨b, e, hb⟩ := normalLoop_spec m.geom n.toNat 0 (fun k _ hk => h3 k (by omega))
  unfold visitMesh Reported HasLockedNormal
  simp only [h1, ne_eq, not_true_eq_false, if_false, h2, e, Option.some.injEq]
  cases b with
  | true =>
    obtain ⟨k, -, hk, hl⟩ := hb.1 rfl
    refine ⟨_, rfl, ?_⟩
    intro it
    simp only [MSelectionList.add, List.mem_append, List.mem_singleton]
    constructor
    · rintro (h | h)
      · exact Or.inl h
      · exact Or.inr ⟨⟨n, rfl, k, by omega, hl⟩, h⟩
    · rintro (h | ⟨-, h⟩)
      · exact Or.inl h
      · exact Or.inr h
  | false =>
    refine ⟨_, rfl, ?_⟩
    intro it
    constructor
    · intro h; exact Or.inl h
    · rintro (h | ⟨⟨n', hn', k, hk, hl⟩, -⟩)
      · exact h
      · subst hn'
        have := hb.2 ⟨k, Nat.zero_le k, by omega, hl⟩
        cases this

/-- When no host call fails, `checkMeshNormalLock` succeeds and a mesh is on its
invalid list if and only if it is a collected mesh with a locked normal that
lies in the index range of some task. -/
theorem normalLock_doIt_mem (host : Host) (scene : List (Mesh Geom)) (hhost : host.Ok scene)
    (hok : ∀ m ∈ scene, MeshOk m) :
    ∃ invalid, doIt host scene = (MStatus.kSuccess, invalid) ∧
      ∀ it, it ∈ invalid ↔ ∃ m, InSomeRange host (collected scene) m ∧ Reported m it :=
  meshDoIt_mem false visitMesh Reported host scene hhost
    (fun m hm inv => normalLock_visitMesh_spec m (hok m ((mem_collected scene m).1 hm).1) inv)

end checkMeshNormalLock

/-! ### checkMeshFreeze -/

namespace checkMeshFreeze

theorem childLoop_spec (g : Geom) (e : Nat) :
    ∀ (r c : Nat),
      (∀ k, c ≤ k → k < c + r → g.child e k = MStatus.kSuccess ∧ g.asMDistance e k ≠ none) →
      ∃ b, childLoop g e r c = some b ∧
        (b = true ↔ ∃ k, c ≤ k ∧ k < c + r ∧ ∃ value, g.asMDistance e k = some value ∧ value ≠ 0) := by
  intro r
  induction r with
  | zero =>
    intro c _
    refine ⟨false, rfl, ?_⟩
    simp only [Bool.false_eq_true, false_iff, not_exists]
    intro k hk
    omega
  | succ r ih =>
    intro c hok
    obtain ⟨hc1, hc2⟩ := hok c (Nat.le_refl c) (by omega)
    cases hd : g.asMDistance e c with
    | none => exact absurd hd hc2
    | some value =>
      by_cases hz : value = 0
      · obtain ⟨b, eb, hb⟩ := ih (c + 1) (fun k h1 h2 => hok k (by omega) (by omega))
        refine ⟨b, by simp [childLoop, hc1, hd, hz, eb], ?_⟩
        rw [hb]
        constructor
        · rintro ⟨k, h1, h2, h3⟩
          exact ⟨k, by omega, by omega, h3⟩
        · rintro ⟨k, h1, h2, v, h3, h4⟩
          by_cases e' : k = c
          · subst e'
            rw [hd] at h3
            simp only [Option.some.injEq] at h3
            exact absurd (h3 ▸ hz) h4
          · exact ⟨k, by omega, by omega, v, h3, h4⟩
      · refine ⟨true, by simp [childLoop, hc1, hd, hz], ?_⟩
        simp only [true_iff]
        exact ⟨c, Nat.le_refl c, by omega, value, hd, hz⟩

theorem elementLoop_spec (g : Geom) :
    ∀ (r e : Nat),
      (∀ k, e ≤ k → k < e + r → g.elementByPhysicalIndex k = MStatus.kSuccess ∧
        ∃ numChildren, g.numChildren k = some numChildren ∧
          ∀ c, c < numChildren → g.child k c = MStatus.kSuccess ∧ g.asMDistance k c ≠ none) →
      ∃ b, elementLoop g r e = some b ∧
        (b = true ↔ ∃ k, e ≤ k ∧ k < e + r ∧ ElementNonZero g k) := by
  intro r
  induction r with
  | zero =>
    intro e _
    refine ⟨false, rfl, ?_⟩
    simp only [Bool.false_eq_true, false_iff, not_exists]
    intro k hk
    omega
  | succ r ih =>
    intro e hok
    obtain ⟨he1, nc, he2, he3⟩ := hok e (Nat.le_refl e) (by omega)
    obtain ⟨b0, eb0, hb0⟩ := childLoop_spec g e nc 0 (fun k _ hk => he3 k (by omega))
    cases b0 with
    | true =>
      obtain ⟨c, -, hc, v, hv, hvz⟩ := hb0.1 rfl
      refine ⟨true, by simp [elementLoop, he1, he2, eb0], ?_⟩
      simp only [true_iff]
      exact ⟨e, Nat.le_refl e, by omega, nc, he2, c, by omega, v, hv, hvz⟩
    | false =>
      obtain ⟨b, eb, hb⟩ := ih (e + 1) (fun k h1 h2 => hok k (by omega) (by omega))
      refine ⟨b, by simp [elementLoop, he1, he2, eb0, eb], ?_⟩
      rw [hb]
      constructor
      · rintro ⟨k, h1, h2, h3⟩
        exact ⟨k, by omega, by omega, h3⟩
      · rintro ⟨k, h1, h2, nc', h3, c, hc, v, hv, hvz⟩
        by_cases e' : k = e
        · subst e'
          rw [he2] at h3
          simp only [Option.some.injEq] at h3
          subst h3
          have := hb0.2 ⟨c, Nat.zero_le c, by omega, v, hv, hvz⟩
          cases this
        · exact ⟨k, by omega, by omega, nc', h3, c, hc, v, hv, hvz⟩

theorem freeze_visitMesh_spec (m : Mesh Geom) (hok : MeshOk m) (inv : MSelectionList) :
    ∃ inv', visitMesh inv m = Step.next inv' ∧ ∀ it, it ∈ inv' ↔ it ∈ inv ∨ Reported m it := by
  obtain ⟨h1, h2, n, h3, h4⟩ := hok
  obtain ⟨b, e, hb⟩ := elementLoop_spec m.geom n 0 (fun k _ hk => h4 k (by omega))
  unfold visitMesh Reported NonFrozen
  simp only [h1, h2, ne_eq, not_true_eq_false, if_false, h3, e, Option.some.injEq]
  cases b with
  | true =>
    obtain ⟨k, -, hk, hnz⟩ := hb.1 rfl
    refine ⟨_, rfl, ?_⟩
    intro it
    simp only [MSelectionList.add, List.mem_append, List.mem_singleton]
    constructor
    · rintro (h | h)
      · exact Or.inl h
      · exact Or.inr ⟨⟨n, rfl, k, by omega, hnz⟩, h⟩
    · rintro (h | ⟨-, h⟩)
      · exact Or.inl h
      · exact Or.inr h
  | false =>
    refine ⟨_, rfl, ?_⟩
    intro it
    constructor
    · intro h; exact Or.inl h
    · rintro (h | ⟨⟨n', hn', k, hk, hnz⟩, -⟩)
      · exact h
      · subst hn'
        have := hb.2 ⟨k, Nat.zero_le k, by omega, hnz⟩
        cases this

/-- When no host call fails, `checkMeshFreeze` succeeds and a mesh is on its
invalid list if and only if it is a collected mesh with a non-zero `pnts` child
that lies in the index range of some task. -/
theorem freeze_doIt_mem (host : Host) (scene : List (Mesh Geom)) (hhost : host.Ok scene)
    (hok : ∀ m ∈ scene, MeshOk m) :
    ∃ invalid, doIt host scene = (MStatus.kSuccess, invalid) ∧
      ∀ it, it ∈ invalid ↔ ∃ m, InSomeRange host (collected scene) m ∧ Reported m it :=
  meshDoIt_mem true visitMesh Reported host scene hhost
    (fun m hm inv => freeze_visitMesh_spec m (hok m ((mem_collected scene m).1 hm).1) inv)

end checkMeshFreeze

/-! ### checkMeshUVFlip -/

namespace checkMeshUVFlip

theorem uvFlip_setLoop_mem (g : Geom) (dagPath : MDagPath) (f : Nat) (names : List String) :
    ∀ (inv : MSelectionList) (it : SelItem),
      it ∈ setLoop g dagPath f names inv ↔
        it ∈ inv ∨ ((∃ name ∈ names, flipped g f name = true) ∧ it = SelItem.mk dagPath (some f)) := by
  induction names with
  | nil => intro inv it; simp [setLoop]
  | cons name rest ih =>
    intro inv it
    by_cases hfl : flipped g f name = true
    · simp only [setLoop, hfl, if_true, ih, MSelectionList.add, List.mem_append,
        List.mem_singleton, List.mem_cons, exists_eq_or_imp, true_or, true_and, List.not_mem_nil,
        or_false]
      constructor
      · rintro ((h | h) | ⟨-, h⟩)
        · exact Or.inl h
        · exact Or.inr h
        · exact Or.inr h
      · rintro (h | h)
        · exact Or.inl (Or.inl h)
        · exact Or.inl (Or.inr h)
    · simp only [setLoop, hfl, Bool.false_eq_true, if_false, ih, List.mem_cons, exists_eq_or_imp,
        false_or]

theorem uvFlip_faceLoop_mem (taskData : TaskData) (g : Geom) (dagPath : MDagPath)
    (names : List String) :
    ∀ (r f : Nat) (inv : MSelectionList) (it : SelItem),
      it ∈ faceLoop taskData g dagPath names r f inv ↔
        it ∈ inv ∨ ∃ f', f ≤ f' ∧ f' < f + r ∧
          ((taskData.allUVSet = true ∧ ∃ name ∈ names, flipped g f' name = true) ∨
           (taskData.allUVSet = false ∧ flipped g f' taskData.uvSet = true)) ∧
          it = SelItem.mk dagPath (some f') := by
  intro r
  induction r with
  | zero =>
    intro f inv it
    simp only [faceLoop, Nat.add_zero]
    constructor
    · intro h; exact Or.inl h
    · rintro (h | ⟨f', h1, h2, -⟩)
      · exact h
      · omega
  | succ r ih =>
    intro f inv it
    have shift : ∀ (P : Nat → Prop), (∃ f', f ≤ f' ∧ f' < f + (r + 1) ∧ P f') ↔
        (P f ∨ ∃ f', f + 1 ≤ f' ∧ f' < f + 1 + r ∧ P f') := by
      intro P
      constructor
      · rintro ⟨f', h1, h2, h3⟩
        by_cases e : f' = f
        · subst e; exact Or.inl h3
        · exact Or.inr ⟨f', by omega, by omega, h3⟩
      · rintro (h | ⟨f', h1, h2, h3⟩)
        · exact ⟨f, Nat.le_refl f, by omega, h⟩
        · exact ⟨f', by omega, by omega, h3⟩
    rw [shift]
    cases hall : taskData.allUVSet with
    | true =>
      simp only [faceLoop, hall, if_true, ih, uvFlip_setLoop_mem, true_and, Bool.true_eq_false,
        false_and, or_false]
      constructor
      · rintro ((h | h) | h)
        · exact Or.inl h
        · exact Or.inr (Or.inl h)
        · exact Or.inr (Or.inr h)
      · rintro (h | h | h)
        · exact Or.inl (Or.inl h)
        · exact Or.inl (Or.inr h)
        · exact Or.inr h
    | false =>
      by_cases hfl : flipped g f taskData.uvSet = true
      · simp only [faceLoop, hall, Bool.false_eq_true, if_false, hfl, if_true, ih,
          MSelectionList.add, List.mem_append, List.mem_singleton, false_and, true_and, false_or]
        constructor
        · rintro ((h | h) | h)
          · exact Or.inl h
          · exact Or.inr (Or.inl h)
          · exact Or.inr (Or.inr h)
        · rintro (h | h | h)
          · exact Or.inl (Or.inl h)
          · exact Or.inl (Or.inr h)
          · exact Or.inr h
      · simp only [faceLoop, hall, Bool.false_eq_true, if_false, hfl, ih, false_and, true_and,
          false_or]

theorem uvFlip_visitMesh_spec (taskData : TaskData) (m : Mesh Geom) (hok : MeshOk m)
    (inv : MSelectionList) :
    ∃ inv', visitMesh taskData inv m = Step.next inv' ∧
      ∀ it, it ∈ inv' ↔ it ∈ inv ∨ Reported taskData m it := by
  obtain ⟨h1, h2, h3, h4⟩ := hok
  cases hn : m.geom.numPolygons with
  | none => exact absurd hn h2
  | some n =>
    cases hs : m.geom.getUVSetNames with
    | none => exact absurd hs h3
    | some names =>
      unfold visitMesh Reported CheckedSet
      simp only [h1, ne_eq, not_true_eq_false, if_false, hn, hs, h4, Option.some.injEq]
      by_cases hz : n = 0
      · simp only [hz, if_true]
        refine ⟨inv, rfl, ?_⟩
        intro it
        constructor
        · intro h; exact Or.inl h
        · rintro (h | ⟨n', names', e1, e2, -⟩)
          · exact h
          · exact absurd e1.symm e2
      · simp only [hz, if_false]
        by_cases hskip : (decide (taskData.uvSet ∉ names) && !taskData.allUVSet) = true
        · simp only [hskip, if_true]
          simp only [Bool.and_eq_true, decide_eq_true_eq, Bool.not_eq_true'] at hskip
          refine ⟨inv, rfl, ?_⟩
          intro it
          constructor
          · intro h; exact Or.inl h
          · rintro (h | ⟨n', names', -, -, e3, f, -, name, hc, -⟩)
            · exact h
            · subst e3
              rcases hc with ⟨hc, -⟩ | ⟨-, hc1, hc2⟩
              · rw [hskip.2] at hc; cases hc
              · exact absurd (hc1 ▸ hc2) hskip.1
        · simp only [hskip, Bool.false_eq_true, if_false]
          refine ⟨_, rfl, ?_⟩
          intro it
          rw [uvFlip_faceLoop_mem]
          have hin : taskData.allUVSet = false → taskData.uvSet ∈ names := by
            intro hall
            by_contra hnot
            exact hskip (by simp [hnot, hall])
          constructor
          · rintro (h | ⟨f, -, hf, hc, hit⟩)
            · exact Or.inl h
            · right
              rcases hc with ⟨hall, name, hname, hfl⟩ | ⟨hall, hfl⟩
              · exact ⟨n, names, rfl, hz, rfl, f, by omega, name, Or.inl ⟨hall, hname⟩, hfl, hit⟩
              · exact ⟨n, names, rfl, hz, rfl, f, by omega, taskData.uvSet,
                  Or.inr ⟨hall, rfl, hin hall⟩, hfl, hit⟩
          · rintro (h | ⟨n', names', -, -, e3, f, hf, name, hc, hfl, hit⟩)
            · exact Or.inl h
            · subst e3
              right
              refine ⟨f, Nat.zero_le f, by omega, ?_, hit⟩
              rcases hc with ⟨hall, hname⟩ | ⟨hall, hname, -⟩
              · exact Or.inl ⟨hall, name, hname, hfl⟩
              · exact Or.inr ⟨hall, hname ▸ hfl⟩

/-- When no host call whose status is checked fails, `checkMeshUVFlip` succeeds
and a face is on its invalid list if and only if it is a face, reversed (or
with a failing query) in a checked UV set, of a collected mesh that lies in the
index range of some task. -/
theorem uvFlip_doIt_mem (host : Host) (flags : UVFlags) (indeterminate : Bool)
    (scene : List (Mesh Geom)) (hhost : host.Ok scene) (hok : ∀ m ∈ scene, MeshOk m) :
    ∃ invalid, doIt host flags indeterminate scene = (MStatus.kSuccess, invalid) ∧
      ∀ it, it ∈ invalid ↔
        ∃ m, InSomeRange host (collected scene) m ∧
          Reported (parseFlags flags indeterminate) m it :=
  meshDoIt_mem true (visitMesh (parseFlags flags indeterminate))
    (Reported (parseFlags flags indeterminate)) host scene hhost
    (fun m hm inv =>
      uvFlip_visitMesh_spec _ m (hok m ((mem_collected scene m).1 hm).1) inv)

end checkMeshUVFlip

/-! ### checkMeshUVNegative -/

namespace checkMeshUVNegative

theorem hasNegative_iff (uvs : List (ℚ × ℚ)) :
    hasNegative uvs = true ↔ ∃ uv ∈ uvs, uv.1 < 0 ∨ uv.2 < 0 := by
  simp [hasNegative, List.any_eq_true]

theorem uvNegative_setLoop_spec (g : Geom) (dagPath : MDagPath) (f : Nat) (names : List String) :
    ∀ (inv : MSelectionList), (∀ name ∈ names, g.getUVs f name ≠ none) →
      (setLoop g dagPath f names inv).stat = MStatus.kSuccess ∧
      ∀ it, it ∈ (setLoop g dagPath f names inv).invalidList ↔
        it ∈ inv ∨ ((∃ name ∈ names, NegativeIn g f name) ∧ it = SelItem.mk dagPath (some f)) := by
  induction names with
  | nil => intro inv _; simp [setLoop]
  | cons name rest ih =>
    intro inv hok
    have hok' : ∀ name' ∈ rest, g.getUVs f name' ≠ none :=
      fun n hn => hok n (List.mem_cons_of_mem _ hn)
    cases hu : g.getUVs f name with
    | none => exact absurd hu (hok name (List.mem_cons_self _ _))
    | some uvs =>
      have hneg : NegativeIn g f name ↔ hasNegative uvs = true := by
        unfold NegativeIn
        rw [hu, hasNegative_iff]
        simp
      by_cases hn : hasNegative uvs = true
      · have hN := hneg.2 hn
        obtain ⟨e1, e2⟩ := ih (inv.add dagPath (some f)) hok'
        simp only [setLoop, hu, hn, if_true]
        refine ⟨e1, ?_⟩
        intro it
        rw [e2]
        simp only [MSelectionList.add, List.mem_append, List.mem_singleton]
        constructor
        · rintro ((h | h) | ⟨-, h⟩)
          · exact Or.inl h
          · exact Or.inr ⟨⟨name, List.mem_cons_self _ _, hN⟩, h⟩
          · exact Or.inr ⟨⟨name, List.mem_cons_self _ _, hN⟩, h⟩
        · rintro (h | ⟨-, h⟩)
          · exact Or.inl (Or.inl h)
          · exact Or.inl (Or.inr h)
      · have hN : ¬ NegativeIn g f name := fun h => hn (hneg.1 h)
        obtain ⟨e1, e2⟩ := ih inv hok'
        simp only [setLoop, hu, hn, Bool.false_eq_true, if_false]
        refine ⟨e1, ?_⟩
        intro it
        rw [e2]
        constructor
        · rintro (h | ⟨⟨name', hn', hN'⟩, h⟩)
          · exact Or.inl h
          · exact Or.inr ⟨⟨name', List.mem_cons_of_mem _ hn', hN'⟩, h⟩
        · rintro (h | ⟨⟨name', hn', hN'⟩, h⟩)
          · exact Or.inl h
          · rcases List.mem_cons.1 hn' with e | hn''
            · subst e; exact absurd hN' hN
            · exact Or.inr ⟨⟨name', hn'', hN'⟩, h⟩

theorem uvNegative_faceLoop_spec (taskData : TaskData) (g : Geom) (dagPath : MDagPath)
    (names : List String) (hin : taskData.allUVSet = false → taskData.uvSet ∈ names) :
    ∀ (r f : Nat) (inv : MSelectionList),
      (∀ f', f ≤ f' → f' < f + r → ∀ name ∈ names, g.getUVs f' name ≠ none) →
      (faceLoop taskData g dagPath names r f inv).stat = MStatus.kSuccess ∧
      ∀ it, it ∈ (faceLoop taskData g dagPath names r f inv).invalidList ↔
        it ∈ inv ∨ ∃ f', f ≤ f' ∧ f' < f + r ∧
          ((taskData.allUVSet = true ∧ ∃ name ∈ names, NegativeIn g f' name) ∨
           (taskData.allUVSet = false ∧ NegativeIn g f' taskData.uvSet)) ∧
          it = SelItem.mk dagPath (some f') := by
  intro r
  induction r with
  | zero =>
    intro f inv _
    refine ⟨rfl, ?_⟩
    intro it
    simp only [faceLoop, Nat.add_zero]
    constructor
    · intro h; exact Or.inl h
    · rintro (h | ⟨f', h1, h2, -⟩)
      · exact h
      · omega
  | succ r ih =>
    intro f inv hok
    have hok' : ∀ f', f + 1 ≤ f' → f' < f + 1 + r → ∀ name ∈ names, g.getUVs f' name ≠ none :=
      fun f' h1 h2 => hok f' (by omega) (by omega)
    have hokf : ∀ name ∈ names, g.getUVs f name ≠ none := hok f (Nat.le_refl f) (by omega)
    have shift : ∀ (P : Nat → Prop), (∃ f', f ≤ f' ∧ f' < f + (r + 1) ∧ P f') ↔
        (P f ∨ ∃ f', f + 1 ≤ f' ∧ f' < f + 1 + r ∧ P f') := by
      intro P
      constructor
      · rintro ⟨f', h1, h2, h3⟩
        by_cases e : f' = f
        · subst e; exact Or.inl h3
        · exact Or.inr ⟨f', by omega, by omega, h3⟩
      · rintro (h | ⟨f', h1, h2, h3⟩)
        · exact ⟨f, Nat.le_refl f, by omega, h⟩
        · exact ⟨f', by omega, by omega, h3⟩
    cases hall : taskData.allUVSet with
    | true =>
      obtain ⟨s1, s2⟩ := uvNegative_setLoop_spec g dagPath f names inv hokf
      cases hres : setLoop g dagPath f names inv with
      | mk inv1 stat1 =>
        rw [hres] at s1 s2
        simp only at s1 s2
        subst s1
        obtain ⟨e1, e2⟩ := ih (f + 1) inv1 hok'
        simp only [faceLoop, hall, if_true, hres]
        refine ⟨e1, ?_⟩
        intro it
        rw [e2, shift, s2]
        simp only [hall, true_and, Bool.true_eq_false, false_and, or_false]
        constructor
        · rintro ((h | h) | h)
          · exact Or.inl h
          · exact Or.inr (Or.inl h)
          · exact Or.inr (Or.inr h)
        · rintro (h | h | h)
          · exact Or.inl (Or.inl h)
          · exact Or.inl (Or.inr h)
          · exact Or.inr h
    | false =>
      cases hu : g.getUVs f taskData.uvSet with
      | none => exact absurd hu (hokf _ (hin hall))
      | some uvs =>
        have hneg : NegativeIn g f taskData.uvSet ↔ hasNegative uvs = true := by
          unfold NegativeIn
          rw [hu, hasNegative_iff]
          simp
        by_cases hn : hasNegative uvs = true
        · obtain ⟨e1, e2⟩ := ih (f + 1) (inv.add dagPath (some f)) hok'
          simp only [faceLoop, hall, Bool.false_eq_true, if_false, hu, hn, if_true]
          refine ⟨e1, ?_⟩
          intro it
          rw [e2, shift]
          simp only [hall, Bool.false_eq_true, false_and, true_and, false_or, hneg, hn,
            MSelectionList.add, List.mem_append, List.mem_singleton]
          constructor
          · rintro ((h | h) | h)
            · exact Or.inl h
            · exact Or.inr (Or.inl h)
            · exact Or.inr (Or.inr h)
          · rintro (h | h | h)
            · exact Or.inl (Or.inl h)
            · exact Or.inl (Or.inr h)
            · exact Or.inr h
        · obtain ⟨e1, e2⟩ := ih (f + 1) inv hok'
          simp only [faceLoop, hall, Bool.false_eq_true, if_false, hu, hn]
          refine ⟨e1, ?_⟩
          intro it
          rw [e2, shift]
          simp only [hall, Bool.false_eq_true, false_and, true_and, false_or, hneg, hn]

theorem uvNegative_visitMesh_spec (taskData : TaskData) (m : Mesh Geom) (hok : MeshOk m)
    (inv : MSelectionList) :
    ∃ inv', visitMesh taskData inv m = Step.next inv' ∧
      ∀ it, it ∈ inv' ↔ it ∈ inv ∨ Reported taskData m it := by
  obtain ⟨h1, h2, h4, names, hs, h5⟩ := hok
  cases hn : m.geom.numPolygons with
  | none => exact absurd hn h2
  | some n =>
    unfold visitMesh Reported CheckedSet
    simp only [h1, ne_eq, not_true_eq_false, if_false, hn, hs, h4, Option.some.injEq]
    by_cases hz : n = 0
    · simp only [hz, if_true]
      refine ⟨inv, rfl, ?_⟩
      intro it
      constructor
      · intro h; exact Or.inl h
      · rintro (h | ⟨n', names', e1, e2, -⟩)
        · exact h
        · exact absurd e1.symm e2
    · simp only [hz, if_false]
      by_cases hskip : (decide (taskData.uvSet ∉ names) && !taskData.allUVSet) = true
      · simp only [hskip, if_true]
        simp only [Bool.and_eq_true, decide_eq_true_eq, Bool.not_eq_true'] at hskip
        refine ⟨inv, rfl, ?_⟩
        intro it
        constructor
        · intro h; exact Or.inl h
        · rintro (h | ⟨n', names', -, -, e3, f, -, name, hc, -⟩)
          · exact h
          · subst e3
            rcases hc with ⟨hc, -⟩ | ⟨-, hc1, hc2⟩
            · rw [hskip.2] at hc; cases hc
            · exact absurd (hc1 ▸ hc2) hskip.1
      · simp only [hskip, Bool.false_eq_true, if_false]
        have hin : taskData.allUVSet = false → taskData.uvSet ∈ names := by
          intro hall
          by_contra hnot
          exact hskip (by simp [hnot, hall])
        obtain ⟨e1, e2⟩ := uvNegative_faceLoop_spec taskData m.geom m.path names hin
          m.geom.polygonCount 0 inv (fun f' _ hf => h5 f' (by omega))
        cases hres : faceLoop taskData m.geom m.path names m.geom.polygonCount 0 inv with
        | mk inv' stat =>
          rw [hres] at e1 e2
          simp only at e1 e2
          subst e1
          refine ⟨inv', rfl, ?_⟩
          intro it
          rw [e2]
          constructor
          · rintro (h | ⟨f, -, hf, hc, hit⟩)
            · exact Or.inl h
            · right
              rcases hc with ⟨hall, name, hname, hfl⟩ | ⟨hall, hfl⟩
              · exact ⟨n, names, rfl, hz, rfl, f, by omega, name, Or.inl ⟨hall, hname⟩, hfl, hit⟩
              · exact ⟨n, names, rfl, hz, rfl, f, by omega, taskData.uvSet,
                  Or.inr ⟨hall, rfl, hin hall⟩, hfl, hit⟩
          · rintro (h | ⟨n', names', -, -, e3, f, hf, name, hc, hfl, hit⟩)
            · exact Or.inl h
            · subst e3
              right
              refine ⟨f, Nat.zero_le f, by omega, ?_, hit⟩
              rcases hc with ⟨hall, hname⟩ | ⟨hall, hname, -⟩
              · exact Or.inl ⟨hall, name, hname, hfl⟩
              · exact Or.inr ⟨hall, hname ▸ hfl⟩

/-- When no host call fails, `checkMeshUVNegative` succeeds and a face is on its
invalid list if and only if it is a face, with a negative UV in a checked UV
set, of a collected mesh that lies in the index range of some task. -/
theorem uvNegative_doIt_mem (host : Host) (flags : UVFlags) (indeterminate : Bool)
    (scene : List (Mesh Geom)) (hhost : host.Ok scene) (hok : ∀ m ∈ scene, MeshOk m) :
    ∃ invalid, doIt host flags indeterminate scene = (MStatus.kSuccess, invalid) ∧
      ∀ it, it ∈ invalid ↔
        ∃ m, InSomeRange host (collected scene) m ∧
          Reported (parseFlags flags indeterminate) m it :=
  meshDoIt_mem false (visitMesh (parseFlags flags indeterminate))
    (Reported (parseFlags flags indeterminate)) host scene hhost
    (fun m hm inv =>
      uvNegative_visitMesh_spec _ m (hok m ((mem_collected scene m).1 hm).1) inv)

end checkMeshUVNegative

/-! ### checkMeshUVTilingOver -/

namespace checkMeshUVTilingOver

theorem tileInv_no_conflict (g : Geom) (name : String) (shells : List Int) (k : Nat)
    (tileMap : List (Int × UVTile)) (h : TileInv g name shells k tileMap) :
    ¬ Conflict g name shells k := by
  obtain ⟨h1, h2⟩ := h
  rintro ⟨i, j, hi, hj, hs, ti, tj, hti, htj, hne⟩
  cases hm : mapFind tileMap (shells.getD i 0) with
  | none => exact (h1 _).1 hm i hi rfl
  | some t =>
    have e1 := h2 _ t hm i hi rfl
    have e2 := h2 _ t hm j hj hs.symm
    rw [hti] at e1
    rw [htj] at e2
    simp only [Option.some.injEq] at e1 e2
    exact hne (e1.trans e2.symm)

theorem conflict_mono (g : Geom) (name : String) (shells : List Int) (k n : Nat) (hkn : k ≤ n)
    (h : Conflict g name shells k) : Conflict g name shells n := by
  obtain ⟨i, j, hi, hj, rest⟩ := h
  exact ⟨i, j, by omega, by omega, rest⟩

theorem uvLoop_spec (g : Geom) (name : String) (shells : List Int) :
    ∀ (r k : Nat) (tileMap : List (Int × UVTile)), TileInv g name shells k tileMap →
      (∀ i, k ≤ i → i < k + r → g.getUV name i ≠ none) →
      (uvLoop g name shells r k tileMap = UVLoopEnd.tilingOver ∧ Conflict g name shells (k + r)) ∨
      (uvLoop g name shells r k tileMap = UVLoopEnd.done ∧ ¬ Conflict g name shells (k + r)) := by
  intro r
  induction r with
  | zero =>
    intro k tileMap hinv _
    exact Or.inr ⟨rfl, tileInv_no_conflict g name shells k tileMap hinv⟩
  | succ r ih =>
    intro k tileMap hinv hok
    have hok' : ∀ i, k + 1 ≤ i → i < k + 1 + r → g.getUV name i ≠ none :=
      fun i h1 h2 => hok i (by omega) (by omega)
    have hadd : k + (r + 1) = k + 1 + r := by omega
    obtain ⟨h1, h2⟩ := hinv
    cases hu : g.getUV name k with
    | none => exact absurd hu (hok k (Nat.le_refl k) (by omega))
    | some uv =>
      obtain ⟨u, v⟩ := uv
      have htile : tileOf g name k = some (UVTile.mk (toInt u) (toInt v)) := by
        simp [tileOf, hu]
      cases hm : mapFind tileMap (shells.getD k 0) with
      | none =>
        have hfresh := (h1 _).1 hm
        have hinv' : TileInv g name shells (k + 1)
            ((shells.getD k 0, UVTile.mk (toInt u) (toInt v)) :: tileMap) := by
          refine ⟨?_, ?_⟩
          · intro s
            simp only [mapFind]
            by_cases hs : shells.getD k 0 = s
            · simp only [hs, if_true]
              constructor
              · intro h; cases h
              · intro h; exact absurd hs (h k (Nat.lt_succ_self k))
            · simp only [hs, if_false, h1 s]
              constructor
              · intro h i hi
                rcases Nat.lt_succ_iff_lt_or_eq.1 hi with hi | hi
                · exact h i hi
                · rw [hi]; exact hs
              · intro h i hi; exact h i (Nat.lt_succ_of_lt hi)
          · intro s t hq i hi his
            simp only [mapFind] at hq
            by_cases hs : shells.getD k 0 = s
            · simp only [hs, if_true, Option.some.injEq] at hq
              rcases Nat.lt_succ_iff_lt_or_eq.1 hi with hi | hi
              · exact absurd (his.trans hs.symm) (hfresh i hi)
              · rw [hi, htile, hq]
            · simp only [hs, if_false] at hq
              rcases Nat.lt_succ_iff_lt_or_eq.1 hi with hi | hi
              · exact h2 s t hq i hi his
              · rw [hi] at his; exact absurd his hs
        have := ih (k + 1) _ hinv' hok'
        simp only [uvLoop, hu, hm]
        rw [hadd]
        exact this
      | some other =>
        by_cases hne : UVTile.mk (toInt u) (toInt v) ≠ other
        · left
          refine ⟨by simp only [uvLoop, hu, hm]; exact if_pos hne, ?_⟩
          have hex : ¬ ∀ i, i < k → shells.getD i 0 ≠ shells.getD k 0 := by
            intro hall
            have := (h1 _).2 hall
            rw [hm] at this
            cases this
          simp only [not_forall, not_not] at hex
          obtain ⟨i, hi, his⟩ := hex
          exact ⟨k, i, by omega, by omega, his.symm, _, other, htile, h2 _ other hm i hi his, hne⟩
        · simp only [ne_eq, not_not] at hne
          have hinv' : TileInv g name shells (k + 1) tileMap := by
            refine ⟨?_, ?_⟩
            · intro s
              rw [h1 s]
              constructor
              · intro h i hi
                rcases Nat.lt_succ_iff_lt_or_eq.1 hi with hi | hi
                · exact h i hi
                · intro hs
                  rw [hi] at hs
                  have := (h1 s).2 h
                  rw [← hs, hm] at this
                  cases this
              · intro h i hi; exact h i (Nat.lt_succ_of_lt hi)
            · intro s t hq i hi his
              rcases Nat.lt_succ_iff_lt_or_eq.1 hi with hi | hi
              · exact h2 s t hq i hi his
              · rw [hi] at his
                rw [← his, hm] at hq
                simp only [Option.some.injEq] at hq
                rw [hi, htile, hne, hq]
          have := ih (k + 1) _ hinv' hok'
          simp only [uvLoop, hu, hm, hne, ne_eq, not_true_eq_false, if_false]
          rw [hadd]
          exact this

theorem setOver_iff_conflict (g : Geom) (name : String) (shells : List Int) (numUV : Int)
    (h1 : g.getUvShellsIds name = some shells) (h2 : g.numUVs name = some numUV)
    (h3 : shells.length = numUV.toNat) :
    SetOver g name ↔ Conflict g name shells numUV.toNat := by
  unfold SetOver Conflict
  constructor
  · rintro ⟨shells', numUV', e1, e2, i, j, s, hi, hj, hsi, hsj, rest⟩
    rw [h1] at e1
    rw [h2] at e2
    simp only [Option.some.injEq] at e1 e2
    subst e1 e2
    refine ⟨i, j, hi, hj, ?_, rest⟩
    simp [List.getD_eq_getElem?_getD, hsi, hsj]
  · rintro ⟨i, j, hi, hj, hs, rest⟩
    refine ⟨shells, numUV, h1, h2, i, j, shells.getD i 0, hi, hj, ?_, ?_, rest⟩
    · rw [List.getD_eq_getElem?_getD, List.getElem?_eq_getElem (by omega)]
      simp
    · rw [hs, List.getD_eq_getElem?_getD, List.getElem?_eq_getElem (by omega)]
      simp

theorem checkSet_spec (g : Geom) (name : String) (hok : SetOk g name) :
    (checkSet g name = UVLoopEnd.tilingOver ∧ SetOver g name) ∨
    (checkSet g name = UVLoopEnd.done ∧ ¬ SetOver g name) := by
  obtain ⟨shells, numUV, h1, h2, h3, h4⟩ := hok
  have h0 : TileInv g name shells 0 [] := by
    refine ⟨?_, ?_⟩
    · intro s; simp [mapFind]
    · intro s t h; simp [mapFind] at h
  have := uvLoop_spec g name shells numUV.toNat 0 [] h0 (fun i _ hi => h4 i (by omega))
  rw [Nat.zero_add] at this
  rw [setOver_iff_conflict g name shells numUV h1 h2 h3]
  unfold checkSet
  simp only [h1, h2]
  exact this

theorem mem_add_self (inv : MSelectionList) (p : MDagPath) :
    (inv.add p none).hasItem p = true := by
  simp [MSelectionList.hasItem, MSelectionList.add]

theorem uvTiling_setLoop_spec (g : Geom) (dagPath : MDagPath) (names : List String) :
    ∀ (inv : MSelectionList), (∀ name ∈ names, SetOk g name) →
      (setLoop g dagPath names inv).stat = MStatus.kSuccess ∧
      ∀ it, it ∈ (setLoop g dagPath names inv).invalidList ↔
        it ∈ inv ∨ ((∃ name ∈ names, SetOver g name) ∧ it = SelItem.mk dagPath none) := by
  induction names with
  | nil => intro inv _; simp [setLoop]
  | cons name rest ih =>
    intro inv hok
    have hok' : ∀ name' ∈ rest, SetOk g name' := fun n hn => hok n (List.mem_cons_of_mem _ hn)
    rcases checkSet_spec g name (hok name (List.mem_cons_self _ _)) with ⟨hc, hover⟩ | ⟨hc, hover⟩
    · simp only [setLoop, hc, mem_add_self, if_true]
      refine ⟨trivial, ?_⟩
      intro it
      simp only [MSelectionList.add, List.mem_append, List.mem_singleton]
      constructor
      · rintro (h | h)
        · exact Or.inl h
        · exact Or.inr ⟨⟨name, List.mem_cons_self _ _, hover⟩, h⟩
      · rintro (h | ⟨-, h⟩)
        · exact Or.inl h
        · exact Or.inr h
    · by_cases hhas : inv.hasItem dagPath = true
      · simp only [setLoop, hc, hhas, if_true]
        refine ⟨trivial, ?_⟩
        intro it
        constructor
        · intro h; exact Or.inl h
        · rintro (h | ⟨-, h⟩)
          · exact h
          · rw [h]
            simpa [MSelectionList.hasItem] using hhas
      · obtain ⟨e1, e2⟩ := ih inv hok'
        simp only [setLoop, hc, hhas, Bool.false_eq_true, if_false]
        refine ⟨e1, ?_⟩
        intro it
        rw [e2]
        constructor
        · rintro (h | ⟨⟨name', hn', ho⟩, h⟩)
          · exact Or.inl h
          · exact Or.inr ⟨⟨name', List.mem_cons_of_mem _ hn', ho⟩, h⟩
        · rintro (h | ⟨⟨name', hn', ho⟩, h⟩)
          · exact Or.inl h
          · rcases List.mem_cons.1 hn' with e | hn''
            · subst e; exact absurd ho hover
            · exact Or.inr ⟨⟨name', hn'', ho⟩, h⟩

theorem uvTiling_visitMesh_spec (taskData : TaskData) (m : Mesh Geom) (hok : MeshOk m)
    (inv : MSelectionList) :
    ∃ inv', visitMesh taskData inv m = Step.next inv' ∧
      ∀ it, it ∈ inv' ↔ it ∈ inv ∨ Reported taskData m it := by
  obtain ⟨h1, h2, names, hs, h5⟩ := hok
  cases hn : m.geom.numPolygons with
  | none => exact absurd hn h2
  | some n =>
    unfold visitMesh Reported CheckedSet
    simp only [h1, ne_eq, not_true_eq_false, if_false, hn, hs, Option.some.injEq]
    by_cases hz : n = 0
    · simp only [hz, if_true]
      refine ⟨inv, rfl, ?_⟩
      intro it
      constructor
      · intro h; exact Or.inl h
      · rintro (h | ⟨⟨n', names', e1, e2, -⟩, -⟩)
        · exact h
        · exact absurd e1.symm e2
    · simp only [hz, if_false]
      by_cases hskip : (decide (taskData.uvSet ∉ names) && !taskData.allUVSet) = true
      · simp only [hskip, if_true]
        simp only [Bool.and_eq_true, decide_eq_true_eq, Bool.not_eq_true'] at hskip
        refine ⟨inv, rfl, ?_⟩
        intro it
        constructor
        · intro h; exact Or.inl h
        · rintro (h | ⟨⟨n', names', -, -, e3, name, hc, -⟩, -⟩)
          · exact h
          · subst e3
            rcases hc with ⟨hc, -⟩ | ⟨-, hc1, hc2⟩
            · rw [hskip.2] at hc; cases hc
            · exact absurd (hc1 ▸ hc2) hskip.1
      · simp only [hskip, Bool.false_eq_true, if_false]
        have hin : taskData.allUVSet = false → taskData.uvSet ∈ names := by
          intro hall
          by_contra hnot
          exact hskip (by simp [hnot, hall])
        cases hall : taskData.allUVSet with
        | true =>
          obtain ⟨e1, e2⟩ := uvTiling_setLoop_spec m.geom m.path names inv h5
          cases hres : setLoop m.geom m.path names inv with
          | mk inv' stat =>
            rw [hres] at e1 e2
            simp only at e1 e2
            subst e1
            simp only [if_true]
            refine ⟨inv', rfl, ?_⟩
            intro it
            rw [e2]
            constructor
            · rintro (h | ⟨⟨name, hname, ho⟩, hit⟩)
              · exact Or.inl h
              · exact Or.inr ⟨⟨n, names, rfl, hz, rfl, name, Or.inl ⟨trivial, hname⟩, ho⟩, hit⟩
            · rintro (h | ⟨⟨n', names', -, -, e3, name, hc, ho⟩, hit⟩)
              · exact Or.inl h
              · subst e3
                rcases hc with ⟨-, hname⟩ | ⟨hc, -⟩
                · exact Or.inr ⟨⟨name, hname, ho⟩, hit⟩
                · cases hc
        | false =>
          simp only [Bool.false_eq_true, if_false]
          rcases checkSet_spec m.geom taskData.uvSet (h5 _ (hin hall)) with
            ⟨hc, hover⟩ | ⟨hc, hover⟩
          · simp only [hc]
            refine ⟨_, rfl, ?_⟩
            intro it
            simp only [MSelectionList.add, List.mem_append, List.mem_singleton]
            constructor
            · rintro (h | h)
              · exact Or.inl h
              · exact Or.inr ⟨⟨n, names, rfl, hz, rfl, taskData.uvSet,
                  Or.inr ⟨trivial, rfl, hin hall⟩, hover⟩, h⟩
            · rintro (h | ⟨-, h⟩)
              · exact Or.inl h
              · exact Or.inr h
          · simp only [hc]
            refine ⟨_, rfl, ?_⟩
            intro it
            constructor
            · intro h; exact Or.inl h
            · rintro (h | ⟨⟨n', names', -, -, e3, name, hc', ho⟩, -⟩)
              · exact h
              · rcases hc' with ⟨hc', -⟩ | ⟨-, hname, -⟩
                · cases hc'
                · exact absurd (hname ▸ ho) hover

/-- When no host call fails, `checkMeshUVTilingOver` succeeds and a mesh is on
its invalid list if and only if it is a collected mesh, with a shell over more
than one tile in a checked UV set, that lies in the index range of some task. -/
theorem uvTiling_doIt_mem (host : Host) (flags : UVFlags) (indeterminate : Bool)
    (scene : List (Mesh Geom)) (hhost : host.Ok scene) (hok : ∀ m ∈ scene, MeshOk m) :
    ∃ invalid, doIt host flags indeterminate scene = (MStatus.kSuccess, invalid) ∧
      ∀ it, it ∈ invalid ↔
        ∃ m, InSomeRange host (collected scene) m ∧
          Reported (parseFlags flags indeterminate) m it :=
  meshDoIt_mem false (visitMesh (parseFlags flags indeterminate))
    (Reported (parseFlags flags indeterminate)) host scene hhost
    (fun m hm inv =>
      uvTiling_visitMesh_spec _ m (hok m ((mem_collected scene m).1 hm).1) inv)

end checkMeshUVTilingOver

/-! ### The mesh commands on 63 meshes with hardware concurrency 6 -/

/-- C3: the merged list depends on the task count.  For 63 meshes without
polygons `checkMeshFace0Count` run as one task lists all 63 meshes; with hardware
concurrency 6 (60 tasks) the merged list has 62 entries and lacks mesh 62, which
lies in no task range. -/
theorem merged_list_depends_on_task_count :
    (checkMeshFace0Count.searchMeshFace0Count emptyMeshes63).stat = MStatus.kSuccess ∧
    (checkMeshFace0Count.searchMeshFace0Count emptyMeshes63).invalidList.length = 63 ∧
    SelItem.mk 62 none ∈ (checkMeshFace0Count.searchMeshFace0Count emptyMeshes63).invalidList ∧
    (searchMesh checkMeshFace0Count.searchMeshFace0Count (hostOf 6) emptyMeshes63).2
      = MStatus.kSuccess ∧
    (searchMesh checkMeshFace0Count.searchMeshFace0Count (hostOf 6) emptyMeshes63).1.length = 62 ∧
    SelItem.mk 62 none ∉
      (searchMesh checkMeshFace0Count.searchMeshFace0Count (hostOf 6) emptyMeshes63).1 ∧
    checkMeshFace0Count.doIt (hostOf 1) emptyMeshes63 ≠
      checkMeshFace0Count.doIt (hostOf 6) emptyMeshes63 := by
  decide!

/-- C8: with 63 meshes and hardware concurrency 6, `checkMeshFreeze` succeeds
with an empty invalid list although mesh 62 has a `pnts` child of value `1/2`;
run on that mesh alone, or on the same scene with hardware concurrency 1, it
reports the mesh. -/
theorem checkMeshFreeze_misses_last_mesh :
    unfrozenGeom.asMDistance 0 1 = some (1 / 2) ∧
    checkMeshFreeze.doIt (hostOf 6) freezeScene63 = (MStatus.kSuccess, []) ∧
    checkMeshFreeze.doIt (hostOf 1) freezeScene63 = (MStatus.kSuccess, [SelItem.mk 62 none]) ∧
    checkMeshFreeze.doIt (hostOf 6) [meshNode 62 unfrozenGeom]
      = (MStatus.kSuccess, [SelItem.mk 62 none]) := by
  decide!

/-- C9: with 63 meshes and hardware concurrency 6, `checkMeshNormalLock` succeeds
with an empty invalid list although normal 2 of mesh 62 is locked; run on that
mesh alone, or on the same scene with hardware concurrency 1, it reports the
mesh. -/
theorem checkMeshNormalLock_misses_last_mesh :
    lockedGeom.isNormalLocked 2 = some true ∧
    checkMeshNormalLock.doIt (hostOf 6) normalLockScene63 = (MStatus.kSuccess, []) ∧
    checkMeshNormalLock.doIt (hostOf 1) normalLockScene63
      = (MStatus.kSuccess, [SelItem.mk 62 none]) ∧
    checkMeshNormalLock.doIt (hostOf 6) [meshNode 62 lockedGeom]
      = (MStatus.kSuccess, [SelItem.mk 62 none]) := by
  decide!

/-- C5: `checkMeshUVTilingOver` does not report every mesh that has a shell over
two tiles in the checked UV set, and reports meshes that have none.  With 63
meshes and hardware concurrency 6 the command called with `-uvSet map1` succeeds
with an empty list although shell 0 of `map1` of mesh 62 has UVs in the tiles
`(0, 0)` and `(1, 0)`.  Called with `-uvSet map1` and without `-allUVSet` on one
mesh whose `map1` lies in one tile and whose `map2` does not, it reports the
mesh when the unset member `allUVSet` reads as true. -/
theorem checkMeshUVTilingOver_diverges :
    checkMeshUVTilingOver.checkSet (tilingGeom ["map1"]) "map1"
      = checkMeshUVTilingOver.UVLoopEnd.tilingOver ∧
    checkMeshUVTilingOver.doIt (hostOf 6) flagsMap1 false tilingScene63 = (MStatus.kSuccess, []) ∧
    checkMeshUVTilingOver.doIt (hostOf 1) flagsMap1 false tilingScene63
      = (MStatus.kSuccess, [SelItem.mk 62 none]) ∧
    checkMeshUVTilingOver.checkSet (tilingGeom ["map2"]) "map1"
      = checkMeshUVTilingOver.UVLoopEnd.done ∧
    checkMeshUVTilingOver.doIt (hostOf 1) flagsMap1 true [meshNode 0 (tilingGeom ["map2"])]
      = (MStatus.kSuccess, [SelItem.mk 0 none]) ∧
    checkMeshUVTilingOver.doIt (hostOf 1) flagsMap1 false [meshNode 0 (tilingGeom ["map2"])]
      = (MStatus.kSuccess, []) := by
  decide!

/-- C6: called with `-uvSet map1` and without `-allUVSet` on one mesh whose face 0
has a negative UV in `map2` only, `checkMeshUVNegative` reports the face when the
unset member `allUVSet` reads as true, and does not when it reads as false.  With
63 meshes and hardware concurrency 6 it succeeds with an empty list although
face 0 of mesh 62 has a negative UV in `map1`. -/
theorem checkMeshUVNegative_diverges :
    (negativeGeom ["map2"]).getUVs 0 "map1" = some [(1 / 4, 1 / 4), (3 / 4, 1 / 4), (1 / 2, 3 / 4)] ∧
    checkMeshUVNegative.doIt (hostOf 1) flagsMap1 true [meshNode 0 (negativeGeom ["map2"])]
      = (MStatus.kSuccess, [SelItem.mk 0 (some 0)]) ∧
    checkMeshUVNegative.doIt (hostOf 1) flagsMap1 false [meshNode 0 (negativeGeom ["map2"])]
      = (MStatus.kSuccess, []) ∧
    (negativeGeom ["map1"]).getUVs 0 "map1" = some [(-1 / 4, 1 / 4), (3 / 4, 1 / 4), (1 / 2, 3 / 4)] ∧
    checkMeshUVNegative.doIt (hostOf 6) flagsMap1 false negativeScene63 = (MStatus.kSuccess, []) ∧
    checkMeshUVNegative.doIt (hostOf 1) flagsMap1 false negativeScene63
      = (MStatus.kSuccess, [SelItem.mk 62 (some 0)]) := by
  decide!

/-- C7: called with `-uvSet map1` and without `-allUVSet` on one mesh whose face 0
is reversed in `map2` only, `checkMeshUVFlip` reports the face when the unset
member `allUVSet` reads as true, and does not when it reads as false.  With 63
meshes and hardware concurrency 6 it succeeds with an empty list although face 0
of mesh 62 is reversed in `map1`. -/
theorem checkMeshUVFlip_diverges :
    (flipGeom ["map2"]).isUVReversed 0 "map1" = (false, MStatus.kSuccess) ∧
    checkMeshUVFlip.doIt (hostOf 1) flagsMap1 true [meshNode 0 (flipGeom ["map2"])]
      = (MStatus.kSuccess, [SelItem.mk 0 (some 0)]) ∧
    checkMeshUVFlip.doIt (hostOf 1) flagsMap1 false [meshNode 0 (flipGeom ["map2"])]
      = (MStatus.kSuccess, []) ∧
    (flipGeom ["map1"]).isUVReversed 0 "map1" = (true, MStatus.kSuccess) ∧
    checkMeshUVFlip.doIt (hostOf 6) flagsMap1 false flipScene63 = (MStatus.kSuccess, []) ∧
    checkMeshUVFlip.doIt (hostOf 1) flagsMap1 false flipScene63
      = (MStatus.kSuccess, [SelItem.mk 62 (some 0)]) := by
  decide!

/-! ### The command object -/

theorem selectFlag_isSelect (select : Bool) (s : Session) :
    (selectFlag select s)._isSelect = select := by
  cases select <;> rfl

theorem selectFlag_invalid (select : Bool) (s : Session) :
    (selectFlag select s)._invalid = [] := by
  cases select <;> rfl

theorem finish_cmd (sh : Shell) (cmd : Command) (s : Session) : (finish sh cmd s).cmd = cmd := rfl

theorem finish_success (sh : Shell) (cmd : Command) (s : Session)
    (h : (finish sh cmd s).stat = MStatus.kSuccess) :
    (cmd._isSelect = true →
      (finish sh cmd s).session.activeSelection = cmd._invalid ∧
      (finish sh cmd s).session.result = s.result) ∧
    (cmd._isSelect = false →
      ∃ strings, sh.getSelectionStrings cmd._invalid = some strings ∧
        (finish sh cmd s).session.result = some strings ∧
        (finish sh cmd s).session.activeSelection = s.activeSelection) := by
  unfold finish redoIt at *
  cases hsel : cmd._isSelect with
  | true =>
    simp only [hsel, if_true] at h ⊢
    by_cases hset : sh.setActiveSelectionList = MStatus.kSuccess
    · simp [hset]
    · simp [hset] at h
  | false =>
    simp only [hsel, Bool.false_eq_true, if_false] at h ⊢
    cases hstr : sh.getSelectionStrings cmd._invalid with
    | none => simp [hstr] at h
    | some strings => simp

theorem meshRun_success {G : Type} (checksArgs checkSize releaseOnInitFailure : Bool)
    (worker : List (Mesh G) → TdResult) (sh : Shell) (host : Host) (select flagsOk : Bool)
    (scene : List (Mesh G)) (s : Session)
    (h : (meshRun checksArgs checkSize releaseOnInitFailure worker sh host select flagsOk scene
      s).stat = MStatus.kSuccess) :
    ∃ cmd s', meshRun checksArgs checkSize releaseOnInitFailure worker sh host select flagsOk
        scene s = finish sh cmd s' ∧
      cmd._isSelect = select ∧ s'.activeSelection = s.activeSelection ∧ s'.result = s.result ∧
      s'.releaseCalls = s.releaseCalls := by
  unfold meshRun at h ⊢
  by_cases h1 : (checksArgs && decide (sh.argParser ≠ MStatus.kSuccess)) = true
  · simp only [h1, if_true] at h
    cases h
  · simp only [h1, Bool.false_eq_true, if_false] at h ⊢
    by_cases h2 : (!flagsOk) = true
    · simp only [h2, if_true] at h
      cases h
    · simp only [h2, Bool.false_eq_true, if_false] at h ⊢
      cases hm : getAllMesh host scene with
      | none =>
        simp only [hm] at h
        cases h
      | some meshes =>
        simp only [hm] at h ⊢
        by_cases h3 : (checkSize && decide (meshes.length = 0)) = true
        · simp only [h3, if_true] at h ⊢
          exact ⟨_, _, rfl, selectFlag_isSelect select s, rfl, rfl, rfl⟩
        · simp only [h3, Bool.false_eq_true, if_false] at h ⊢
          by_cases h4 : host.poolInit ≠ MStatus.kSuccess
          · rw [if_pos h4] at h
            cases h
          · rw [if_neg h4] at h ⊢
            cases hs : searchMesh worker host meshes with
            | mk inv st =>
              cases st with
              | kFailure =>
                simp only [hs] at h
                cases h
              | kSuccess =>
                simp only [hs] at h ⊢
                exact ⟨_, _, rfl, selectFlag_isSelect select s, rfl, rfl, rfl⟩

theorem finish_output (sh : Shell) (cmd : Command) (s s' : Session) (select : Bool)
    (hsel : cmd._isSelect = select) (hact : s'.activeSelection = s.activeSelection)
    (hres : s'.result = s.result) (h : (finish sh cmd s').stat = MStatus.kSuccess) :
    (select = true →
      (finish sh cmd s').session.activeSelection = (finish sh cmd s').cmd._invalid ∧
      (finish sh cmd s').session.result = s.result) ∧
    (select = false →
      ∃ strings, sh.getSelectionStrings (finish sh cmd s').cmd._invalid = some strings ∧
        (finish sh cmd s').session.result = some strings ∧
        (finish sh cmd s').session.activeSelection = s.activeSelection) := by
  obtain ⟨h1, h2⟩ := finish_success sh cmd s' h
  rw [finish_cmd]
  constructor
  · intro hs
    have := h1 (hsel.trans hs)
    exact ⟨this.1, this.2.trans hres⟩
  · intro hs
    obtain ⟨strings, e1, e2, e3⟩ := h2 (hsel.trans hs)
    exact ⟨strings, e1, e2, e3.trans hact⟩

theorem curveRun_output (scan : Except Fault MSelectionList) (sh : Shell) (select : Bool)
    (s : Session) (r : RunResult) (hrun : curveRun scan sh select s = Except.ok r)
    (hstat : r.stat = MStatus.kSuccess) :
    (select = true → r.session.activeSelection = r.cmd._invalid ∧ r.session.result = s.result) ∧
    (select = false →
      ∃ strings, sh.getSelectionStrings r.cmd._invalid = some strings ∧
        r.session.result = some strings ∧ r.session.activeSelection = s.activeSelection) := by
  unfold curveRun at hrun
  cases scan with
  | error e => cases hrun
  | ok invalid =>
    simp only [Except.ok.injEq] at hrun
    subst hrun
    exact finish_output sh _ s s select rfl rfl rfl hstat

theorem meshRun_output {G : Type} (checksArgs checkSize releaseOnInitFailure : Bool)
    (worker : List (Mesh G) → TdResult) (sh : Shell) (host : Host) (select flagsOk : Bool)
    (scene : List (Mesh G)) (s : Session) (r : RunResult)
    (hrun : Except.ok (ε := Fault) (meshRun checksArgs checkSize releaseOnInitFailure worker sh host
      select flagsOk scene s) = Except.ok r)
    (hstat : r.stat = MStatus.kSuccess) :
    (select = true → r.session.activeSelection = r.cmd._invalid ∧ r.session.result = s.result) ∧
    (select = false →
      ∃ strings, sh.getSelectionStrings r.cmd._invalid = some strings ∧
        r.session.result = some strings ∧ r.session.activeSelection = s.activeSelection) := by
  simp only [Except.ok.injEq] at hrun
  subst hrun
  obtain ⟨cmd, s', e, hsel, hact, hres, -⟩ :=
    meshRun_success checksArgs checkSize releaseOnInitFailure worker sh host select flagsOk scene s
      hstat
  rw [e] at hstat ⊢
  exact finish_output sh cmd s s' select hsel hact hres hstat

/-- C12: in each of the nine commands, a run of `doIt` that returns success has
one of two outputs.  With `-select` the active selection is the invalid list and
the command result is what it was before the run (none is set); without it the
command result is the selection strings of the invalid list and the active
selection is what it was before the run. -/
theorem successful_run_output (inv : Invocation) (sh : Shell) (s : Session) (r : RunResult)
    (hrun : inv.run sh s = Except.ok r) (hstat : r.stat = MStatus.kSuccess) :
    (inv.select = true →
      r.session.activeSelection = r.cmd._invalid ∧ r.session.result = s.result) ∧
    (inv.select = false →
      ∃ strings, sh.getSelectionStrings r.cmd._invalid = some strings ∧
        r.session.result = some strings ∧ r.session.activeSelection = s.activeSelection) := by
  cases inv with
  | curveSamePosition select scene => exact curveRun_output _ sh select s r hrun hstat
  | curveSpans0Count select scene => exact curveRun_output _ sh select s r hrun hstat
  | meshDoubleFace select host scene => exact meshRun_output _ _ _ _ sh host _ _ scene s r hrun hstat
  | meshFace0Count select host scene => exact meshRun_output _ _ _ _ sh host _ _ scene s r hrun hstat
  | meshFreeze select host scene => exact meshRun_output _ _ _ _ sh host _ _ scene s r hrun hstat
  | meshNormalLock select host scene => exact meshRun_output _ _ _ _ sh host _ _ scene s r hrun hstat
  | meshUVFlip flags indeterminate host scene =>
    exact meshRun_output _ _ _ _ sh host _ _ scene s r hrun hstat
  | meshUVNegative flags indeterminate host scene =>
    exact meshRun_output _ _ _ _ sh host _ _ scene s r hrun hstat
  | meshUVTilingOver flags indeterminate host scene =>
    exact meshRun_output _ _ _ _ sh host _ _ scene s r hrun hstat

theorem successful_run_output_witness :
    (checkMeshFace0Count.run shellOk (hostOf 1) true [meshNode 3 noPolygonGeom] session9).stat
      = MStatus.kSuccess ∧
    (checkMeshFace0Count.run shellOk (hostOf 1) true [meshNode 3 noPolygonGeom]
      session9).session.activeSelection = [SelItem.mk 3 none] ∧
    ((Invocation.meshFace0Count true (hostOf 1) [meshNode 3 noPolygonGeom]).select = true →
      (checkMeshFace0Count.run shellOk (hostOf 1) true [meshNode 3 noPolygonGeom]
        session9).session.activeSelection
        = (checkMeshFace0Count.run shellOk (hostOf 1) true [meshNode 3 noPolygonGeom]
          session9).cmd._invalid ∧
      (checkMeshFace0Count.run shellOk (hostOf 1) true [meshNode 3 noPolygonGeom]
        session9).session.result = session9.result) :=
  ⟨by decide!, by decide!,
    (successful_run_output (Invocation.meshFace0Count true (hostOf 1) [meshNode 3 noPolygonGeom])
      shellOk session9 _ rfl (by decide!)).1⟩

theorem finish_calls (sh : Shell) (cmd : Command) (s : Session) :
    (finish sh cmd s).session.initCalls = s.initCalls ∧
    (finish sh cmd s).session.releaseCalls = s.releaseCalls := by
  unfold finish redoIt
  cases hsel : cmd._isSelect with
  | true =>
    by_cases hset : sh.setActiveSelectionList = MStatus.kSuccess
    · simp [hset]
    · simp [hset]
  | false =>
    cases hstr : sh.getSelectionStrings cmd._invalid with
    | none => simp
    | some strings => simp

/-- A run of a mesh command that returns success has made no call of
`MThreadPool::release`. -/
theorem meshRun_success_releaseCalls {G : Type} (checksArgs checkSize releaseOnInitFailure : Bool)
    (worker : List (Mesh G) → TdResult) (sh : Shell) (host : Host) (select flagsOk : Bool)
    (scene : List (Mesh G)) (s : Session)
    (h : (meshRun checksArgs checkSize releaseOnInitFailure worker sh host select flagsOk scene
      s).stat = MStatus.kSuccess) :
    (meshRun checksArgs checkSize releaseOnInitFailure worker sh host select flagsOk scene
      s).session.releaseCalls = s.releaseCalls := by
  obtain ⟨cmd, s', e, -, -, -, hrel⟩ :=
    meshRun_success checksArgs checkSize releaseOnInitFailure worker sh host select flagsOk scene s h
  rw [e, (finish_calls sh cmd s').2, hrel]

/-- C13: the thread pool is not released on the success path.  `checkMeshDoubleFace`
and `checkMeshFreeze`, run on one mesh with every host call succeeding, return
success after one `MThreadPool::init` and no `MThreadPool::release`;
`checkMeshFace0Count` on a mesh whose polygon-count query fails returns failure
after one `init` and one `release`. -/
theorem thread_pool_not_released_on_success :
    (checkMeshDoubleFace.run shellOk (hostOf 1) false [meshNode 0 doubledGeom] session9).stat
      = MStatus.kSuccess ∧
    (checkMeshDoubleFace.run shellOk (hostOf 1) false [meshNode 0 doubledGeom]
      session9).session.initCalls = 1 ∧
    (checkMeshDoubleFace.run shellOk (hostOf 1) false [meshNode 0 doubledGeom]
      session9).session.releaseCalls = 0 ∧
    (checkMeshFreeze.run shellOk (hostOf 1) false [meshNode 0 unfrozenGeom] session9).stat
      = MStatus.kSuccess ∧
    (checkMeshFreeze.run shellOk (hostOf 1) false [meshNode 0 unfrozenGeom]
      session9).session.initCalls = 1 ∧
    (checkMeshFreeze.run shellOk (hostOf 1) false [meshNode 0 unfrozenGeom]
      session9).session.releaseCalls = 0 ∧
    (checkMeshFace0Count.run shellOk (hostOf 1) false [meshNode 0 brokenCountGeom] session9).stat
      = MStatus.kFailure ∧
    (checkMeshFace0Count.run shellOk (hostOf 1) false [meshNode 0 brokenCountGeom]
      session9).session.initCalls = 1 ∧
    (checkMeshFace0Count.run shellOk (hostOf 1) false [meshNode 0 brokenCountGeom]
      session9).session.releaseCalls = 1 := by
  decide!

/-- C14, as stated, fails: the syntax of `checkCurveSamePosition` and of
`checkMeshNormalLock` declares one flag, that of `checkMeshUVFlip` three. -/
theorem createSyntax_not_two_flags :
    checkCurveSamePosition.createSyntax.length = 1 ∧
    checkMeshNormalLock.createSyntax.length = 1 ∧
    checkMeshUVFlip.createSyntax.length = 3 := by
  decide

/-- C14, amended: the syntax of a UV command declares the three flags `-s /
-select`, `-uvs / -uvSet` (with a string argument) and `-all / -allUVSet`; the
syntax of each of the other six commands declares the one flag `-s / -select`.
No syntax declares two flags. -/
theorem createSyntax_flags (inv : Invocation) :
    (inv.isUVCommand = true →
      inv.createSyntax = [selectSyntaxFlag, Flag.mk "-uvs" "-uvSet" MArgType.kString,
        Flag.mk "-all" "-allUVSet" MArgType.kNoArg]) ∧
    (inv.isUVCommand = false → inv.createSyntax = [selectSyntaxFlag]) ∧
    inv.createSyntax.length ≠ 2 := by
  cases inv <;> simp [Invocation.isUVCommand, Invocation.createSyntax, selectSyntaxFlag,
    checkCurveSamePosition.createSyntax, checkCurveSpans0Count.createSyntax,
    checkMeshDoubleFace.createSyntax, checkMeshFace0Count.createSyntax,
    checkMeshFreeze.createSyntax, checkMeshNormalLock.createSyntax,
    checkMeshUVFlip.createSyntax, checkMeshUVNegative.createSyntax,
    checkMeshUVTilingOver.createSyntax]

/-- C11: with 63 meshes and hardware concurrency 6, `checkMeshFace0Count`
succeeds with an empty invalid list although mesh 62 has no polygon; run on that
mesh alone, or on the same scene with hardware concurrency 1, it reports the
mesh. -/
theorem checkMeshFace0Count_misses_last_mesh :
    noPolygonGeom.numPolygons = some 0 ∧
    checkMeshFace0Count.doIt (hostOf 6) face0Scene63 = (MStatus.kSuccess, []) ∧
    checkMeshFace0Count.doIt (hostOf 1) face0Scene63 = (MStatus.kSuccess, [SelItem.mk 62 none]) ∧
    checkMeshFace0Count.doIt (hostOf 6) [meshNode 62 noPolygonGeom]
      = (MStatus.kSuccess, [SelItem.mk 62 none]) := by
  decide!

/-! ### The partition on large lists and without hardware concurrency -/

/-- While neither product nor length wraps, the task count is
`min (10 * hardware concurrency) n`. -/
theorem taskCount_eq_min (hc n : Nat) (h1 : hc * 10 < 2 ^ 32) (h2 : n < 2 ^ 32) :
    taskCount hc n = min (hc * 10) n := by
  unfold taskCount processor_count
  rw [Nat.mod_eq_of_lt h1, Nat.mod_eq_of_lt h2]
  by_cases h : hc * 10 < n
  · rw [if_pos h]; omega
  · rw [if_neg h]; omega

/-- With hardware concurrency 0 no task is created and the parallel region
leaves an empty list and a success status, whatever the meshes are. -/
theorem searchMesh_no_task {G : Type} (worker : List (Mesh G) → TdResult) (host : Host)
    (meshes : List (Mesh G)) (h : host.hardware_concurrency = 0) :
    taskCount host.hardware_concurrency meshes.length = 0 ∧
    searchMesh worker host meshes = ([], MStatus.kSuccess) := by
  have h0 : taskCount host.hardware_concurrency meshes.length = 0 := by
    rw [h]
    unfold taskCount processor_count
    by_cases hn : 0 < meshes.length
    · simp [hn]
    · have : meshes.length = 0 := by omega
      simp [this]
  refine ⟨h0, ?_⟩
  unfold searchMesh runTasks
  rw [h0]
  rfl

/-- C16: the partition is not always balanced.  For 1048619 meshes and hardware
concurrency 6 the task count is 60 = min (60, 1048619); task 0 gets the range
`[0, 17476)` of length 17476 and task 59 the range `[1031141, 1048619)` of
length 17478. -/
theorem partition_not_balanced :
    taskCount 6 1048619 = 60 ∧
    taskStart 1048619 60 0 = 0 ∧ taskEnd 1048619 60 0 = 17476 ∧
    taskStart 1048619 60 59 = 1031141 ∧ taskEnd 1048619 60 59 = 1048619 ∧
    taskEnd 1048619 60 0 - taskStart 1048619 60 0 + 2
      = taskEnd 1048619 60 59 - taskStart 1048619 60 59 := by
  decide!

/-- C17: with hardware concurrency 0 no worker task is created.  The task count
for a list of one mesh is 0; `checkMeshFace0Count` on one mesh without polygons
and `checkMeshUVNegative` on one mesh with a negative UV in `map1` succeed with
an empty invalid list, and report the mesh, or its face, with hardware
concurrency 1. -/
theorem no_worker_task_without_hardware_concurrency :
    taskCount 0 1 = 0 ∧
    checkMeshFace0Count.doIt (hostOf 0) [meshNode 0 noPolygonGeom] = (MStatus.kSuccess, []) ∧
    checkMeshFace0Count.doIt (hostOf 1) [meshNode 0 noPolygonGeom]
      = (MStatus.kSuccess, [SelItem.mk 0 none]) ∧
    checkMeshUVNegative.doIt (hostOf 0) flagsMap1 false [meshNode 0 (negativeGeom ["map1"])]
      = (MStatus.kSuccess, []) ∧
    checkMeshUVNegative.doIt (hostOf 1) flagsMap1 false [meshNode 0 (negativeGeom ["map1"])]
      = (MStatus.kSuccess, [SelItem.mk 0 (some 0)]) := by
  decide!

/-! ### The tile of a UV -/

/-- For a coordinate that is not negative the cast `(int)u` is the floor. -/
theorem toInt_of_nonneg (u : ℚ) (h : 0 ≤ u) : checkMeshUVTilingOver.toInt u = Int.floor u := by
  unfold checkMeshUVTilingOver.toInt
  rw [if_pos h]

/-- C18: the tile of a UV is not its unit square for negative coordinates.  The
cast gives `-1/2` and `1/2` the same tile coordinate 0, while their floors are
`-1` and `0`; a mesh whose single shell has the UVs `(-1/2, 1/4)` and
`(1/2, 1/4)` is examined and not reported. -/
theorem tile_of_negative_coordinate_not_floor :
    checkMeshUVTilingOver.toInt (-1 / 2) = 0 ∧ checkMeshUVTilingOver.toInt (1 / 2) = 0 ∧
    Int.floor (-1 / 2 : ℚ) = -1 ∧ Int.floor (1 / 2 : ℚ) = 0 ∧
    straddleGeom.getUV "map1" 0 = some (-1 / 2, 1 / 4) ∧
    straddleGeom.getUV "map1" 1 = some (1 / 2, 1 / 4) ∧
    straddleGeom.getUvShellsIds "map1" = some [0, 0] ∧
    checkMeshUVTilingOver.checkSet straddleGeom "map1" = checkMeshUVTilingOver.UVLoopEnd.done ∧
    checkMeshUVTilingOver.doIt (hostOf 1) flagsMap1 false [meshNode 0 straddleGeom]
      = (MStatus.kSuccess, []) := by
  decide!

/-- C15: with 63 meshes and hardware concurrency 6, `checkMeshDoubleFace`
succeeds with an empty invalid list although each of the eight vertices of mesh
62 has the position of another vertex id of that mesh; run on that mesh alone,
or on the same scene with hardware concurrency 1, it reports both faces. -/
theorem checkMeshDoubleFace_misses_last_mesh :
    checkMeshDoubleFace.invalidVtxIds
      [(0, 0, 0), (1, 0, 0), (1, 1, 0), (0, 1, 0), (0, 0, 0), (1, 0, 0), (1, 1, 0), (0, 1, 0)]
      ≠ [] ∧
    checkMeshDoubleFace.doIt (hostOf 6) doubleFaceScene63 = (MStatus.kSuccess, []) ∧
    checkMeshDoubleFace.doIt (hostOf 1) doubleFaceScene63
      = (MStatus.kSuccess, [SelItem.mk 62 (some 0), SelItem.mk 62 (some 1)]) ∧
    checkMeshDoubleFace.doIt (hostOf 6) [meshNode 62 doubledGeom]
      = (MStatus.kSuccess, [SelItem.mk 62 (some 0), SelItem.mk 62 (some 1)]) := by
  decide!

/-! ### Failure of a mesh command -/

theorem getElem_cons_exists {α : Type} (a : α) (l : List α) (Q : Nat → α → Prop) :
    (∃ k x, (a :: l)[k]? = some x ∧ Q k x) ↔ Q 0 a ∨ ∃ k x, l[k]? = some x ∧ Q (k + 1) x := by
  constructor
  · rintro ⟨k, x, h, q⟩
    cases k with
    | zero =>
      simp only [List.getElem?_cons_zero, Option.some.injEq] at h
      subst h
      exact Or.inl q
    | succ k =>
      simp only [List.getElem?_cons_succ] at h
      exact Or.inr ⟨k, x, h, q⟩
  · rintro (q | ⟨k, x, h, q⟩)
    · exact ⟨0, a, by simp, q⟩
    · exact ⟨k + 1, x, by simpa using h, q⟩

theorem mergeLoop_failure_iff (mergeStat : Nat → MStatus) (tds : List TdResult) :
    ∀ (i : Nat) (inv : MSelectionList),
      (mergeLoop mergeStat i tds inv MStatus.kSuccess).2 ≠ MStatus.kSuccess ↔
        ∃ k td, tds[k]? = some td ∧
          (td.stat ≠ MStatus.kSuccess ∨
            (0 < td.invalidList.length ∧ mergeStat (i + k) ≠ MStatus.kSuccess)) := by
  induction tds with
  | nil => intro i inv; simp [mergeLoop]
  | cons td rest ih =>
    intro i inv
    rw [getElem_cons_exists td rest (fun k x => x.stat ≠ MStatus.kSuccess ∨
      (0 < x.invalidList.length ∧ mergeStat (i + k) ≠ MStatus.kSuccess))]
    have e : ∀ k, mergeStat (i + 1 + k) = mergeStat (i + (k + 1)) := fun k => by
      rw [Nat.add_right_comm, Nat.add_assoc]
    simp only [Nat.add_zero, mergeLoop]
    by_cases hl : 0 < td.invalidList.length
    · rw [if_pos hl]
      by_cases hm : mergeStat i ≠ MStatus.kSuccess
      · rw [if_pos hm]
        exact iff_of_true (fun h => by cases h) (Or.inl (Or.inr ⟨hl, hm⟩))
      · rw [if_neg hm]
        by_cases hs : td.stat ≠ MStatus.kSuccess
        · rw [if_pos hs]
          exact iff_of_true hs (Or.inl (Or.inl hs))
        · rw [if_neg hs]
          have hs' : td.stat = MStatus.kSuccess := not_not.1 hs
          rw [hs', ih (i + 1) _]
          simp only [e]
          constructor
          · intro h; exact Or.inr h
          · rintro (h | h)
            · rcases h with h | h
              · exact absurd rfl h
              · exact absurd h.2 hm
            · exact h
    · rw [if_neg hl]
      by_cases hs : td.stat ≠ MStatus.kSuccess
      · rw [if_pos hs]
        exact iff_of_true hs (Or.inl (Or.inl hs))
      · rw [if_neg hs]
        have hs' : td.stat = MStatus.kSuccess := not_not.1 hs
        rw [hs', ih (i + 1) _]
        simp only [e]
        constructor
        · intro h; exact Or.inr h
        · rintro (h | h)
          · rcases h with h | h
            · exact absurd rfl h
            · exact absurd h.1 hl
          · exact h

/-- The parallel region leaves a failure status if and only if some task fails
in its worker or in its merge. -/
theorem searchMesh_failure_iff {G : Type} (worker : List (Mesh G) → TdResult) (host : Host)
    (meshes : List (Mesh G)) :
    (searchMesh worker host meshes).2 ≠ MStatus.kSuccess ↔ SearchFails worker host meshes := by
  unfold searchMesh
  rw [mergeLoop_failure_iff]
  unfold SearchFails TaskFails runTasks
  simp only [Nat.zero_add]
  constructor
  · rintro ⟨k, td, h, q⟩
    obtain ⟨hk, e⟩ := List.getElem?_eq_some.1 h
    simp only [List.length_map, List.length_range] at hk
    simp only [List.getElem_map, List.getElem_range] at e
    subst e
    exact ⟨k, hk, q⟩
  · rintro ⟨k, hk, q⟩
    refine ⟨k, _, ?_, q⟩
    rw [List.getElem?_map, List.getElem?_range hk]
    rfl

theorem redoIt_stat (sh : Shell) (cmd : Command) (s s' : Session) :
    (redoIt sh cmd s).1 = (redoIt sh cmd s').1 := by
  unfold redoIt
  cases hsel : cmd._isSelect with
  | true =>
    by_cases hset : sh.setActiveSelectionList = MStatus.kSuccess
    · simp [hset]
    · simp [hset]
  | false =>
    cases hstr : sh.getSelectionStrings cmd._invalid with
    | none => simp
    | some strings => simp

theorem not_searchFails_of_empty {G : Type} (worker : List (Mesh G) → TdResult) (host : Host)
    (meshes : List (Mesh G)) (h : meshes.length = 0) : ¬SearchFails worker host meshes := by
  rintro ⟨i, hi, -⟩
  rw [h] at hi
  unfold taskCount at hi
  simp at hi

theorem searchMesh_cases {G : Type} (worker : List (Mesh G) → TdResult) (host : Host)
    (meshes : List (Mesh G)) :
    (¬SearchFails worker host meshes ∧
      ∃ invalidList, searchMesh worker host meshes = (invalidList, MStatus.kSuccess)) ∨
    (SearchFails worker host meshes ∧
      ∃ invalidList, searchMesh worker host meshes = (invalidList, MStatus.kFailure)) := by
  have h := searchMesh_failure_iff worker host meshes
  cases hs : searchMesh worker host meshes with
  | mk inv st =>
    rw [hs] at h
    cases st with
    | kSuccess => exact Or.inl ⟨fun hf => (h.2 hf) rfl, inv, rfl⟩
    | kFailure => exact Or.inr ⟨h.1 (fun e => by cases e), inv, rfl⟩

theorem meshRun_failure_iff {G : Type} (checksArgs checkSize releaseOnInitFailure : Bool)
    (worker : List (Mesh G) → TdResult) (sh : Shell) (host : Host) (select flagsOk : Bool)
    (scene : List (Mesh G)) (s : Session) :
    (meshRun checksArgs checkSize releaseOnInitFailure worker sh host select flagsOk scene s).stat
        = MStatus.kFailure ↔
      (checksArgs = true ∧ sh.argParser ≠ MStatus.kSuccess) ∨ flagsOk = false ∨
      getAllMesh host scene = none ∨
      (∃ meshes, getAllMesh host scene = some meshes ∧
        ¬(checkSize = true ∧ meshes.length = 0) ∧
        (host.poolInit ≠ MStatus.kSuccess ∨ SearchFails worker host meshes)) ∨
      (redoIt sh (meshRun checksArgs checkSize releaseOnInitFailure worker sh host select flagsOk
        scene s).cmd s).1 = MStatus.kFailure := by
  unfold meshRun
  by_cases h1 : (checksArgs && decide (sh.argParser ≠ MStatus.kSuccess)) = true
  · simp only [h1, if_true]
    refine iff_of_true trivial (Or.inl ?_)
    simpa using h1
  · simp only [h1, Bool.false_eq_true, if_false]
    have hA : ¬(checksArgs = true ∧ sh.argParser ≠ MStatus.kSuccess) := by
      rintro ⟨a, b⟩
      exact h1 (by simp [a, b])
    by_cases h2 : (!flagsOk) = true
    · simp only [h2, if_true]
      refine iff_of_true trivial (Or.inr (Or.inl ?_))
      simpa using h2
    · simp only [h2, Bool.false_eq_true, if_false]
      have hB : ¬(flagsOk = false) := by
        intro b
        exact h2 (by simp [b])
      cases hm : getAllMesh host scene with
      | none =>
        exact iff_of_true rfl (Or.inr (Or.inr (Or.inl rfl)))
      | some meshes =>
        simp only []
        by_cases h3 : (checkSize && decide (meshes.length = 0)) = true
        · simp only [h3, if_true]
          have hD : checkSize = true ∧ meshes.length = 0 := by simpa using h3
          constructor
          · intro h
            exact Or.inr (Or.inr (Or.inr (Or.inr h)))
          · rintro (a | b | c | ⟨meshes', e, d, -⟩ | e)
            · exact absurd a hA
            · exact absurd b hB
            · cases c
            · cases e
              exact absurd hD d
            · exact e
        · simp only [h3, Bool.false_eq_true, if_false]
          have hD : ¬(checkSize = true ∧ meshes.length = 0) := by
            rintro ⟨a, b⟩
            exact h3 (by simp [a, b])
          by_cases h4 : host.poolInit ≠ MStatus.kSuccess
          · rw [if_pos h4]
            exact iff_of_true rfl (Or.inr (Or.inr (Or.inr (Or.inl ⟨meshes, rfl, hD, Or.inl h4⟩))))
          · rw [if_neg h4]
            rcases searchMesh_cases worker host meshes with ⟨hnf, inv, hs⟩ | ⟨hf, inv, hs⟩
            · simp only [hs]
              constructor
              · intro h
                refine Or.inr (Or.inr (Or.inr (Or.inr ?_)))
                rw [← h]
                exact redoIt_stat sh _ _ _
              · rintro (a | b | c | ⟨meshes', e, -, d⟩ | e)
                · exact absurd a hA
                · exact absurd b hB
                · cases c
                · cases e
                  rcases d with d | d
                  · exact absurd d h4
                  · exact absurd d hnf
                · rw [← e]
                  exact redoIt_stat sh _ _ _
            · simp only [hs]
              exact iff_of_true trivial (Or.inr (Or.inr (Or.inr (Or.inl ⟨meshes, rfl, hD, Or.inr hf⟩))))

theorem meshRun_searchFails {G : Type} (checksArgs checkSize releaseOnInitFailure : Bool)
    (worker : List (Mesh G) → TdResult) (sh : Shell) (host : Host) (select flagsOk : Bool)
    (scene : List (Mesh G)) (s : Session) (meshes : List (Mesh G))
    (hm : getAllMesh host scene = some meshes) (hf : SearchFails worker host meshes) :
    (meshRun checksArgs checkSize releaseOnInitFailure worker sh host select flagsOk scene s).stat
      = MStatus.kFailure ∧
    (meshRun checksArgs checkSize releaseOnInitFailure worker sh host select flagsOk scene
      s).cmd._invalid = [] ∧
    (meshRun checksArgs checkSize releaseOnInitFailure worker sh host select flagsOk scene
      s).session.result = s.result ∧
    (meshRun checksArgs checkSize releaseOnInitFailure worker sh host select flagsOk scene
      s).session.activeSelection = s.activeSelection := by
  unfold meshRun
  by_cases h1 : (checksArgs && decide (sh.argParser ≠ MStatus.kSuccess)) = true
  · simp only [h1, if_true]
    exact ⟨trivial, trivial, trivial, trivial⟩
  · simp only [h1, Bool.false_eq_true, if_false]
    by_cases h2 : (!flagsOk) = true
    · simp only [h2, if_true]
      refine ⟨?_, ?_, ?_, ?_⟩ <;> first | trivial | rfl | exact selectFlag_invalid select s
    · simp only [h2, Bool.false_eq_true, if_false, hm]
      by_cases h3 : (checkSize && decide (meshes.length = 0)) = true
      · have hD : checkSize = true ∧ meshes.length = 0 := by simpa using h3
        exact absurd hf (not_searchFails_of_empty worker host meshes hD.2)
      · simp only [h3, Bool.false_eq_true, if_false]
        by_cases h4 : host.poolInit ≠ MStatus.kSuccess
        · rw [if_pos h4]
          refine ⟨?_, ?_, ?_, ?_⟩ <;> first | trivial | rfl | exact selectFlag_invalid select s
        · rw [if_neg h4]
          rcases searchMesh_cases worker host meshes with ⟨hnf, -, -⟩ | ⟨-, inv, hs⟩
          · exact absurd hf hnf
          · simp only [hs]
            refine ⟨?_, ?_, ?_, ?_⟩ <;> first | trivial | rfl | exact selectFlag_invalid select s

/-- C19, as stated, fails: `checkMeshFace0Count` on one mesh with twelve polygons
returns failure although `getAllMesh` and the pool initialisation succeed, the
only worker task leaves a success status and every merge succeeds.  It does so
when `getSelectionStrings` fails in `redoIt`, and when the construction of the
argument parser fails. -/
theorem doIt_fails_without_listed_cause :
    (getAllMesh (hostOf 1) [meshNode 0 cubeGeom]).isSome = true ∧
    (hostOf 1).poolInit = MStatus.kSuccess ∧
    taskCount (hostOf 1).hardware_concurrency 1 = 1 ∧
    (checkMeshFace0Count.searchMeshFace0Count [meshNode 0 cubeGeom]).stat = MStatus.kSuccess ∧
    (∀ i, (hostOf 1).mergeStat i = MStatus.kSuccess) ∧
    (checkMeshFace0Count.run shellNoStrings (hostOf 1) false [meshNode 0 cubeGeom] session9).stat
      = MStatus.kFailure ∧
    (checkMeshFace0Count.run shellBadArgs (hostOf 1) false [meshNode 0 cubeGeom] session9).stat
      = MStatus.kFailure :=
  ⟨by decide!, by decide!, by decide!, by decide!, fun _ => rfl, by decide!, by decide!⟩

/-- C19, amended: `doIt` of a mesh command returns failure if and only if the
construction of the argument parser fails (in the commands that check it),
reading a flag argument fails, `getAllMesh` fails, the mesh list is not one that
returns early and the pool initialisation fails or some task fails in its worker
or in the merge of its non-empty list, or `redoIt` fails on the members `doIt`
leaves.  When some task fails in its worker or its merge, `doIt` returns failure,
`_invalid` is empty, the command result and the active selection are as before
the run. -/
theorem doIt_failure_causes {G : Type} (checksArgs checkSize releaseOnInitFailure : Bool)
    (worker : List (Mesh G) → TdResult) (sh : Shell) (host : Host) (select flagsOk : Bool)
    (scene : List (Mesh G)) (s : Session) :
    ((meshRun checksArgs checkSize releaseOnInitFailure worker sh host select flagsOk scene s).stat
        = MStatus.kFailure ↔
      (checksArgs = true ∧ sh.argParser ≠ MStatus.kSuccess) ∨ flagsOk = false ∨
      getAllMesh host scene = none ∨
      (∃ meshes, getAllMesh host scene = some meshes ∧
        ¬(checkSize = true ∧ meshes.length = 0) ∧
        (host.poolInit ≠ MStatus.kSuccess ∨ SearchFails worker host meshes)) ∨
      (redoIt sh (meshRun checksArgs checkSize releaseOnInitFailure worker sh host select flagsOk
        scene s).cmd s).1 = MStatus.kFailure) ∧
    (∀ meshes, getAllMesh host scene = some meshes → SearchFails worker host meshes →
      (meshRun checksArgs checkSize releaseOnInitFailure worker sh host select flagsOk scene
        s).stat = MStatus.kFailure ∧
      (meshRun checksArgs checkSize releaseOnInitFailure worker sh host select flagsOk scene
        s).cmd._invalid = [] ∧
      (meshRun checksArgs checkSize releaseOnInitFailure worker sh host select flagsOk scene
        s).session.result = s.result ∧
      (meshRun checksArgs checkSize releaseOnInitFailure worker sh host select flagsOk scene
        s).session.activeSelection = s.activeSelection) :=
  ⟨meshRun_failure_iff checksArgs checkSize releaseOnInitFailure worker sh host select flagsOk
      scene s,
    fun meshes hm hf => meshRun_searchFails checksArgs checkSize releaseOnInitFailure worker sh
      host select flagsOk scene s meshes hm hf⟩

theorem doIt_failure_causes_witness :
    (searchMesh checkMeshFace0Count.searchMeshFace0Count (hostOf 1)
      [meshNode 0 noPolygonGeom, meshNode 1 brokenCountGeom])
      = ([SelItem.mk 0 none], MStatus.kFailure) ∧
    (checkMeshFace0Count.run shellOk (hostOf 1) true
      [meshNode 0 noPolygonGeom, meshNode 1 brokenCountGeom] session9).stat = MStatus.kFailure ∧
    (checkMeshFace0Count.run shellOk (hostOf 1) true
      [meshNode 0 noPolygonGeom, meshNode 1 brokenCountGeom] session9).cmd._invalid = [] ∧
    (checkMeshFace0Count.run shellOk (hostOf 1) true
      [meshNode 0 noPolygonGeom, meshNode 1 brokenCountGeom] session9).session.result = none ∧
    (checkMeshFace0Count.run shellOk (hostOf 1) true
      [meshNode 0 noPolygonGeom, meshNode 1 brokenCountGeom] session9).session.activeSelection
      = [SelItem.mk 9 none] :=
  ⟨by decide!,
    (doIt_failure_causes true true false checkMeshFace0Count.searchMeshFace0Count shellOk (hostOf 1)
      true true [meshNode 0 noPolygonGeom, meshNode 1 brokenCountGeom] session9).2
      [meshNode 0 noPolygonGeom, meshNode 1 brokenCountGeom] rfl
      ⟨1, by decide!, Or.inl (by decide!)⟩⟩

/-! ### The early return on a failed polygon count -/

/-- A worker of `checkMeshUVFlip` that meets a mesh whose polygon-count query
fails returns at once with the list it has and a success status. -/
theorem uvFlip_visitMesh_noCount (taskData : TaskData) (invalidList : MSelectionList)
    (mesh : Mesh checkMeshUVFlip.Geom) (h1 : mesh.geom.fnMesh = MStatus.kSuccess)
    (h2 : mesh.geom.numPolygons = none) :
    checkMeshUVFlip.visitMesh taskData invalidList mesh
      = Step.ret (TdResult.mk invalidList MStatus.kSuccess) := by
  unfold checkMeshUVFlip.visitMesh
  rw [if_neg (not_not.2 h1), h2]

/-- C20: the early return on a failed polygon count leaves a success status.
With 11 meshes and hardware concurrency 1 task 9 has the range `[9, 11)`; the
polygon-count query of mesh 9 fails, so the task returns without examining mesh
10 and leaves a success status, and each of the three UV commands succeeds with
an empty invalid list although mesh 10, examined alone, is reported. -/
theorem failed_polygon_count_leaves_success :
    taskCount 1 11 = 10 ∧ taskStart 11 10 9 = 9 ∧ taskEnd 11 10 9 = 11 ∧
    checkMeshUVFlip.searchMeshUVFlipTd (parseFlags flagsMap1 false)
        [meshNode 9 flipNoCountGeom, meshNode 10 (flipGeom ["map1"])]
      = TdResult.mk [] MStatus.kSuccess ∧
    checkMeshUVFlip.searchMeshUVFlipTd (parseFlags flagsMap1 false)
        [meshNode 10 (flipGeom ["map1"])]
      = TdResult.mk [SelItem.mk 10 (some 0)] MStatus.kSuccess ∧
    checkMeshUVFlip.doIt (hostOf 1) flagsMap1 false flipScene11 = (MStatus.kSuccess, []) ∧
    checkMeshUVNegative.searchMeshUVNegativeTd (parseFlags flagsMap1 false)
        [meshNode 9 negativeNoCountGeom, meshNode 10 (negativeGeom ["map1"])]
      = TdResult.mk [] MStatus.kSuccess ∧
    checkMeshUVNegative.searchMeshUVNegativeTd (parseFlags flagsMap1 false)
        [meshNode 10 (negativeGeom ["map1"])]
      = TdResult.mk [SelItem.mk 10 (some 0)] MStatus.kSuccess ∧
    checkMeshUVNegative.doIt (hostOf 1) flagsMap1 false negativeScene11
      = (MStatus.kSuccess, []) ∧
    checkMeshUVTilingOver.searchMeshUVTilingOverTd (parseFlags flagsMap1 false)
        [meshNode 9 tilingNoCountGeom, meshNode 10 (tilingGeom ["map1"])]
      = TdResult.mk [] MStatus.kSuccess ∧
    checkMeshUVTilingOver.searchMeshUVTilingOverTd (parseFlags flagsMap1 false)
        [meshNode 10 (tilingGeom ["map1"])]
      = TdResult.mk [SelItem.mk 10 none] MStatus.kSuccess ∧
    checkMeshUVTilingOver.doIt (hostOf 1) flagsMap1 false tilingScene11
      = (MStatus.kSuccess, []) := by
  decide!

/-! ### checkMeshDoubleFace in the words of its characterisation -/

/-- The worker adds a face of a mesh exactly when the mesh has a vertex id with
the position of another vertex id and every vertex of the face is such a vertex
id. -/
theorem doubleFace_reported_iff (m : Mesh checkMeshDoubleFace.Geom) (it : SelItem) :
    checkMeshDoubleFace.Reported m it ↔
      ∃ pnts n f vtxIds, m.geom.getPoints = some pnts ∧
        (∃ v, checkMeshDoubleFace.Coincident pnts v) ∧
        m.geom.numPolygons = some n ∧ f < n.toNat ∧
        m.geom.getPolygonVertices f = some vtxIds ∧
        (∀ v ∈ vtxIds, checkMeshDoubleFace.Coincident pnts v) ∧
        it = SelItem.mk m.path (some f) := by
  have hne : ∀ pnts : List Point, checkMeshDoubleFace.invalidVtxIds pnts ≠ [] ↔
      ∃ v, checkMeshDoubleFace.Coincident pnts v := by
    intro pnts
    constructor
    · intro h
      obtain ⟨v, hv⟩ := List.exists_mem_of_ne_nil _ h
      exact ⟨v, (checkMeshDoubleFace.mem_invalidVtxIds pnts v).1 hv⟩
    · rintro ⟨v, hv⟩
      exact List.ne_nil_of_mem ((checkMeshDoubleFace.mem_invalidVtxIds pnts v).2 hv)
  unfold checkMeshDoubleFace.Reported
  constructor
  · rintro ⟨pnts, n, f, vtxIds, h1, h2, h3, h4, h5, h6, h7⟩
    exact ⟨pnts, n, f, vtxIds, h1, (hne pnts).1 h2, h3, h4, h5,
      fun v hv => (checkMeshDoubleFace.mem_invalidVtxIds pnts v).1 (h6 v hv), h7⟩
  · rintro ⟨pnts, n, f, vtxIds, h1, h2, h3, h4, h5, h6, h7⟩
    exact ⟨pnts, n, f, vtxIds, h1, (hne pnts).2 h2, h3, h4, h5,
      fun v hv => (checkMeshDoubleFace.mem_invalidVtxIds pnts v).2 (h6 v hv), h7⟩

/-! ### Undo and redo -/

theorem meshRun_success_members {G : Type} (checksArgs checkSize releaseOnInitFailure : Bool)
    (worker : List (Mesh G) → TdResult) (sh : Shell) (host : Host) (select flagsOk : Bool)
    (scene : List (Mesh G)) (s : Session)
    (h : (meshRun checksArgs checkSize releaseOnInitFailure worker sh host select flagsOk scene
      s).stat = MStatus.kSuccess) :
    (meshRun checksArgs checkSize releaseOnInitFailure worker sh host select flagsOk scene
      s).cmd._isSelect = select ∧
    (meshRun checksArgs checkSize releaseOnInitFailure worker sh host select flagsOk scene
      s).cmd._beforeSelection = (selectFlag select s)._beforeSelection := by
  unfold meshRun at h ⊢
  by_cases h1 : (checksArgs && decide (sh.argParser ≠ MStatus.kSuccess)) = true
  · simp only [h1, if_true] at h
    cases h
  · simp only [h1, Bool.false_eq_true, if_false] at h ⊢
    by_cases h2 : (!flagsOk) = true
    · simp only [h2, if_true] at h
      cases h
    · simp only [h2, Bool.false_eq_true, if_false] at h ⊢
      cases hm : getAllMesh host scene with
      | none =>
        simp only [hm] at h
        cases h
      | some meshes =>
        simp only [hm] at h ⊢
        by_cases h3 : (checkSize && decide (meshes.length = 0)) = true
        · simp only [h3, if_true] at h ⊢
          exact ⟨selectFlag_isSelect select s, rfl⟩
        · simp only [h3, Bool.false_eq_true, if_false] at h ⊢
          by_cases h4 : host.poolInit ≠ MStatus.kSuccess
          · rw [if_pos h4] at h
            cases h
          · rw [if_neg h4] at h ⊢
            cases hs : searchMesh worker host meshes with
            | mk inv st =>
              cases st with
              | kFailure =>
                simp only [hs] at h
                cases h
              | kSuccess =>
                simp only [hs] at h ⊢
                exact ⟨selectFlag_isSelect select s, rfl⟩

theorem selectFlag_before (s : Session) : (selectFlag true s)._beforeSelection = s.activeSelection :=
  rfl

/-- With `-select`, on a host that sets the selection: `undoIt` puts back
`_beforeSelection`, `redoIt` after it restores the session, and `redoIt` on the
session `doIt` left changes nothing. -/
theorem undo_redo_select (sh : Shell) (cmd : Command) (sess : Session)
    (hsel : cmd._isSelect = true) (hset : sh.setActiveSelectionList = MStatus.kSuccess)
    (hact : sess.activeSelection = cmd._invalid) :
    undoIt sh cmd sess
      = (MStatus.kSuccess,
          Session.mk cmd._beforeSelection sess.result sess.initCalls sess.releaseCalls) ∧
    redoIt sh cmd (undoIt sh cmd sess).2 = (MStatus.kSuccess, sess) ∧
    redoIt sh cmd sess = (MStatus.kSuccess, sess) := by
  have hu : undoIt sh cmd sess
      = (MStatus.kSuccess,
          Session.mk cmd._beforeSelection sess.result sess.initCalls sess.releaseCalls) := by
    unfold undoIt
    rw [if_pos hsel, if_pos hset]
  refine ⟨hu, ?_, ?_⟩
  · rw [hu]
    unfold redoIt
    rw [if_pos hsel, if_pos hset, ← hact]
  · unfold redoIt
    rw [if_pos hsel, if_pos hset, ← hact]

/-- Without `-select`, `undoIt` succeeds and changes nothing. -/
theorem undo_no_select (sh : Shell) (cmd : Command) (sess : Session)
    (hsel : cmd._isSelect = false) : undoIt sh cmd sess = (MStatus.kSuccess, sess) := by
  unfold undoIt
  rw [hsel]
  rfl

theorem curveRun_members (scan : Except Fault MSelectionList) (sh : Shell) (select : Bool)
    (s : Session) (r : RunResult) (hrun : curveRun scan sh select s = Except.ok r) :
    r.cmd._isSelect = select ∧
    r.cmd._beforeSelection = (selectFlag select s)._beforeSelection := by
  unfold curveRun at hrun
  cases scan with
  | error e => cases hrun
  | ok invalid =>
    simp only [Except.ok.injEq] at hrun
    subst hrun
    exact ⟨rfl, rfl⟩

theorem meshRun_members {G : Type} (checksArgs checkSize releaseOnInitFailure : Bool)
    (worker : List (Mesh G) → TdResult) (sh : Shell) (host : Host) (select flagsOk : Bool)
    (scene : List (Mesh G)) (s : Session) (r : RunResult)
    (hrun : Except.ok (ε := Fault) (meshRun checksArgs checkSize releaseOnInitFailure worker sh host
      select flagsOk scene s) = Except.ok r)
    (hstat : r.stat = MStatus.kSuccess) :
    r.cmd._isSelect = select ∧
    r.cmd._beforeSelection = (selectFlag select s)._beforeSelection := by
  simp only [Except.ok.injEq] at hrun
  subst hrun
  exact meshRun_success_members checksArgs checkSize releaseOnInitFailure worker sh host select
    flagsOk scene s hstat

theorem round_trip_core (sh' : Shell) (select : Bool) (s : Session) (r : RunResult)
    (hm : r.cmd._isSelect = select ∧
      r.cmd._beforeSelection = (selectFlag select s)._beforeSelection)
    (hout : select = true →
      r.session.activeSelection = r.cmd._invalid ∧ r.session.result = s.result) :
    (select = true → sh'.setActiveSelectionList = MStatus.kSuccess →
      (undoIt sh' r.cmd r.session).1 = MStatus.kSuccess ∧
      (undoIt sh' r.cmd r.session).2.activeSelection = s.activeSelection ∧
      redoIt sh' r.cmd (undoIt sh' r.cmd r.session).2 = (MStatus.kSuccess, r.session) ∧
      r.session.activeSelection = r.cmd._invalid ∧
      redoIt sh' r.cmd r.session = (MStatus.kSuccess, r.session)) ∧
    (select = false → undoIt sh' r.cmd r.session = (MStatus.kSuccess, r.session)) := by
  constructor
  · intro hs hset
    subst hs
    obtain ⟨h1, h2, h3⟩ := undo_redo_select sh' r.cmd r.session hm.1 hset (hout rfl).1
    refine ⟨?_, ?_, h2, (hout rfl).1, h3⟩
    · rw [h1]
    · rw [h1]
      exact hm.2
  · intro hs
    subst hs
    exact undo_no_select sh' r.cmd r.session hm.1

/-- C21: the undo round trip, in each of the nine commands.  After a `doIt` with
`-select` that returned success, on a host whose `setActiveSelectionList`
succeeds, `undoIt` succeeds and makes the active selection the one that was
active when `doIt` started; a `redoIt` after it succeeds and gives back the
session `doIt` left, whose active selection is `_invalid`; and `redoIt` on that
session changes nothing.  After a successful `doIt` without `-select`, `undoIt`
succeeds and changes nothing.  `redoIt` and `undoIt` read the members only. -/
theorem undo_round_trip (inv : Invocation) (sh sh' : Shell) (s : Session) (r : RunResult)
    (hrun : inv.run sh s = Except.ok r) (hstat : r.stat = MStatus.kSuccess) :
    (inv.select = true → sh'.setActiveSelectionList = MStatus.kSuccess →
      (undoIt sh' r.cmd r.session).1 = MStatus.kSuccess ∧
      (undoIt sh' r.cmd r.session).2.activeSelection = s.activeSelection ∧
      redoIt sh' r.cmd (undoIt sh' r.cmd r.session).2 = (MStatus.kSuccess, r.session) ∧
      r.session.activeSelection = r.cmd._invalid ∧
      redoIt sh' r.cmd r.session = (MStatus.kSuccess, r.session)) ∧
    (inv.select = false → undoIt sh' r.cmd r.session = (MStatus.kSuccess, r.session)) := by
  cases inv with
  | curveSamePosition select scene =>
    exact round_trip_core sh' select s r (curveRun_members _ sh select s r hrun)
      (curveRun_output _ sh select s r hrun hstat).1
  | curveSpans0Count select scene =>
    exact round_trip_core sh' select s r (curveRun_members _ sh select s r hrun)
      (curveRun_output _ sh select s r hrun hstat).1
  | meshDoubleFace select host scene =>
    exact round_trip_core sh' select s r (meshRun_members _ _ _ _ sh host _ _ scene s r hrun hstat)
      (meshRun_output _ _ _ _ sh host _ _ scene s r hrun hstat).1
  | meshFace0Count select host scene =>
    exact round_trip_core sh' select s r (meshRun_members _ _ _ _ sh host _ _ scene s r hrun hstat)
      (meshRun_output _ _ _ _ sh host _ _ scene s r hrun hstat).1
  | meshFreeze select host scene =>
    exact round_trip_core sh' select s r (meshRun_members _ _ _ _ sh host _ _ scene s r hrun hstat)
      (meshRun_output _ _ _ _ sh host _ _ scene s r hrun hstat).1
  | meshNormalLock select host scene =>
    exact round_trip_core sh' select s r (meshRun_members _ _ _ _ sh host _ _ scene s r hrun hstat)
      (meshRun_output _ _ _ _ sh host _ _ scene s r hrun hstat).1
  | meshUVFlip flags indeterminate host scene =>
    exact round_trip_core sh' flags.select s r
      (meshRun_members _ _ _ _ sh host _ _ scene s r hrun hstat)
      (meshRun_output _ _ _ _ sh host _ _ scene s r hrun hstat).1
  | meshUVNegative flags indeterminate host scene =>
    exact round_trip_core sh' flags.select s r
      (meshRun_members _ _ _ _ sh host _ _ scene s r hrun hstat)
      (meshRun_output _ _ _ _ sh host _ _ scene s r hrun hstat).1
  | meshUVTilingOver flags indeterminate host scene =>
    exact round_trip_core sh' flags.select s r
      (meshRun_members _ _ _ _ sh host _ _ scene s r hrun hstat)
      (meshRun_output _ _ _ _ sh host _ _ scene s r hrun hstat).1

theorem undo_round_trip_witness :
    (checkMeshFace0Count.run shellOk (hostOf 1) true [meshNode 3 noPolygonGeom]
      session9).session.activeSelection = [SelItem.mk 3 none] ∧
    (undoIt shellOk
      (checkMeshFace0Count.run shellOk (hostOf 1) true [meshNode 3 noPolygonGeom] session9).cmd
      (checkMeshFace0Count.run shellOk (hostOf 1) true [meshNode 3 noPolygonGeom]
        session9).session).2.activeSelection = [SelItem.mk 9 none] ∧
    ((Invocation.meshFace0Count true (hostOf 1) [meshNode 3 noPolygonGeom]).select = true →
      shellOk.setActiveSelectionList = MStatus.kSuccess →
      (undoIt shellOk
        (checkMeshFace0Count.run shellOk (hostOf 1) true [meshNode 3 noPolygonGeom] session9).cmd
        (checkMeshFace0Count.run shellOk (hostOf 1) true [meshNode 3 noPolygonGeom]
          session9).session).1 = MStatus.kSuccess ∧
      (undoIt shellOk
        (checkMeshFace0Count.run shellOk (hostOf 1) true [meshNode 3 noPolygonGeom] session9).cmd
        (checkMeshFace0Count.run shellOk (hostOf 1) true [meshNode 3 noPolygonGeom]
          session9).session).2.activeSelection = session9.activeSelection ∧
      redoIt shellOk
        (checkMeshFace0Count.run shellOk (hostOf 1) true [meshNode 3 noPolygonGeom] session9).cmd
        (undoIt shellOk
          (checkMeshFace0Count.run shellOk (hostOf 1) true [meshNode 3 noPolygonGeom] session9).cmd
          (checkMeshFace0Count.run shellOk (hostOf 1) true [meshNode 3 noPolygonGeom]
            session9).session).2
        = (MStatus.kSuccess,
          (checkMeshFace0Count.run shellOk (hostOf 1) true [meshNode 3 noPolygonGeom]
            session9).session) ∧
      (checkMeshFace0Count.run shellOk (hostOf 1) true [meshNode 3 noPolygonGeom]
        session9).session.activeSelection
        = (checkMeshFace0Count.run shellOk (hostOf 1) true [meshNode 3 noPolygonGeom]
          session9).cmd._invalid ∧
      redoIt shellOk
        (checkMeshFace0Count.run shellOk (hostOf 1) true [meshNode 3 noPolygonGeom] session9).cmd
        (checkMeshFace0Count.run shellOk (hostOf 1) true [meshNode 3 noPolygonGeom]
          session9).session
        = (MStatus.kSuccess,
          (checkMeshFace0Count.run shellOk (hostOf 1) true [meshNode 3 noPolygonGeom]
            session9).session)) :=
  ⟨by decide!, by decide!,
    (undo_round_trip (Invocation.meshFace0Count true (hostOf 1) [meshNode 3 noPolygonGeom])
      shellOk shellOk session9 _ rfl (by decide!)).1⟩

/-! ### The bound of the CV loop -/

theorem numCVs_of_not_periodic (length : Nat) (form : Form) (h : form ≠ Form.kPeriodic) :
    checkCurveSamePosition.numCVs length form = length := by
  unfold checkCurveSamePosition.numCVs
  rw [if_neg h]

theorem numCVs_periodic (length : Nat) (h3 : 3 ≤ length) (hlen : length < 2 ^ 32) :
    checkCurveSamePosition.numCVs length Form.kPeriodic = length - 3 := by
  unfold checkCurveSamePosition.numCVs
  rw [if_pos rfl]
  omega

theorem numCVs_periodic_short (length : Nat) (h3 : length < 3) :
    checkCurveSamePosition.numCVs length Form.kPeriodic = 2 ^ 32 - 3 + length := by
  unfold checkCurveSamePosition.numCVs
  rw [if_pos rfl]
  omega

/-- A CV loop whose bound exceeds the array length reads past the array. -/
theorem cvLoop_outOfBounds (dagPath : MDagPath) (cvs : List Point) :
    ∀ (r i : Nat) (st : checkCurveSamePosition.ScanState), i ≤ cvs.length → cvs.length < i + r →
      checkCurveSamePosition.cvLoop dagPath cvs r i st = Except.error Fault.outOfBounds := by
  intro r
  induction r with
  | zero => intro i st h1 h2; omega
  | succ r ih =>
    intro i st h1 h2
    by_cases hi : i < cvs.length
    · rw [checkCurveSamePosition.cvLoop, List.getElem?_eq_getElem hi]
      exact ih (i + 1) _ (by omega) (by omega)
    · rw [checkCurveSamePosition.cvLoop, List.getElem?_eq_none (by omega)]

/-- For a non-periodic curve, and for a periodic curve with at least three CVs,
the CV loop stays inside the array and examines exactly the CVs below its
bound: all of them, respectively the first `length - 3`. -/
theorem cvLoop_in_bounds (dagPath : MDagPath) (cvs : List Point) (form : Form)
    (st : checkCurveSamePosition.ScanState) (hlen : cvs.length < 2 ^ 32)
    (h : form ≠ Form.kPeriodic ∨ 3 ≤ cvs.length) :
    checkCurveSamePosition.numCVs cvs.length form
      = (if form = Form.kPeriodic then cvs.length - 3 else cvs.length) ∧
    checkCurveSamePosition.cvLoop dagPath cvs (checkCurveSamePosition.numCVs cvs.length form) 0 st
      = Except.ok ((cvs.take (checkCurveSamePosition.numCVs cvs.length form)).foldl
          (checkCurveSamePosition.visitCV dagPath) st) := by
  have hn : checkCurveSamePosition.numCVs cvs.length form
      = (if form = Form.kPeriodic then cvs.length - 3 else cvs.length) := by
    by_cases hf : form = Form.kPeriodic
    · rw [if_pos hf]
      subst hf
      rcases h with h | h
      · exact absurd rfl h
      · exact numCVs_periodic cvs.length h hlen
    · rw [if_neg hf]
      exact numCVs_of_not_periodic cvs.length form hf
  refine ⟨hn, ?_⟩
  have hle : checkCurveSamePosition.numCVs cvs.length form ≤ cvs.length := by
    rw [hn]
    by_cases hf : form = Form.kPeriodic
    · rw [if_pos hf]; omega
    · rw [if_neg hf]
  have := checkCurveSamePosition.cvLoop_eq_foldl dagPath cvs
    (checkCurveSamePosition.numCVs cvs.length form) 0 st (by omega)
  simpa using this

/-- C22: the CV loop reads past the CV array of a periodic curve with fewer than
three CVs.  For a periodic curve with two CVs the bound `numCVs - 3` wraps to
4294967295, the loop reads index 2 of an array of length 2, and the run of
`doIt` is undefined from there. -/
theorem cv_loop_reads_past_short_periodic_curve :
    checkCurveSamePosition.numCVs 2 Form.kPeriodic = 4294967295 ∧
    checkCurveSamePosition.cvLoop 0 [(0, 0, 0), (1, 0, 0)]
        (checkCurveSamePosition.numCVs 2 Form.kPeriodic) 0
        (checkCurveSamePosition.ScanState.mk [] [])
      = Except.error Fault.outOfBounds ∧
    checkCurveSamePosition.doIt shortPeriodicScene = Except.error Fault.outOfBounds :=
  ⟨by decide!, rfl, rfl⟩

/-! ### The flags of the UV commands -/

theorem parseFlags_default_uvSet (select allUVSet indeterminate : Bool) :
    (parseFlags (UVFlags.mk select none allUVSet) indeterminate).uvSet = "map1" := rfl

theorem parseFlags_allUVSet_given (select : Bool) (uvSet : Option String) (indeterminate : Bool) :
    (parseFlags (UVFlags.mk select uvSet true) indeterminate).allUVSet = true := rfl

theorem parseFlags_allUVSet_not_given (select : Bool) (uvSet : Option String)
    (indeterminate : Bool) :
    (parseFlags (UVFlags.mk select uvSet false) indeterminate).allUVSet = indeterminate := rfl

theorem uvFlip_visitMesh_zero_polygons (taskData : TaskData) (invalidList : MSelectionList)
    (mesh : Mesh checkMeshUVFlip.Geom) (h1 : mesh.geom.fnMesh = MStatus.kSuccess)
    (h2 : mesh.geom.numPolygons = some 0) :
    checkMeshUVFlip.visitMesh taskData invalidList mesh = Step.next invalidList := by
  unfold checkMeshUVFlip.visitMesh
  rw [if_neg (not_not.2 h1), h2]
  rfl

theorem uvNegative_visitMesh_zero_polygons (taskData : TaskData) (invalidList : MSelectionList)
    (mesh : Mesh checkMeshUVNegative.Geom) (h1 : mesh.geom.fnMesh = MStatus.kSuccess)
    (h2 : mesh.geom.numPolygons = some 0) :
    checkMeshUVNegative.visitMesh taskData invalidList mesh = Step.next invalidList := by
  unfold checkMeshUVNegative.visitMesh
  rw [if_neg (not_not.2 h1), h2]
  rfl

theorem uvTiling_visitMesh_zero_polygons (taskData : TaskData) (invalidList : MSelectionList)
    (mesh : Mesh checkMeshUVTilingOver.Geom) (h1 : mesh.geom.fnMesh = MStatus.kSuccess)
    (h2 : mesh.geom.numPolygons = some 0) :
    checkMeshUVTilingOver.visitMesh taskData invalidList mesh = Step.next invalidList := by
  unfold checkMeshUVTilingOver.visitMesh
  rw [if_neg (not_not.2 h1), h2]
  rfl

theorem uvFlip_visitMesh_no_set (taskData : TaskData) (invalidList : MSelectionList)
    (mesh : Mesh checkMeshUVFlip.Geom) (n : Int) (uvSetNames : List String)
    (h1 : mesh.geom.fnMesh = MStatus.kSuccess) (h2 : mesh.geom.numPolygons = some n)
    (h3 : mesh.geom.getUVSetNames = some uvSetNames) (h4 : taskData.uvSet ∉ uvSetNames)
    (h5 : taskData.allUVSet = false) :
    checkMeshUVFlip.visitMesh taskData invalidList mesh = Step.next invalidList := by
  unfold checkMeshUVFlip.visitMesh
  rw [if_neg (not_not.2 h1), h2]
  by_cases hn : n = 0
  · simp [hn]
  · simp [hn, h3, h4, h5]

theorem uvNegative_visitMesh_no_set (taskData : TaskData) (invalidList : MSelectionList)
    (mesh : Mesh checkMeshUVNegative.Geom) (n : Int) (uvSetNames : List String)
    (h1 : mesh.geom.fnMesh = MStatus.kSuccess) (h2 : mesh.geom.numPolygons = some n)
    (h3 : mesh.geom.getUVSetNames = some uvSetNames) (h4 : taskData.uvSet ∉ uvSetNames)
    (h5 : taskData.allUVSet = false) :
    checkMeshUVNegative.visitMesh taskData invalidList mesh = Step.next invalidList := by
  unfold checkMeshUVNegative.visitMesh
  rw [if_neg (not_not.2 h1), h2]
  by_cases hn : n = 0
  · simp [hn]
  · simp [hn, h3, h4, h5]

theorem uvTiling_visitMesh_no_set (taskData : TaskData) (invalidList : MSelectionList)
    (mesh : Mesh checkMeshUVTilingOver.Geom) (n : Int) (uvSetNames : List String)
    (h1 : mesh.geom.fnMesh = MStatus.kSuccess) (h2 : mesh.geom.numPolygons = some n)
    (h3 : mesh.geom.getUVSetNames = some uvSetNames) (h4 : taskData.uvSet ∉ uvSetNames)
    (h5 : taskData.allUVSet = false) :
    checkMeshUVTilingOver.visitMesh taskData invalidList mesh = Step.next invalidList := by
  unfold checkMeshUVTilingOver.visitMesh
  rw [if_neg (not_not.2 h1), h2]
  by_cases hn : n = 0
  · simp [hn]
  · simp [hn, h3, h4, h5]

/-- C23: without `-allUVSet` the UV sets that are examined depend on the value
the unset member `allUVSet` happens to hold.  Called without any flag the checked
name is `map1`; on one mesh whose only UV set is `map2` each of the three UV
commands skips the mesh when the member reads as false, and examines `map2` and
reports the face, or the mesh, when it reads as true. -/
theorem unset_allUVSet_examines_other_sets :
    (parseFlags flagsNone false).uvSet = "map1" ∧ (parseFlags flagsNone true).uvSet = "map1" ∧
    (parseFlags flagsNone true).allUVSet = true ∧
    flipMap2Geom.getUVSetNames = some ["map2"] ∧
    checkMeshUVFlip.doIt (hostOf 1) flagsNone false [meshNode 0 flipMap2Geom]
      = (MStatus.kSuccess, []) ∧
    checkMeshUVFlip.doIt (hostOf 1) flagsNone true [meshNode 0 flipMap2Geom]
      = (MStatus.kSuccess, [SelItem.mk 0 (some 0)]) ∧
    negativeMap2Geom.getUVSetNames = some ["map2"] ∧
    checkMeshUVNegative.doIt (hostOf 1) flagsNone false [meshNode 0 negativeMap2Geom]
      = (MStatus.kSuccess, []) ∧
    checkMeshUVNegative.doIt (hostOf 1) flagsNone true [meshNode 0 negativeMap2Geom]
      = (MStatus.kSuccess, [SelItem.mk 0 (some 0)]) ∧
    tilingMap2Geom.getUVSetNames = some ["map2"] ∧
    checkMeshUVTilingOver.doIt (hostOf 1) flagsNone false [meshNode 0 tilingMap2Geom]
      = (MStatus.kSuccess, []) ∧
    checkMeshUVTilingOver.doIt (hostOf 1) flagsNone true [meshNode 0 tilingMap2Geom]
      = (MStatus.kSuccess, [SelItem.mk 0 none]) := by
  decide!

/-! ### `-uvSet S` against `-allUVSet` -/

theorem checkedSet_single (tdS tdAll : TaskData) (S name : String) (hS : tdS.uvSet = S)
    (hall : tdAll.allUVSet = true) :
    CheckedSet tdS [S] name ↔ CheckedSet tdAll [S] name := by
  unfold CheckedSet
  rw [hS, hall]
  simp only [List.mem_singleton, true_and, Bool.true_eq_false, false_and, or_false, and_self]
  cases tdS.allUVSet <;> simp

theorem checkedSet_of_allUVSet (td tdAll : TaskData) (uvSetNames : List String) (name : String)
    (hall : tdAll.allUVSet = true) (h : CheckedSet td uvSetNames name) :
    CheckedSet tdAll uvSetNames name := by
  unfold CheckedSet at h ⊢
  rcases h with h | h
  · exact Or.inl ⟨hall, h.2⟩
  · exact Or.inl ⟨hall, h.2.2⟩

theorem uvFlip_reported_of_checked (td td' : TaskData) (m : Mesh checkMeshUVFlip.Geom)
    (it : SelItem)
    (h : ∀ uvSetNames, m.geom.getUVSetNames = some uvSetNames →
      ∀ name, CheckedSet td uvSetNames name → CheckedSet td' uvSetNames name)
    (hr : checkMeshUVFlip.Reported td m it) : checkMeshUVFlip.Reported td' m it := by
  obtain ⟨n, uvSetNames, h1, h2, h3, f, h4, name, h5, h6, h7⟩ := hr
  exact ⟨n, uvSetNames, h1, h2, h3, f, h4, name, h uvSetNames h3 name h5, h6, h7⟩

theorem uvNegative_reported_of_checked (td td' : TaskData) (m : Mesh checkMeshUVNegative.Geom)
    (it : SelItem)
    (h : ∀ uvSetNames, m.geom.getUVSetNames = some uvSetNames →
      ∀ name, CheckedSet td uvSetNames name → CheckedSet td' uvSetNames name)
    (hr : checkMeshUVNegative.Reported td m it) : checkMeshUVNegative.Reported td' m it := by
  obtain ⟨n, uvSetNames, h1, h2, h3, f, h4, name, h5, h6, h7⟩ := hr
  exact ⟨n, uvSetNames, h1, h2, h3, f, h4, name, h uvSetNames h3 name h5, h6, h7⟩

theorem uvTiling_reported_of_checked (td td' : TaskData) (m : Mesh checkMeshUVTilingOver.Geom)
    (it : SelItem)
    (h : ∀ uvSetNames, m.geom.getUVSetNames = some uvSetNames →
      ∀ name, CheckedSet td uvSetNames name → CheckedSet td' uvSetNames name)
    (hr : checkMeshUVTilingOver.Reported td m it) : checkMeshUVTilingOver.Reported td' m it := by
  obtain ⟨⟨n, uvSetNames, h1, h2, h3, name, h5, h6⟩, h7⟩ := hr
  exact ⟨⟨n, uvSetNames, h1, h2, h3, name, h uvSetNames h3 name h5, h6⟩, h7⟩

theorem uvFlip_reported_path (td : TaskData) (m : Mesh checkMeshUVFlip.Geom) (it : SelItem)
    (hr : checkMeshUVFlip.Reported td m it) : it.path = m.path := by
  obtain ⟨n, uvSetNames, h1, h2, h3, f, h4, name, h5, h6, h7⟩ := hr
  rw [h7]

theorem uvNegative_reported_path (td : TaskData) (m : Mesh checkMeshUVNegative.Geom)
    (it : SelItem) (hr : checkMeshUVNegative.Reported td m it) : it.path = m.path := by
  obtain ⟨n, uvSetNames, h1, h2, h3, f, h4, name, h5, h6, h7⟩ := hr
  rw [h7]

theorem uvTiling_reported_path (td : TaskData) (m : Mesh checkMeshUVTilingOver.Geom)
    (it : SelItem) (hr : checkMeshUVTilingOver.Reported td m it) : it.path = m.path := by
  rw [hr.2]

/-- When no two meshes of the scene share a path, an entry with the path of the
mesh `m` that one run produces is produced by a second run as soon as the second
worker produces for `m` what the first does. -/
theorem entries_transfer {G : Type} (host : Host) (scene : List (Mesh G))
    (R R' : Mesh G → SelItem → Prop) (hpath : ∀ m it, R m it → it.path = m.path)
    (hnodup : (scene.map fun m => m.path).Nodup) (m : Mesh G) (hm : m ∈ scene)
    (hRR : ∀ it, R m it → R' m it) (it : SelItem) (hit : it.path = m.path)
    (h : ∃ m', InSomeRange host (collected scene) m' ∧ R m' it) :
    ∃ m', InSomeRange host (collected scene) m' ∧ R' m' it := by
  obtain ⟨m', hr, hR⟩ := h
  have hm' : m' ∈ scene := by
    obtain ⟨i, -, hi⟩ := hr
    exact ((mem_collected scene m').1 (mem_of_mem_slice _ _ _ _ hi)).1
  have e : m' = m :=
    List.inj_on_of_nodup_map hnodup hm' hm ((hpath m' it hR).symm.trans hit)
  subst e
  exact ⟨m', hr, hRR it hR⟩

theorem refines_of_mem {G : Type}
    (doIt : Host → UVFlags → Bool → List (Mesh G) → MStatus × MSelectionList)
    (getUVSetNames : G → Option (List String)) (MeshOk : Mesh G → Prop)
    (Reported : TaskData → Mesh G → SelItem → Prop)
    (hmem : ∀ (host : Host) (flags : UVFlags) (ind : Bool) (scene : List (Mesh G)),
      host.Ok scene → (∀ m ∈ scene, MeshOk m) →
      ∃ invalid, doIt host flags ind scene = (MStatus.kSuccess, invalid) ∧
        ∀ it, it ∈ invalid ↔
          ∃ m, InSomeRange host (collected scene) m ∧ Reported (parseFlags flags ind) m it)
    (hpath : ∀ td m it, Reported td m it → it.path = m.path)
    (hchk : ∀ (td td' : TaskData) (m : Mesh G) (it : SelItem),
      (∀ uvSetNames, getUVSetNames m.geom = some uvSetNames →
        ∀ name, CheckedSet td uvSetNames name → CheckedSet td' uvSetNames name) →
      Reported td m it → Reported td' m it) :
    UVSetRefinesAll doIt getUVSetNames MeshOk := by
  intro host scene S sel sel' u ind ind' hhost hok hnodup
  obtain ⟨invS, eS, hS⟩ := hmem host (UVFlags.mk sel (some S) false) ind scene hhost hok
  obtain ⟨invA, eA, hA⟩ := hmem host (UVFlags.mk sel' u true) ind' scene hhost hok
  rw [eS, eA]
  refine ⟨rfl, rfl, ?_⟩
  intro m hm it hit
  show (getUVSetNames m.geom = some [S] → (it ∈ invS ↔ it ∈ invA)) ∧ (it ∈ invS → it ∈ invA)
  rw [hS, hA]
  constructor
  · intro hnames
    constructor
    · exact entries_transfer host scene _ _ (hpath _) hnodup m hm
        (fun it' h => hchk _ _ m it'
          (fun names hn name hc => by
            rw [hnames] at hn
            cases hn
            exact (checkedSet_single _ _ S name rfl rfl).1 hc) h) it hit
    · exact entries_transfer host scene _ _ (hpath _) hnodup m hm
        (fun it' h => hchk _ _ m it'
          (fun names hn name hc => by
            rw [hnames] at hn
            cases hn
            exact (checkedSet_single (parseFlags (UVFlags.mk sel (some S) false) ind) _ S name
              rfl rfl).2 hc) h) it hit
  · exact entries_transfer host scene _ _ (hpath _) hnodup m hm
      (fun it' h => hchk _ _ m it'
        (fun names _ name hc => checkedSet_of_allUVSet _ _ names name rfl hc) h) it hit

/-- C24: in `checkMeshUVFlip`, `checkMeshUVNegative` and `checkMeshUVTilingOver`,
on a scene without failing host call, the run with `-uvSet S` and the run with
`-allUVSet` both succeed; for every mesh whose only UV set is `S` the two invalid
lists have the same entries for that mesh; and for every mesh, each entry the
run with `-uvSet S` lists for it is listed by the run with `-allUVSet`.  This
holds whatever the unset member `allUVSet` holds in the first run. -/
theorem uvSet_refines_allUVSet :
    UVSetRefinesAll checkMeshUVFlip.doIt (fun g => g.getUVSetNames) checkMeshUVFlip.MeshOk ∧
    UVSetRefinesAll checkMeshUVNegative.doIt (fun g => g.getUVSetNames)
      checkMeshUVNegative.MeshOk ∧
    UVSetRefinesAll checkMeshUVTilingOver.doIt (fun g => g.getUVSetNames)
      checkMeshUVTilingOver.MeshOk :=
  ⟨refines_of_mem _ _ _ checkMeshUVFlip.Reported
      (fun host flags ind scene hhost hok =>
        checkMeshUVFlip.uvFlip_doIt_mem host flags ind scene hhost hok)
      uvFlip_reported_path uvFlip_reported_of_checked,
    refines_of_mem _ _ _ checkMeshUVNegative.Reported
      (fun host flags ind scene hhost hok =>
        checkMeshUVNegative.uvNegative_doIt_mem host flags ind scene hhost hok)
      uvNegative_reported_path uvNegative_reported_of_checked,
    refines_of_mem _ _ _ checkMeshUVTilingOver.Reported
      (fun host flags ind scene hhost hok =>
        checkMeshUVTilingOver.uvTiling_doIt_mem host flags ind scene hhost hok)
      uvTiling_reported_path uvTiling_reported_of_checked⟩

theorem uvSet_refines_allUVSet_witness :
    SelItem.mk 0 (some 0)
      ∈ (checkMeshUVFlip.doIt (hostOf 1) (UVFlags.mk false (some "map2") false) false
        [meshNode 0 flipMap2Geom]).2 ∧
    (SelItem.mk 0 (some 0)
        ∈ (checkMeshUVFlip.doIt (hostOf 1) (UVFlags.mk false (some "map2") false) false
          [meshNode 0 flipMap2Geom]).2 ↔
      SelItem.mk 0 (some 0)
        ∈ (checkMeshUVFlip.doIt (hostOf 1) (UVFlags.mk false none true) false
          [meshNode 0 flipMap2Geom]).2) :=
  ⟨by decide!,
    ((uvSet_refines_allUVSet.1 (hostOf 1) [meshNode 0 flipMap2Geom] "map2" false false none false
      false ⟨rfl, rfl, fun _ => rfl, by simp [meshNode]⟩
      (by
        intro m hm
        simp only [List.mem_singleton] at hm
        subst hm
        exact ⟨rfl, by simp [meshNode, flipMap2Geom], by simp [meshNode, flipMap2Geom], rfl⟩)
      (by simp)).2.2 (meshNode 0 flipMap2Geom) (List.mem_singleton.2 rfl)
      (SelItem.mk 0 (some 0)) rfl).1 rfl⟩

/-! ### No object is listed twice -/

theorem entryCount_le_one (l : MSelectionList) (h : OnePerObject l) (p : MDagPath) :
    entryCount l p ≤ 1 := by
  have e : entryCount l p = List.count (SelItem.mk p none) l := by
    unfold entryCount
    rw [List.count_eq_countP]
    apply List.countP_congr
    intro it hit
    have hc := h.2 it hit
    cases it with
    | mk q c =>
      simp only at hc
      subst hc
      simp
  rw [e]
  exact List.nodup_iff_count_le_one.1 h.1 _

theorem addIfAbsent_onePerObject (l : MSelectionList) (p : MDagPath) (h : OnePerObject l) :
    OnePerObject (checkCurveSamePosition.addIfAbsent l p) := by
  unfold checkCurveSamePosition.addIfAbsent MSelectionList.hasItem MSelectionList.add
  by_cases hp : SelItem.mk p none ∈ l
  · simp only [hp, decide_True, if_true]
    exact h
  · simp only [hp, decide_False, Bool.false_eq_true, if_false]
    constructor
    · rw [List.nodup_append]
      refine ⟨h.1, List.nodup_singleton _, ?_⟩
      intro a ha hb
      simp only [List.mem_singleton] at hb
      subst hb
      exact hp ha
    · intro it hit
      rw [List.mem_append] at hit
      rcases hit with hit | hit
      · exact h.2 it hit
      · simp only [List.mem_singleton] at hit
        subst hit
        rfl

theorem visitCV_onePerObject (dagPath : MDagPath) (st : checkCurveSamePosition.ScanState)
    (cvp : Point) (h : OnePerObject st.invalid) :
    OnePerObject (checkCurveSamePosition.visitCV dagPath st cvp).invalid := by
  unfold checkCurveSamePosition.visitCV
  cases hm : checkCurveSamePosition.mapFind st.check_map cvp with
  | none => exact h
  | some first =>
    exact addIfAbsent_onePerObject _ _ (addIfAbsent_onePerObject _ _ h)

theorem cvLoop_onePerObject (dagPath : MDagPath) (cvs : List Point) :
    ∀ (r i : Nat) (st st' : checkCurveSamePosition.ScanState), OnePerObject st.invalid →
      checkCurveSamePosition.cvLoop dagPath cvs r i st = Except.ok st' →
      OnePerObject st'.invalid := by
  intro r
  induction r with
  | zero =>
    intro i st st' h e
    simp only [checkCurveSamePosition.cvLoop, Except.ok.injEq] at e
    subst e
    exact h
  | succ r ih =>
    intro i st st' h e
    rw [checkCurveSamePosition.cvLoop] at e
    cases hc : cvs[i]? with
    | none =>
      rw [hc] at e
      cases e
    | some cvp =>
      rw [hc] at e
      exact ih (i + 1) _ st' (visitCV_onePerObject dagPath st cvp h) e

theorem visitNode_onePerObject (st st' : checkCurveSamePosition.ScanState) (node : CurveNode)
    (h : OnePerObject st.invalid) (e : checkCurveSamePosition.visitNode st node = Except.ok st') :
    OnePerObject st'.invalid := by
  unfold checkCurveSamePosition.visitNode at e
  split at e
  · cases e
  · split at e
    · cases e
    · split at e
      · cases e
        exact h
      · split at e
        · cases e
          exact h
        · split at e
          · cases e
          · split at e
            · cases e
            · split at e
              · cases e
              · exact cvLoop_onePerObject _ _ _ _ _ _ h e

theorem dagLoop_onePerObject (scene : List CurveNode) :
    ∀ (st st' : checkCurveSamePosition.ScanState), OnePerObject st.invalid →
      checkCurveSamePosition.dagLoop st scene = Except.ok st' → OnePerObject st'.invalid := by
  induction scene with
  | nil =>
    intro st st' h e
    simp only [checkCurveSamePosition.dagLoop, Except.ok.injEq] at e
    subst e
    exact h
  | cons node rest ih =>
    intro st st' h e
    rw [checkCurveSamePosition.dagLoop] at e
    cases hv : checkCurveSamePosition.visitNode st node with
    | error err =>
      rw [hv] at e
      cases e
    | ok st1 =>
      rw [hv] at e
      exact ih st1 st' (visitNode_onePerObject st st1 node h hv) e

/-- The invalid list of `checkCurveSamePosition` has no entry twice. -/
theorem samePosition_onePerObject (scene : List CurveNode) (invalid : MSelectionList)
    (e : checkCurveSamePosition.doIt scene = Except.ok invalid) : OnePerObject invalid := by
  unfold checkCurveSamePosition.doIt at e
  cases hd : checkCurveSamePosition.dagLoop (checkCurveSamePosition.ScanState.mk [] []) scene with
  | error err =>
    rw [hd] at e
    cases e
  | ok st =>
    rw [hd] at e
    simp only [Except.ok.injEq] at e
    subst e
    exact dagLoop_onePerObject scene _ st ⟨List.nodup_nil, fun _ h => absurd h (List.not_mem_nil _)⟩
      hd

theorem mergeItem_nodup (l : MSelectionList) (it : SelItem) (h : l.Nodup) :
    (MSelectionList.mergeItem l it).Nodup := by
  unfold MSelectionList.mergeItem
  by_cases hi : it ∈ l
  · rw [if_pos hi]
    exact h
  · rw [if_neg hi, List.nodup_append]
    refine ⟨h, List.nodup_singleton _, ?_⟩
    intro a ha hb
    simp only [List.mem_singleton] at hb
    subst hb
    exact hi ha

theorem merge_nodup (other : MSelectionList) :
    ∀ l : MSelectionList, l.Nodup → (l.merge other).Nodup := by
  induction other with
  | nil => intro l h; exact h
  | cons x rest ih =>
    intro l h
    have e : l.merge (x :: rest) = (MSelectionList.mergeItem l x).merge rest := rfl
    rw [e]
    exact ih _ (mergeItem_nodup l x h)

theorem merge_onePerObject (l other : MSelectionList) (hl : OnePerObject l)
    (ho : WholeObjects other) : OnePerObject (l.merge other) := by
  refine ⟨merge_nodup other l hl.1, ?_⟩
  intro it hit
  rcases (mem_merge other l it).1 hit with h | h
  · exact hl.2 it h
  · exact ho it h

theorem mergeLoop_onePerObject (mergeStat : Nat → MStatus) (tds : List TdResult)
    (htds : ∀ td ∈ tds, WholeObjects td.invalidList) :
    ∀ (i : Nat) (inv : MSelectionList) (st : MStatus), OnePerObject inv →
      OnePerObject (mergeLoop mergeStat i tds inv st).1 := by
  induction tds with
  | nil => intro i inv st h; exact h
  | cons td rest ih =>
    intro i inv st h
    have h1 := htds td (List.mem_cons_self _ _)
    have ih' := ih (fun t ht => htds t (List.mem_cons_of_mem _ ht))
    rw [mergeLoop]
    split
    · split
      · exact h
      · split
        · exact merge_onePerObject inv td.invalidList h h1
        · exact ih' _ _ _ (merge_onePerObject inv td.invalidList h h1)
    · split
      · exact h
      · exact ih' _ _ _ h

theorem tdLoop_holds {G : Type} (visit : MSelectionList → Mesh G → Step)
    (P : MSelectionList → Prop) (hvisit : ∀ inv m, P inv → (visit inv m).Holds P) :
    ∀ (meshes : List (Mesh G)) (inv : MSelectionList), P inv →
      P (tdLoop visit inv meshes).invalidList := by
  intro meshes
  induction meshes with
  | nil => intro inv h; exact h
  | cons m rest ih =>
    intro inv h
    have hv := hvisit inv m h
    rw [tdLoop]
    cases hs : visit inv m with
    | next inv' =>
      rw [hs] at hv
      exact ih inv' hv
    | ret td =>
      rw [hs] at hv
      exact hv

theorem wholeObjects_add (l : MSelectionList) (p : MDagPath) (h : WholeObjects l) :
    WholeObjects (l.add p none) := by
  intro it hit
  unfold MSelectionList.add at hit
  rw [List.mem_append] at hit
  rcases hit with hit | hit
  · exact h it hit
  · simp only [List.mem_singleton] at hit
    subst hit
    rfl

theorem uvTiling_setLoop_whole (g : checkMeshUVTilingOver.Geom) (dagPath : MDagPath)
    (uvSetNames : List String) :
    ∀ inv : MSelectionList, WholeObjects inv →
      WholeObjects (checkMeshUVTilingOver.setLoop g dagPath uvSetNames inv).invalidList := by
  induction uvSetNames with
  | nil => intro inv h; exact h
  | cons name rest ih =>
    intro inv h
    rw [checkMeshUVTilingOver.setLoop]
    split
    · exact h
    · split
      · exact wholeObjects_add inv dagPath h
      · exact ih _ (wholeObjects_add inv dagPath h)
    · split
      · exact h
      · exact ih _ h

theorem uvTiling_visitMesh_whole (taskData : TaskData) (inv : MSelectionList)
    (mesh : Mesh checkMeshUVTilingOver.Geom) (h : WholeObjects inv) :
    (checkMeshUVTilingOver.visitMesh taskData inv mesh).Holds WholeObjects := by
  unfold checkMeshUVTilingOver.visitMesh
  split
  · exact h
  · split
    · exact h
    · split
      · exact h
      · split
        · exact h
        · split
          · exact h
          · split
            · split
              · rename_i e
                have hl := congrArg TdResult.invalidList e
                simp only at hl
                rw [← hl]
                exact uvTiling_setLoop_whole _ _ _ inv h
              · rename_i e
                have hl := congrArg TdResult.invalidList e
                simp only at hl
                rw [← hl]
                exact uvTiling_setLoop_whole _ _ _ inv h
            · split
              · exact h
              · exact wholeObjects_add inv mesh.path h
              · exact h

/-- The list the parallel region leaves has no entry twice when every worker
lists whole objects only. -/
theorem searchMesh_onePerObject {G : Type} (worker : List (Mesh G) → TdResult) (host : Host)
    (meshes : List (Mesh G)) (hw : ∀ l, WholeObjects (worker l).invalidList) :
    OnePerObject (searchMesh worker host meshes).1 := by
  unfold searchMesh
  apply mergeLoop_onePerObject
  · intro td htd
    unfold runTasks at htd
    rw [List.mem_map] at htd
    obtain ⟨i, -, e⟩ := htd
    rw [← e]
    exact hw _
  · exact ⟨List.nodup_nil, fun _ h => absurd h (List.not_mem_nil _)⟩

theorem meshDoIt_onePerObject {G : Type} (checkSize : Bool) (worker : List (Mesh G) → TdResult)
    (host : Host) (scene : List (Mesh G)) (hw : ∀ l, WholeObjects (worker l).invalidList) :
    OnePerObject (meshDoIt checkSize worker host scene).2 := by
  have hnil : OnePerObject [] := ⟨List.nodup_nil, fun _ h => absurd h (List.not_mem_nil _)⟩
  unfold meshDoIt
  split
  · exact hnil
  · split
    · exact hnil
    · split
      · exact hnil
      · split
        · rename_i e
          have hl := congrArg Prod.fst e
          simp only at hl
          rw [← hl]
          exact searchMesh_onePerObject worker host _ hw
        · exact hnil

/-- The invalid list of `checkMeshUVTilingOver` has no entry twice. -/
theorem uvTiling_onePerObject (host : Host) (flags : UVFlags) (indeterminate : Bool)
    (scene : List (Mesh checkMeshUVTilingOver.Geom)) :
    OnePerObject (checkMeshUVTilingOver.doIt host flags indeterminate scene).2 :=
  meshDoIt_onePerObject false _ host scene
    (fun l => tdLoop_holds _ WholeObjects
      (fun inv m h => uvTiling_visitMesh_whole _ inv m h) l []
      (fun _ h => absurd h (List.not_mem_nil _)))

/-- C25: no object is listed twice.  When `checkCurveSamePosition` runs to its
end, its invalid list has at most one entry for each curve `p`; the invalid list
of `checkMeshUVTilingOver` has at most one entry for each mesh `p`, whatever the
flags, the scene and the outcome of the host calls are. -/
theorem no_object_listed_twice :
    (∀ (scene : List CurveNode) (invalid : MSelectionList) (p : MDagPath),
      checkCurveSamePosition.doIt scene = Except.ok invalid → entryCount invalid p ≤ 1) ∧
    (∀ (host : Host) (flags : UVFlags) (indeterminate : Bool)
        (scene : List (Mesh checkMeshUVTilingOver.Geom)) (p : MDagPath),
      entryCount (checkMeshUVTilingOver.doIt host flags indeterminate scene).2 p ≤ 1) :=
  ⟨fun scene invalid p e => entryCount_le_one invalid (samePosition_onePerObject scene invalid e) p,
    fun host flags indeterminate scene p =>
      entryCount_le_one _ (uvTiling_onePerObject host flags indeterminate scene) p⟩

theorem no_object_listed_twice_witness :
    checkCurveSamePosition.doIt twiceSharedScene
      = Except.ok [SelItem.mk 2 none, SelItem.mk 1 none, SelItem.mk 3 none] ∧
    entryCount [SelItem.mk 2 none, SelItem.mk 1 none, SelItem.mk 3 none] 1 ≤ 1 ∧
    entryCount
      (checkMeshUVTilingOver.doIt (hostOf 1) (UVFlags.mk false none true) false
        [meshNode 0 (tilingGeom ["map1", "map2"])]).2 0 ≤ 1 :=
  ⟨rfl, no_object_listed_twice.1 twiceSharedScene _ 1 rfl,
    no_object_listed_twice.2 (hostOf 1) (UVFlags.mk false none true) false
      [meshNode 0 (tilingGeom ["map1", "map2"])] 0⟩

/-! ### Intermediate objects -/

theorem getAllMeshLoop_collected {G : Type} (scene : List (Mesh G)) (h : MeshWalkOk scene) :
    getAllMeshLoop scene = getAllMeshLoop (collected scene) := by
  induction scene with
  | nil => rfl
  | cons node rest ih =>
    have ih' := ih (fun n hn => h n (List.mem_cons_of_mem _ hn))
    cases hi : node.isIntermediateObject with
    | true =>
      have hc : collected (node :: rest) = collected rest := by
        unfold collected
        simp [List.filter_cons, hi]
      obtain ⟨h1, h2⟩ := h node (List.mem_cons_self _ _) hi
      rw [hc, ← ih']
      simp only [getAllMeshLoop, h1, h2, ne_eq, not_true_eq_false, if_false, hi, if_true]
      cases getAllMeshLoop rest <;> rfl
    | false =>
      have hc : collected (node :: rest) = node :: collected rest := by
        unfold collected
        simp [List.filter_cons, hi]
      rw [hc]
      simp only [getAllMeshLoop, ih']

theorem getAllMesh_collected {G : Type} (host : Host) (scene : List (Mesh G))
    (h : MeshWalkOk scene) : getAllMesh host scene = getAllMesh host (collected scene) := by
  unfold getAllMesh
  rw [getAllMeshLoop_collected scene h]

theorem meshRun_collected {G : Type} (checksArgs checkSize releaseOnInitFailure : Bool)
    (worker : List (Mesh G) → TdResult) (sh : Shell) (host : Host) (select flagsOk : Bool)
    (scene : List (Mesh G)) (s : Session) (h : MeshWalkOk scene) :
    meshRun checksArgs checkSize releaseOnInitFailure worker sh host select flagsOk scene s
      = meshRun checksArgs checkSize releaseOnInitFailure worker sh host select flagsOk
          (collected scene) s := by
  unfold meshRun
  rw [getAllMesh_collected host scene h]

theorem samePosition_dagLoop_collected (scene : List CurveNode) (h : CurveWalkOk scene) :
    ∀ st : checkCurveSamePosition.ScanState,
      checkCurveSamePosition.dagLoop st scene
        = checkCurveSamePosition.dagLoop st (curvesCollected scene) := by
  induction scene with
  | nil => intro st; rfl
  | cons node rest ih =>
    intro st
    have ih' := ih (fun n hn => h n (List.mem_cons_of_mem _ hn))
    cases hi : node.isIntermediateObject with
    | true =>
      have hc : curvesCollected (node :: rest) = curvesCollected rest := by
        unfold curvesCollected
        simp [List.filter_cons, hi]
      obtain ⟨h1, h2⟩ := h node (List.mem_cons_self _ _) hi
      have hv : checkCurveSamePosition.visitNode st node = Except.ok st := by
        unfold checkCurveSamePosition.visitNode
        cases hp : node.getPath with
        | none => exact absurd hp h1
        | some p => simp [h2, hi]
      rw [hc, checkCurveSamePosition.dagLoop, hv]
      exact ih' st
    | false =>
      have hc : curvesCollected (node :: rest) = node :: curvesCollected rest := by
        unfold curvesCollected
        simp [List.filter_cons, hi]
      rw [hc, checkCurveSamePosition.dagLoop, checkCurveSamePosition.dagLoop]
      cases checkCurveSamePosition.visitNode st node with
      | error e => rfl
      | ok st1 => exact ih' st1

theorem spans0_dagLoop_collected (scene : List CurveNode) (h : CurveWalkOk scene) :
    ∀ invalid : MSelectionList,
      checkCurveSpans0Count.dagLoop invalid scene
        = checkCurveSpans0Count.dagLoop invalid (curvesCollected scene) := by
  induction scene with
  | nil => intro invalid; rfl
  | cons node rest ih =>
    intro invalid
    have ih' := ih (fun n hn => h n (List.mem_cons_of_mem _ hn))
    cases hi : node.isIntermediateObject with
    | true =>
      have hc : curvesCollected (node :: rest) = curvesCollected rest := by
        unfold curvesCollected
        simp [List.filter_cons, hi]
      obtain ⟨h1, h2⟩ := h node (List.mem_cons_self _ _) hi
      have hv : checkCurveSpans0Count.visitNode invalid node = Except.ok invalid := by
        unfold checkCurveSpans0Count.visitNode
        cases hp : node.getPath with
        | none => exact absurd hp h1
        | some p => simp [h2, hi]
      rw [hc, checkCurveSpans0Count.dagLoop, hv]
      exact ih' invalid
    | false =>
      have hc : curvesCollected (node :: rest) = node :: curvesCollected rest := by
        unfold curvesCollected
        simp [List.filter_cons, hi]
      rw [hc, checkCurveSpans0Count.dagLoop, checkCurveSpans0Count.dagLoop]
      cases checkCurveSpans0Count.visitNode invalid node with
      | error e => rfl
      | ok inv1 => exact ih' inv1

/-- A run on a scene is the run on the scene without its intermediate objects. -/
theorem run_withoutIntermediate (inv : Invocation) (sh : Shell) (s : Session)
    (h : inv.IntermediateWalkOk) : inv.run sh s = inv.withoutIntermediate.run sh s := by
  cases inv with
  | curveSamePosition select scene =>
    show curveRun (checkCurveSamePosition.doIt scene) sh select s
      = curveRun (checkCurveSamePosition.doIt (curvesCollected scene)) sh select s
    unfold checkCurveSamePosition.doIt
    rw [samePosition_dagLoop_collected scene h]
  | curveSpans0Count select scene =>
    show curveRun (checkCurveSpans0Count.doIt scene) sh select s
      = curveRun (checkCurveSpans0Count.doIt (curvesCollected scene)) sh select s
    unfold checkCurveSpans0Count.doIt
    rw [spans0_dagLoop_collected scene h]
  | meshDoubleFace select host scene =>
    exact congrArg Except.ok (meshRun_collected _ _ _ _ sh host _ _ scene s h)
  | meshFace0Count select host scene =>
    exact congrArg Except.ok (meshRun_collected _ _ _ _ sh host _ _ scene s h)
  | meshFreeze select host scene =>
    exact congrArg Except.ok (meshRun_collected _ _ _ _ sh host _ _ scene s h)
  | meshNormalLock select host scene =>
    exact congrArg Except.ok (meshRun_collected _ _ _ _ sh host _ _ scene s h)
  | meshUVFlip flags indeterminate host scene =>
    exact congrArg Except.ok (meshRun_collected _ _ _ _ sh host _ _ scene s h)
  | meshUVNegative flags indeterminate host scene =>
    exact congrArg Except.ok (meshRun_collected _ _ _ _ sh host _ _ scene s h)
  | meshUVTilingOver flags indeterminate host scene =>
    exact congrArg Except.ok (meshRun_collected _ _ _ _ sh host _ _ scene s h)

theorem pathsIn_nil (S : List MDagPath) : PathsIn S [] :=
  fun _ h => absurd h (List.not_mem_nil _)

theorem pathsIn_add (S : List MDagPath) (l : MSelectionList) (p : MDagPath) (c : Option Nat)
    (h : PathsIn S l) (hp : p ∈ S) : PathsIn S (l.add p c) := by
  intro it hit
  unfold MSelectionList.add at hit
  rw [List.mem_append] at hit
  rcases hit with hit | hit
  · exact h it hit
  · simp only [List.mem_singleton] at hit
    subst hit
    exact hp

theorem tdLoop_holds_of_mem {G : Type} (visit : MSelectionList → Mesh G → Step)
    (P : MSelectionList → Prop) :
    ∀ (meshes : List (Mesh G)) (inv : MSelectionList),
      (∀ inv', ∀ m ∈ meshes, P inv' → (visit inv' m).Holds P) → P inv →
      P (tdLoop visit inv meshes).invalidList := by
  intro meshes
  induction meshes with
  | nil => intro inv _ h; exact h
  | cons m rest ih =>
    intro inv hvisit h
    have hv := hvisit inv m (List.mem_cons_self _ _) h
    rw [tdLoop]
    cases hs : visit inv m with
    | next inv' =>
      rw [hs] at hv
      exact ih inv' (fun inv'' m' hm' => hvisit inv'' m' (List.mem_cons_of_mem _ hm')) hv
    | ret td =>
      rw [hs] at hv
      exact hv

theorem mergeLoop_subset (mergeStat : Nat → MStatus) (tds : List TdResult) :
    ∀ (i : Nat) (inv : MSelectionList) (st : MStatus) (it : SelItem),
      it ∈ (mergeLoop mergeStat i tds inv st).1 → it ∈ inv ∨ ∃ td ∈ tds, it ∈ td.invalidList := by
  induction tds with
  | nil => intro i inv st it h; exact Or.inl h
  | cons td rest ih =>
    intro i inv st it h
    have key : ∀ j inv' st', (∀ it', it' ∈ inv' → it' ∈ inv ∨ it' ∈ td.invalidList) →
        it ∈ (mergeLoop mergeStat j rest inv' st').1 →
        it ∈ inv ∨ ∃ td' ∈ td :: rest, it ∈ td'.invalidList := by
      intro j inv' st' hinv' hit
      rcases ih j inv' st' it hit with h1 | ⟨td', htd', h1⟩
      · rcases hinv' it h1 with h2 | h2
        · exact Or.inl h2
        · exact Or.inr ⟨td, List.mem_cons_self _ _, h2⟩
      · exact Or.inr ⟨td', List.mem_cons_of_mem _ htd', h1⟩
    have hmerge : ∀ it', it' ∈ inv.merge td.invalidList → it' ∈ inv ∨ it' ∈ td.invalidList :=
      fun it' h' => (mem_merge td.invalidList inv it').1 h'
    rw [mergeLoop] at h
    split at h
    · split at h
      · exact Or.inl h
      · split at h
        · rcases hmerge it h with h2 | h2
          · exact Or.inl h2
          · exact Or.inr ⟨td, List.mem_cons_self _ _, h2⟩
        · exact key _ _ _ hmerge h
    · split at h
      · exact Or.inl h
      · exact key _ _ _ (fun it' h' => Or.inl h') h

theorem searchMesh_paths {G : Type} (worker : List (Mesh G) → TdResult) (host : Host)
    (meshes : List (Mesh G))
    (hw : ∀ l : List (Mesh G), (∀ m ∈ l, m ∈ meshes) →
      PathsIn (meshes.map fun m => m.path) (worker l).invalidList) :
    PathsIn (meshes.map fun m => m.path) (searchMesh worker host meshes).1 := by
  intro it hit
  unfold searchMesh at hit
  rcases mergeLoop_subset _ _ _ _ _ it hit with h | ⟨td, htd, h⟩
  · exact absurd h (List.not_mem_nil _)
  · unfold runTasks at htd
    rw [List.mem_map] at htd
    obtain ⟨i, -, e⟩ := htd
    rw [← e] at h
    exact hw _ (fun m hm => mem_of_mem_slice _ _ _ m hm) it h

theorem getAllMeshLoop_some {G : Type} (scene : List (Mesh G)) :
    ∀ meshes, getAllMeshLoop scene = some meshes → meshes = collected scene := by
  induction scene with
  | nil =>
    intro meshes h
    simp only [getAllMeshLoop, Option.some.injEq] at h
    exact h.symm
  | cons node rest ih =>
    intro meshes h
    rw [getAllMeshLoop] at h
    split at h
    · cases h
    · split at h
      · cases h
      · split at h
        · cases h
        · rename_i meshes' e
          have hr := ih meshes' e
          cases hi : node.isIntermediateObject with
          | true =>
            simp only [hi, if_true, Option.some.injEq] at h
            subst h
            rw [hr]
            unfold collected
            simp [List.filter_cons, hi]
          | false =>
            simp only [hi, Bool.false_eq_true, if_false, Option.some.injEq] at h
            subst h
            rw [hr]
            unfold collected
            simp [List.filter_cons, hi]

theorem getAllMesh_some {G : Type} (host : Host) (scene meshes : List (Mesh G))
    (h : getAllMesh host scene = some meshes) : meshes = collected scene := by
  unfold getAllMesh at h
  split at h
  · cases h
  · exact getAllMeshLoop_some scene meshes h

/-- Every entry of `_invalid` after a run of a mesh command has the path of a
collected mesh, when the worker lists paths of the meshes it is given only. -/
theorem meshRun_paths {G : Type} (checksArgs checkSize releaseOnInitFailure : Bool)
    (worker : List (Mesh G) → TdResult) (sh : Shell) (host : Host) (select flagsOk : Bool)
    (scene : List (Mesh G)) (s : Session)
    (hw : ∀ (S : List MDagPath) (l : List (Mesh G)), (∀ m ∈ l, m.path ∈ S) →
      PathsIn S (worker l).invalidList) :
    PathsIn ((collected scene).map fun m => m.path)
      (meshRun checksArgs checkSize releaseOnInitFailure worker sh host select flagsOk scene
        s).cmd._invalid := by
  unfold meshRun
  by_cases h1 : (checksArgs && decide (sh.argParser ≠ MStatus.kSuccess)) = true
  · simp only [h1, if_true]
    exact pathsIn_nil _
  · simp only [h1, Bool.false_eq_true, if_false]
    by_cases h2 : (!flagsOk) = true
    · simp only [h2, if_true]
      rw [selectFlag_invalid]
      exact pathsIn_nil _
    · simp only [h2, Bool.false_eq_true, if_false]
      cases hm : getAllMesh host scene with
      | none =>
        simp only []
        rw [selectFlag_invalid]
        exact pathsIn_nil _
      | some meshes =>
        simp only []
        have hc := getAllMesh_some host scene meshes hm
        by_cases h3 : (checkSize && decide (meshes.length = 0)) = true
        · simp only [h3, if_true]
          rw [finish_cmd, selectFlag_invalid]
          exact pathsIn_nil _
        · simp only [h3, Bool.false_eq_true, if_false]
          by_cases h4 : host.poolInit ≠ MStatus.kSuccess
          · rw [if_pos h4]
            simp only []
            rw [selectFlag_invalid]
            exact pathsIn_nil _
          · rw [if_neg h4]
            have hs := searchMesh_paths worker host meshes
              (fun l hl => hw _ l (fun m hm' => List.mem_map.2 ⟨m, hl m hm', rfl⟩))
            cases hsm : searchMesh worker host meshes with
            | mk inv st =>
              rw [hsm] at hs
              cases st with
              | kFailure =>
                simp only []
                rw [selectFlag_invalid]
                exact pathsIn_nil _
              | kSuccess =>
                simp only []
                rw [finish_cmd, ← hc]
                exact hs

theorem face0_worker_paths (S : List MDagPath) (l : List (Mesh checkMeshFace0Count.Geom))
    (hl : ∀ m ∈ l, m.path ∈ S) :
    PathsIn S (checkMeshFace0Count.searchMeshFace0Count l).invalidList := by
  apply tdLoop_holds_of_mem _ (PathsIn S) l [] _ (pathsIn_nil S)
  intro inv m hm h
  have hp := hl m hm
  unfold checkMeshFace0Count.visitMesh
  repeat' split
  all_goals first | exact h | exact pathsIn_add _ _ _ _ h hp

theorem normalLock_worker_paths (S : List MDagPath) (l : List (Mesh checkMeshNormalLock.Geom))
    (hl : ∀ m ∈ l, m.path ∈ S) :
    PathsIn S (checkMeshNormalLock.searchMeshNormalLockTd l).invalidList := by
  apply tdLoop_holds_of_mem _ (PathsIn S) l [] _ (pathsIn_nil S)
  intro inv m hm h
  have hp := hl m hm
  unfold checkMeshNormalLock.visitMesh
  repeat' split
  all_goals first | exact h | exact pathsIn_add _ _ _ _ h hp

theorem freeze_worker_paths (S : List MDagPath) (l : List (Mesh checkMeshFreeze.Geom))
    (hl : ∀ m ∈ l, m.path ∈ S) :
    PathsIn S (checkMeshFreeze.searchMeshFreezeTd l).invalidList := by
  apply tdLoop_holds_of_mem _ (PathsIn S) l [] _ (pathsIn_nil S)
  intro inv m hm h
  have hp := hl m hm
  unfold checkMeshFreeze.visitMesh
  repeat' split
  all_goals first | exact h | exact pathsIn_add _ _ _ _ h hp

theorem doubleFace_faceLoop_paths (S : List MDagPath) (g : checkMeshDoubleFace.Geom)
    (dagPath : MDagPath) (hp : dagPath ∈ S) (ids : List Nat) :
    ∀ (remaining faceId : Nat) (inv : MSelectionList), PathsIn S inv →
      PathsIn S (checkMeshDoubleFace.faceLoop g dagPath ids remaining faceId inv).invalidList := by
  intro remaining
  induction remaining with
  | zero => intro faceId inv h; exact h
  | succ r ih =>
    intro faceId inv h
    rw [checkMeshDoubleFace.faceLoop]
    repeat' split
    all_goals first | exact h | exact ih _ _ h | exact ih _ _ (pathsIn_add _ _ _ _ h hp)

theorem doubleFace_worker_paths (S : List MDagPath) (l : List (Mesh checkMeshDoubleFace.Geom))
    (hl : ∀ m ∈ l, m.path ∈ S) :
    PathsIn S (checkMeshDoubleFace.searchDoubleFaceTd l).invalidList := by
  apply tdLoop_holds_of_mem _ (PathsIn S) l [] _ (pathsIn_nil S)
  intro inv m hm h
  have hp := hl m hm
  unfold checkMeshDoubleFace.visitMesh
  split
  · exact h
  · split
    · exact h
    · split
      · exact h
      · split
        · exact h
        · split
          · exact h
          · split
            · rename_i e
              have he := congrArg TdResult.invalidList e
              simp only at he
              rw [← he]
              exact doubleFace_faceLoop_paths S _ _ hp _ _ _ _ h
            · rename_i e
              have he := congrArg TdResult.invalidList e
              simp only at he
              rw [← he]
              exact doubleFace_faceLoop_paths S _ _ hp _ _ _ _ h

theorem uvFlip_setLoop_paths (S : List MDagPath) (g : checkMeshUVFlip.Geom) (dagPath : MDagPath)
    (hp : dagPath ∈ S) (f : Nat) (uvSetNames : List String) :
    ∀ inv : MSelectionList, PathsIn S inv →
      PathsIn S (checkMeshUVFlip.setLoop g dagPath f uvSetNames inv) := by
  induction uvSetNames with
  | nil => intro inv h; exact h
  | cons name rest ih =>
    intro inv h
    rw [checkMeshUVFlip.setLoop]
    split
    · exact ih _ (pathsIn_add _ _ _ _ h hp)
    · exact ih _ h

theorem uvFlip_faceLoop_paths (S : List MDagPath) (taskData : TaskData)
    (g : checkMeshUVFlip.Geom) (dagPath : MDagPath) (hp : dagPath ∈ S)
    (uvSetNames : List String) :
    ∀ (remaining f : Nat) (inv : MSelectionList), PathsIn S inv →
      PathsIn S (checkMeshUVFlip.faceLoop taskData g dagPath uvSetNames remaining f inv) := by
  intro remaining
  induction remaining with
  | zero => intro f inv h; exact h
  | succ r ih =>
    intro f inv h
    rw [checkMeshUVFlip.faceLoop]
    split
    · exact ih _ _ (uvFlip_setLoop_paths S g dagPath hp f uvSetNames inv h)
    · split
      · exact ih _ _ (pathsIn_add _ _ _ _ h hp)
      · exact ih _ _ h

theorem uvFlip_worker_paths (taskData : TaskData) (S : List MDagPath)
    (l : List (Mesh checkMeshUVFlip.Geom)) (hl : ∀ m ∈ l, m.path ∈ S) :
    PathsIn S (checkMeshUVFlip.searchMeshUVFlipTd taskData l).invalidList := by
  apply tdLoop_holds_of_mem _ (PathsIn S) l [] _ (pathsIn_nil S)
  intro inv m hm h
  have hp := hl m hm
  unfold checkMeshUVFlip.visitMesh
  repeat' split
  all_goals first
    | exact h
    | exact uvFlip_faceLoop_paths S taskData _ _ hp _ _ _ _ h

theorem uvNegative_setLoop_paths (S : List MDagPath) (g : checkMeshUVNegative.Geom)
    (dagPath : MDagPath) (hp : dagPath ∈ S) (f : Nat) (uvSetNames : List String) :
    ∀ inv : MSelectionList, PathsIn S inv →
      PathsIn S (checkMeshUVNegative.setLoop g dagPath f uvSetNames inv).invalidList := by
  induction uvSetNames with
  | nil => intro inv h; exact h
  | cons name rest ih =>
    intro inv h
    rw [checkMeshUVNegative.setLoop]
    repeat' split
    all_goals first | exact h | exact ih _ h | exact ih _ (pathsIn_add _ _ _ _ h hp)

theorem uvNegative_faceLoop_paths (S : List MDagPath) (taskData : TaskData)
    (g : checkMeshUVNegative.Geom) (dagPath : MDagPath) (hp : dagPath ∈ S)
    (uvSetNames : List String) :
    ∀ (remaining f : Nat) (inv : MSelectionList), PathsIn S inv →
      PathsIn S
        (checkMeshUVNegative.faceLoop taskData g dagPath uvSetNames remaining f inv).invalidList := by
  intro remaining
  induction remaining with
  | zero => intro f inv h; exact h
  | succ r ih =>
    intro f inv h
    rw [checkMeshUVNegative.faceLoop]
    split
    · split
      · rename_i e
        have he := congrArg TdResult.invalidList e
        simp only at he
        apply ih
        rw [← he]
        exact uvNegative_setLoop_paths S g dagPath hp _ _ inv h
      · rename_i e
        have he := congrArg TdResult.invalidList e
        simp only at he
        show PathsIn S _
        rw [← he]
        exact uvNegative_setLoop_paths S g dagPath hp _ _ inv h
    · split
      · exact h
      · split
        · exact ih _ _ (pathsIn_add _ _ _ _ h hp)
        · exact ih _ _ h

theorem uvNegative_worker_paths (taskData : TaskData) (S : List MDagPath)
    (l : List (Mesh checkMeshUVNegative.Geom)) (hl : ∀ m ∈ l, m.path ∈ S) :
    PathsIn S (checkMeshUVNegative.searchMeshUVNegativeTd taskData l).invalidList := by
  apply tdLoop_holds_of_mem _ (PathsIn S) l [] _ (pathsIn_nil S)
  intro inv m hm h
  have hp := hl m hm
  unfold checkMeshUVNegative.visitMesh
  split
  · exact h
  · split
    · exact h
    · split
      · exact h
      · split
        · exact h
        · split
          · exact h
          · split
            · exact h
            · split
              · rename_i e
                have he := congrArg TdResult.invalidList e
                simp only at he
                rw [← he]
                exact uvNegative_faceLoop_paths S taskData _ _ hp _ _ _ _ h
              · rename_i e
                have he := congrArg TdResult.invalidList e
                simp only at he
                rw [← he]
                exact uvNegative_faceLoop_paths S taskData _ _ hp _ _ _ _ h

theorem uvTiling_setLoop_paths (S : List MDagPath) (g : checkMeshUVTilingOver.Geom)
    (dagPath : MDagPath) (hp : dagPath ∈ S) (uvSetNames : List String) :
    ∀ inv : MSelectionList, PathsIn S inv →
      PathsIn S (checkMeshUVTilingOver.setLoop g dagPath uvSetNames inv).invalidList := by
  induction uvSetNames with
  | nil => intro inv h; exact h
  | cons name rest ih =>
    intro inv h
    rw [checkMeshUVTilingOver.setLoop]
    repeat' split
    all_goals first
      | exact h
      | exact pathsIn_add _ _ _ _ h hp
      | exact ih _ h
      | exact ih _ (pathsIn_add _ _ _ _ h hp)

theorem uvTiling_worker_paths (taskData : TaskData) (S : List MDagPath)
    (l : List (Mesh checkMeshUVTilingOver.Geom)) (hl : ∀ m ∈ l, m.path ∈ S) :
    PathsIn S (checkMeshUVTilingOver.searchMeshUVTilingOverTd taskData l).invalidList := by
  apply tdLoop_holds_of_mem _ (PathsIn S) l [] _ (pathsIn_nil S)
  intro inv m hm h
  have hp := hl m hm
  unfold checkMeshUVTilingOver.visitMesh
  split
  · exact h
  · split
    · exact h
    · split
      · exact h
      · split
        · exact h
        · split
          · exact h
          · split
            · split
              · rename_i e
                have he := congrArg TdResult.invalidList e
                simp only at he
                rw [← he]
                exact uvTiling_setLoop_paths S _ _ hp _ inv h
              · rename_i e
                have he := congrArg TdResult.invalidList e
                simp only at he
                rw [← he]
                exact uvTiling_setLoop_paths S _ _ hp _ inv h
            · split
              · exact h
              · exact pathsIn_add _ _ _ _ h hp
              · exact h

theorem spans0_visitNode_paths (S : List MDagPath) (inv inv' : MSelectionList)
    (node : CurveNode)
    (hnode : node.isIntermediateObject = false → ∀ p, node.getPath = some p → p ∈ S)
    (h : PathsIn S inv) (e : checkCurveSpans0Count.visitNode inv node = Except.ok inv') :
    PathsIn S inv' := by
  unfold checkCurveSpans0Count.visitNode at e
  cases hp : node.getPath with
  | none =>
    rw [hp] at e
    cases e
  | some p =>
    rw [hp] at e
    simp only at e
    by_cases hd : node.dagNode ≠ MStatus.kSuccess
    · rw [if_pos hd] at e
      cases e
    · rw [if_neg hd] at e
      cases hi : node.isIntermediateObject with
      | true =>
        simp only [hi, if_true, Except.ok.injEq] at e
        subst e
        exact h
      | false =>
        have hpS : p ∈ S := hnode hi p hp
        simp only [hi, Bool.false_eq_true, if_false] at e
        repeat' split at e
        all_goals (cases e <;> first | exact h | exact pathsIn_add _ _ _ _ h hpS)

theorem spans0_dagLoop_paths (S : List MDagPath) (scene : List CurveNode)
    (hS : CoversCurves S scene) :
    ∀ inv inv' : MSelectionList, PathsIn S inv →
      checkCurveSpans0Count.dagLoop inv scene = Except.ok inv' → PathsIn S inv' := by
  induction scene with
  | nil =>
    intro inv inv' h e
    simp only [checkCurveSpans0Count.dagLoop, Except.ok.injEq] at e
    subst e
    exact h
  | cons node rest ih =>
    intro inv inv' h e
    rw [checkCurveSpans0Count.dagLoop] at e
    cases hv : checkCurveSpans0Count.visitNode inv node with
    | error err =>
      rw [hv] at e
      cases e
    | ok inv1 =>
      rw [hv] at e
      exact ih (fun n hn => hS n (List.mem_cons_of_mem _ hn)) inv1 inv'
        (spans0_visitNode_paths S inv inv1 node (hS node (List.mem_cons_self _ _)) h hv) e

theorem visitCV_paths (S : List MDagPath) (dagPath : MDagPath) (hp : dagPath ∈ S)
    (st : checkCurveSamePosition.ScanState) (cvp : Point) (h : ScanPathsIn S st) :
    ScanPathsIn S (checkCurveSamePosition.visitCV dagPath st cvp) := by
  unfold checkCurveSamePosition.visitCV
  cases hm : checkCurveSamePosition.mapFind st.check_map cvp with
  | none =>
    refine ⟨h.1, ?_⟩
    intro x q hq
    simp only [checkCurveSamePosition.mapFind] at hq
    by_cases hx : cvp = x
    · rw [if_pos hx] at hq
      cases hq
      exact hp
    · rw [if_neg hx] at hq
      exact h.2 x q hq
  | some first =>
    refine ⟨?_, h.2⟩
    intro it hit
    simp only at hit
    rcases (checkCurveSamePosition.mem_addIfAbsent _ _ _).1 hit with h1 | h1
    · rcases (checkCurveSamePosition.mem_addIfAbsent _ _ _).1 h1 with h2 | h2
      · exact h.1 it h2
      · rw [h2]
        exact hp
    · rw [h1]
      exact h.2 cvp first hm

theorem cvLoop_paths (S : List MDagPath) (dagPath : MDagPath) (hp : dagPath ∈ S)
    (cvs : List Point) :
    ∀ (r i : Nat) (st st' : checkCurveSamePosition.ScanState), ScanPathsIn S st →
      checkCurveSamePosition.cvLoop dagPath cvs r i st = Except.ok st' → ScanPathsIn S st' := by
  intro r
  induction r with
  | zero =>
    intro i st st' h e
    simp only [checkCurveSamePosition.cvLoop, Except.ok.injEq] at e
    subst e
    exact h
  | succ r ih =>
    intro i st st' h e
    rw [checkCurveSamePosition.cvLoop] at e
    cases hc : cvs[i]? with
    | none =>
      rw [hc] at e
      cases e
    | some cvp =>
      rw [hc] at e
      exact ih (i + 1) _ st' (visitCV_paths S dagPath hp st cvp h) e

theorem samePosition_visitNode_paths (S : List MDagPath)
    (st st' : checkCurveSamePosition.ScanState) (node : CurveNode)
    (hnode : node.isIntermediateObject = false → ∀ p, node.getPath = some p → p ∈ S)
    (h : ScanPathsIn S st) (e : checkCurveSamePosition.visitNode st node = Except.ok st') :
    ScanPathsIn S st' := by
  unfold checkCurveSamePosition.visitNode at e
  cases hp : node.getPath with
  | none =>
    rw [hp] at e
    cases e
  | some p =>
    rw [hp] at e
    simp only at e
    by_cases hd : node.dagNode ≠ MStatus.kSuccess
    · rw [if_pos hd] at e
      cases e
    · rw [if_neg hd] at e
      cases hi : node.isIntermediateObject with
      | true =>
        simp only [hi, if_true, Except.ok.injEq] at e
        subst e
        exact h
      | false =>
        have hpS : p ∈ S := hnode hi p hp
        simp only [hi, Bool.false_eq_true, if_false] at e
        split at e
        · cases e
          exact h
        · split at e
          · cases e
          · split at e
            · cases e
            · split at e
              · cases e
              · exact cvLoop_paths S p hpS _ _ _ _ _ h e

theorem samePosition_dagLoop_paths (S : List MDagPath) (scene : List CurveNode)
    (hS : CoversCurves S scene) :
    ∀ st st' : checkCurveSamePosition.ScanState, ScanPathsIn S st →
      checkCurveSamePosition.dagLoop st scene = Except.ok st' → ScanPathsIn S st' := by
  induction scene with
  | nil =>
    intro st st' h e
    simp only [checkCurveSamePosition.dagLoop, Except.ok.injEq] at e
    subst e
    exact h
  | cons node rest ih =>
    intro st st' h e
    rw [checkCurveSamePosition.dagLoop] at e
    cases hv : checkCurveSamePosition.visitNode st node with
    | error err =>
      rw [hv] at e
      cases e
    | ok st1 =>
      rw [hv] at e
      exact ih (fun n hn => hS n (List.mem_cons_of_mem _ hn)) st1 st'
        (samePosition_visitNode_paths S st st1 node (hS node (List.mem_cons_self _ _)) h hv) e

theorem coversCurves_collected (scene : List CurveNode) :
    CoversCurves ((curvesCollected scene).filterMap fun n => n.getPath) scene := by
  intro node hn hi p hp
  rw [List.mem_filterMap]
  refine ⟨node, ?_, hp⟩
  unfold curvesCollected
  rw [List.mem_filter]
  exact ⟨hn, by simp [hi]⟩

theorem curveRun_invalid (scan : Except Fault MSelectionList) (sh : Shell) (select : Bool)
    (s : Session) (r : RunResult) (hrun : curveRun scan sh select s = Except.ok r) :
    scan = Except.ok r.cmd._invalid := by
  unfold curveRun at hrun
  cases scan with
  | error e => cases hrun
  | ok invalid =>
    simp only [Except.ok.injEq] at hrun
    subst hrun
    rfl

theorem samePosition_doIt_paths (scene : List CurveNode) (invalid : MSelectionList)
    (e : checkCurveSamePosition.doIt scene = Except.ok invalid) :
    PathsIn ((curvesCollected scene).filterMap fun n => n.getPath) invalid := by
  unfold checkCurveSamePosition.doIt at e
  cases hd : checkCurveSamePosition.dagLoop (checkCurveSamePosition.ScanState.mk [] []) scene with
  | error err =>
    rw [hd] at e
    cases e
  | ok st =>
    rw [hd] at e
    simp only [Except.ok.injEq] at e
    subst e
    exact (samePosition_dagLoop_paths _ scene (coversCurves_collected scene) _ st
      ⟨pathsIn_nil _, fun x q hq => by simp [checkCurveSamePosition.mapFind] at hq⟩ hd).1

theorem spans0_doIt_paths (scene : List CurveNode) (invalid : MSelectionList)
    (e : checkCurveSpans0Count.doIt scene = Except.ok invalid) :
    PathsIn ((curvesCollected scene).filterMap fun n => n.getPath) invalid :=
  spans0_dagLoop_paths _ scene (coversCurves_collected scene) [] invalid (pathsIn_nil _) e

theorem meshRun_ok_paths {G : Type} (checksArgs checkSize releaseOnInitFailure : Bool)
    (worker : List (Mesh G) → TdResult) (sh : Shell) (host : Host) (select flagsOk : Bool)
    (scene : List (Mesh G)) (s : Session) (r : RunResult)
    (hw : ∀ (S : List MDagPath) (l : List (Mesh G)), (∀ m ∈ l, m.path ∈ S) →
      PathsIn S (worker l).invalidList)
    (hrun : Except.ok (ε := Fault) (meshRun checksArgs checkSize releaseOnInitFailure worker sh host
      select flagsOk scene s) = Except.ok r) :
    PathsIn ((collected scene).map fun m => m.path) r.cmd._invalid := by
  simp only [Except.ok.injEq] at hrun
  subst hrun
  exact meshRun_paths checksArgs checkSize releaseOnInitFailure worker sh host select flagsOk
    scene s hw

/-- C26: intermediate objects are ignored, in each of the nine commands.  When
the host calls that precede the intermediate test succeed for the intermediate
objects, the run is the run on the scene without them, whatever their geometry
is; and every entry of the invalid list a run leaves has the path of an object
of the scene that is not an intermediate object. -/
theorem intermediate_objects_ignored (inv : Invocation) (sh : Shell) (s : Session) :
    (inv.IntermediateWalkOk → inv.run sh s = inv.withoutIntermediate.run sh s) ∧
    (∀ r, inv.run sh s = Except.ok r → ∀ it ∈ r.cmd._invalid, it.path ∈ inv.objectPaths) := by
  refine ⟨run_withoutIntermediate inv sh s, ?_⟩
  intro r hrun
  cases inv with
  | curveSamePosition select scene =>
    exact samePosition_doIt_paths scene _ (curveRun_invalid _ sh select s r hrun)
  | curveSpans0Count select scene =>
    exact spans0_doIt_paths scene _ (curveRun_invalid _ sh select s r hrun)
  | meshDoubleFace select host scene =>
    exact meshRun_ok_paths _ _ _ _ sh host _ _ scene s r doubleFace_worker_paths hrun
  | meshFace0Count select host scene =>
    exact meshRun_ok_paths _ _ _ _ sh host _ _ scene s r face0_worker_paths hrun
  | meshFreeze select host scene =>
    exact meshRun_ok_paths _ _ _ _ sh host _ _ scene s r freeze_worker_paths hrun
  | meshNormalLock select host scene =>
    exact meshRun_ok_paths _ _ _ _ sh host _ _ scene s r normalLock_worker_paths hrun
  | meshUVFlip flags indeterminate host scene =>
    exact meshRun_ok_paths _ _ _ _ sh host _ _ scene s r (uvFlip_worker_paths _) hrun
  | meshUVNegative flags indeterminate host scene =>
    exact meshRun_ok_paths _ _ _ _ sh host _ _ scene s r (uvNegative_worker_paths _) hrun
  | meshUVTilingOver flags indeterminate host scene =>
    exact meshRun_ok_paths _ _ _ _ sh host _ _ scene s r (uvTiling_worker_paths _) hrun

theorem intermediate_objects_ignored_witness :
    checkCurveSamePosition.doIt intermediateScene = Except.ok [] ∧
    checkCurveSamePosition.doIt
        [curveNode 1 [(0, 0, 0), (1, 0, 0)] Form.kOpen 1,
          curveNode 7 [(0, 0, 0), (1, 0, 0)] Form.kOpen 0]
      = Except.ok [SelItem.mk 7 none, SelItem.mk 1 none] ∧
    (Invocation.curveSamePosition false intermediateScene).run shellOk session9
      = (Invocation.curveSamePosition false intermediateScene).withoutIntermediate.run shellOk
          session9 :=
  ⟨rfl, rfl,
    (intermediate_objects_ignored (Invocation.curveSamePosition false intermediateScene) shellOk
      session9).1 (by
        intro node hn hi
        simp only [intermediateScene, List.mem_cons, List.mem_singleton, List.not_mem_nil,
          or_false] at hn
        rcases hn with rfl | rfl
        · exact ⟨by simp [curveNode], rfl⟩
        · exact ⟨by simp, rfl⟩)⟩

/-! ### A scene without objects -/

theorem taskCount_zero_length (hc : Nat) : taskCount hc 0 = 0 := by
  unfold taskCount
  simp

theorem searchMesh_nil {G : Type} (worker : List (Mesh G) → TdResult) (host : Host) :
    searchMesh worker host [] = ([], MStatus.kSuccess) := by
  unfold searchMesh runTasks
  simp only [List.length_nil, taskCount_zero_length, List.range_zero, List.map_nil]
  rfl

theorem finish_empty (sh : Shell) (cmd : Command) (s s' : Session) (select : Bool)
    (strings : List String) (hinv : cmd._invalid = []) (hsel : cmd._isSelect = select)
    (hact : s'.activeSelection = s.activeSelection) (hres : s'.result = s.result)
    (hset : sh.setActiveSelectionList = MStatus.kSuccess)
    (hstr : sh.getSelectionStrings [] = some strings) :
    EmptyOutcome select strings s (finish sh cmd s') := by
  unfold EmptyOutcome
  cases select with
  | true =>
    have e : finish sh cmd s' = RunResult.mk MStatus.kSuccess cmd
        (Session.mk cmd._invalid s'.result s'.initCalls s'.releaseCalls) := by
      unfold finish redoIt
      rw [hsel]
      simp [hset]
    rw [e]
    exact ⟨rfl, hinv, fun _ => ⟨hinv, hres⟩, fun h => by cases h⟩
  | false =>
    have e : finish sh cmd s' = RunResult.mk MStatus.kSuccess cmd
        (Session.mk s'.activeSelection (some strings) s'.initCalls s'.releaseCalls) := by
      unfold finish redoIt
      rw [hsel, hinv]
      simp [hstr]
    rw [e]
    exact ⟨rfl, hinv, fun h => (by cases h), fun _ => ⟨rfl, hact⟩⟩

theorem getAllMesh_noMesh {G : Type} (host : Host) (scene : List (Mesh G))
    (hok : MeshSceneOk host scene) (hno : NoMesh scene) : getAllMesh host scene = some [] := by
  have hc : collected scene = [] := by
    unfold collected
    rw [List.filter_eq_nil_iff]
    intro node hn
    simp [hno node hn]
  unfold getAllMesh
  rw [if_neg (not_not.2 hok.1), getAllMeshLoop_ok scene hok.2.2, hc]

theorem meshRun_empty {G : Type} (checksArgs checkSize releaseOnInitFailure : Bool)
    (worker : List (Mesh G) → TdResult) (sh : Shell) (host : Host) (select flagsOk : Bool)
    (scene : List (Mesh G)) (s : Session) (strings : List String)
    (hargs : sh.argParser = MStatus.kSuccess) (hflags : flagsOk = true)
    (hok : MeshSceneOk host scene) (hno : NoMesh scene)
    (hset : sh.setActiveSelectionList = MStatus.kSuccess)
    (hstr : sh.getSelectionStrings [] = some strings) :
    EmptyOutcome select strings s
      (meshRun checksArgs checkSize releaseOnInitFailure worker sh host select flagsOk scene s) ∧
    tasksFor host scene = 0 := by
  have hget := getAllMesh_noMesh host scene hok hno
  constructor
  · unfold meshRun
    have h1 : (checksArgs && decide (sh.argParser ≠ MStatus.kSuccess)) = false := by
      rw [hargs]
      cases checksArgs <;> rfl
    rw [h1, hflags, hget]
    simp only [Bool.false_eq_true, if_false, Bool.not_true, List.length_nil, decide_True,
      Bool.and_true]
    cases checkSize with
    | true =>
      simp only [if_true]
      exact finish_empty sh _ s s select strings (selectFlag_invalid select s)
        (selectFlag_isSelect select s) rfl rfl hset hstr
    | false =>
      simp only [Bool.false_eq_true, if_false]
      rw [if_neg (not_not.2 hok.2.1), searchMesh_nil]
      exact finish_empty sh _ s _ select strings rfl (selectFlag_isSelect select s) rfl rfl hset
        hstr
  · unfold tasksFor
    rw [hget]
    exact taskCount_zero_length _

theorem samePosition_dagLoop_noCurve (scene : List CurveNode) (hok : CurveSceneOk scene)
    (hno : NoCurve scene) :
    ∀ st : checkCurveSamePosition.ScanState,
      checkCurveSamePosition.dagLoop st scene = Except.ok st := by
  induction scene with
  | nil => intro st; rfl
  | cons node rest ih =>
    intro st
    obtain ⟨h1, h2⟩ := hok node (List.mem_cons_self _ _)
    have hs := hno node (List.mem_cons_self _ _)
    have hv : checkCurveSamePosition.visitNode st node = Except.ok st := by
      unfold checkCurveSamePosition.visitNode
      cases hp : node.getPath with
      | none => exact absurd hp h1
      | some p =>
        unfold CurveNode.skipped at hs
        cases hi : node.isIntermediateObject with
        | true => simp [h2]
        | false =>
          rw [hi] at hs
          simp only [Bool.false_or] at hs
          simp [h2, hs]
    rw [checkCurveSamePosition.dagLoop, hv]
    exact ih (fun n hn => hok n (List.mem_cons_of_mem _ hn))
      (fun n hn => hno n (List.mem_cons_of_mem _ hn)) st

theorem spans0_dagLoop_noCurve (scene : List CurveNode) (hok : CurveSceneOk scene)
    (hno : NoCurve scene) :
    ∀ invalid : MSelectionList,
      checkCurveSpans0Count.dagLoop invalid scene = Except.ok invalid := by
  induction scene with
  | nil => intro invalid; rfl
  | cons node rest ih =>
    intro invalid
    obtain ⟨h1, h2⟩ := hok node (List.mem_cons_self _ _)
    have hs := hno node (List.mem_cons_self _ _)
    have hv : checkCurveSpans0Count.visitNode invalid node = Except.ok invalid := by
      unfold checkCurveSpans0Count.visitNode
      cases hp : node.getPath with
      | none => exact absurd hp h1
      | some p =>
        unfold CurveNode.skipped at hs
        cases hi : node.isIntermediateObject with
        | true => simp [h2]
        | false =>
          rw [hi] at hs
          simp only [Bool.false_or] at hs
          simp [h2, hs]
    rw [checkCurveSpans0Count.dagLoop, hv]
    exact ih (fun n hn => hok n (List.mem_cons_of_mem _ hn))
      (fun n hn => hno n (List.mem_cons_of_mem _ hn)) invalid

theorem curveRun_empty (sh : Shell) (select : Bool) (s : Session) (strings : List String)
    (hset : sh.setActiveSelectionList = MStatus.kSuccess)
    (hstr : sh.getSelectionStrings [] = some strings) :
    ∃ r, curveRun (Except.ok []) sh select s = Except.ok r ∧ EmptyOutcome select strings s r :=
  ⟨_, rfl, finish_empty sh _ s s select strings rfl rfl rfl rfl hset hstr⟩

theorem uvFlagsOk_of_success (sh : Shell) (flags : UVFlags)
    (h : sh.getFlagArgument = MStatus.kSuccess) : uvFlagsOk sh flags = true := by
  unfold uvFlagsOk
  cases flags.uvSet with
  | none => rfl
  | some name => simp [h]

/-- C27: on a scene without a non-intermediate object of the scanned type, when
no host call fails, each of the nine commands succeeds with an empty invalid
list: with `-select` the active selection becomes empty, without it the command
result is the selection strings of the empty list.  In the mesh commands the
task count is 0, so the loop that computes the partition bounds is not entered. -/
theorem empty_scene_succeeds (inv : Invocation) (sh : Shell) (s : Session)
    (strings : List String) (hno : inv.NoObject) (hok : inv.SceneOk)
    (hargs : sh.argParser = MStatus.kSuccess) (hflag : sh.getFlagArgument = MStatus.kSuccess)
    (hset : sh.setActiveSelectionList = MStatus.kSuccess)
    (hstr : sh.getSelectionStrings [] = some strings) :
    ∃ r, inv.run sh s = Except.ok r ∧ EmptyOutcome inv.select strings s r ∧ inv.tasks = 0 := by
  cases inv with
  | curveSamePosition select scene =>
    have e : checkCurveSamePosition.doIt scene = Except.ok [] := by
      unfold checkCurveSamePosition.doIt
      rw [samePosition_dagLoop_noCurve scene hok hno]
    obtain ⟨r, hr, ho⟩ := curveRun_empty sh select s strings hset hstr
    refine ⟨r, ?_, ho, rfl⟩
    show curveRun (checkCurveSamePosition.doIt scene) sh select s = Except.ok r
    rw [e]
    exact hr
  | curveSpans0Count select scene =>
    have e : checkCurveSpans0Count.doIt scene = Except.ok [] := by
      unfold checkCurveSpans0Count.doIt
      rw [spans0_dagLoop_noCurve scene hok hno]
    obtain ⟨r, hr, ho⟩ := curveRun_empty sh select s strings hset hstr
    refine ⟨r, ?_, ho, rfl⟩
    show curveRun (checkCurveSpans0Count.doIt scene) sh select s = Except.ok r
    rw [e]
    exact hr
  | meshDoubleFace select host scene =>
    obtain ⟨ho, ht⟩ := meshRun_empty false true false checkMeshDoubleFace.searchDoubleFaceTd sh
      host select true scene s strings hargs rfl hok hno hset hstr
    exact ⟨_, rfl, ho, ht⟩
  | meshFace0Count select host scene =>
    obtain ⟨ho, ht⟩ := meshRun_empty true true false checkMeshFace0Count.searchMeshFace0Count sh
      host select true scene s strings hargs rfl hok hno hset hstr
    exact ⟨_, rfl, ho, ht⟩
  | meshFreeze select host scene =>
    obtain ⟨ho, ht⟩ := meshRun_empty false true true checkMeshFreeze.searchMeshFreezeTd sh
      host select true scene s strings hargs rfl hok hno hset hstr
    exact ⟨_, rfl, ho, ht⟩
  | meshNormalLock select host scene =>
    obtain ⟨ho, ht⟩ := meshRun_empty true false false checkMeshNormalLock.searchMeshNormalLockTd sh
      host select true scene s strings hargs rfl hok hno hset hstr
    exact ⟨_, rfl, ho, ht⟩
  | meshUVFlip flags indeterminate host scene =>
    obtain ⟨ho, ht⟩ := meshRun_empty true true false
      (checkMeshUVFlip.searchMeshUVFlipTd (parseFlags flags indeterminate)) sh host flags.select
      (uvFlagsOk sh flags) scene s strings hargs (uvFlagsOk_of_success sh flags hflag) hok hno hset
      hstr
    exact ⟨_, rfl, ho, ht⟩
  | meshUVNegative flags indeterminate host scene =>
    obtain ⟨ho, ht⟩ := meshRun_empty true false false
      (checkMeshUVNegative.searchMeshUVNegativeTd (parseFlags flags indeterminate)) sh host
      flags.select (uvFlagsOk sh flags) scene s strings hargs
      (uvFlagsOk_of_success sh flags hflag) hok hno hset hstr
    exact ⟨_, rfl, ho, ht⟩
  | meshUVTilingOver flags indeterminate host scene =>
    obtain ⟨ho, ht⟩ := meshRun_empty true false false
      (checkMeshUVTilingOver.searchMeshUVTilingOverTd (parseFlags flags indeterminate)) sh host
      flags.select (uvFlagsOk sh flags) scene s strings hargs
      (uvFlagsOk_of_success sh flags hflag) hok hno hset hstr
    exact ⟨_, rfl, ho, ht⟩

theorem empty_scene_succeeds_witness :
    (∃ r, (Invocation.meshNormalLock true (hostOf 6) noMeshScene).run shellOk session9
        = Except.ok r ∧
      EmptyOutcome (Invocation.meshNormalLock true (hostOf 6) noMeshScene).select [] session9 r ∧
      (Invocation.meshNormalLock true (hostOf 6) noMeshScene).tasks = 0) ∧
    (∃ r, (Invocation.curveSamePosition false noCurveScene).run shellOk session9 = Except.ok r ∧
      EmptyOutcome (Invocation.curveSamePosition false noCurveScene).select [] session9 r ∧
      (Invocation.curveSamePosition false noCurveScene).tasks = 0) :=
  ⟨empty_scene_succeeds (Invocation.meshNormalLock true (hostOf 6) noMeshScene) shellOk session9 []
      (by
        intro node hn
        simp only [noMeshScene, List.mem_singleton] at hn
        subst hn
        rfl)
      ⟨rfl, rfl, by
        intro node hn
        simp only [noMeshScene, List.mem_singleton] at hn
        subst hn
        exact ⟨rfl, rfl⟩⟩
      rfl rfl rfl rfl,
    empty_scene_succeeds (Invocation.curveSamePosition false noCurveScene) shellOk session9 []
      (by
        intro node hn
        simp only [noCurveScene, List.mem_cons, List.mem_singleton, List.not_mem_nil,
          or_false] at hn
        rcases hn with rfl | rfl <;> rfl)
      (by
        intro node hn
        simp only [noCurveScene, List.mem_cons, List.mem_singleton, List.not_mem_nil,
          or_false] at hn
        rcases hn with rfl | rfl <;> exact ⟨by simp, rfl⟩)
      rfl rfl rfl rfl⟩

end ModelCheck
